import Mathlib

/-!
# ERP backend: authentication, access control and the entity handlers

A shallow embedding of the ERP backend (`pkg/response`,
`pkg/middleware/jwt.go`, `modules/user`, `modules/system`, the handlers and
models of the entity modules, the route tables of `main.go` and of the modules)
together with the statements proved about it.

Conventions of the embedding.

* Go `string` values that are text are Lean `String`s; raw byte slices (keys,
  signatures, JSON documents inside a token) are `Bytes`.
* Instants are `Time`: nanoseconds since the Unix epoch. Every call of
  `time.Now()` in the source is an explicit argument of the embedded function.
* The external libraries (`crypto/hmac`, `encoding/base64`, `encoding/json`,
  `golang.org/x/crypto/bcrypt`, `time` parsing) are not part of the repository.
  Their primitives are the fields of `Lib`; what the proofs need from the
  encoders is collected in `Lib.Lawful`. The control flow of `jwt.ParseWithClaims`
  (`github.com/golang-jwt/jwt/v5`) and of the handler chain of `gin` is
  written out, because the middleware depends on it.
* A `gin.Context` is a record that is passed through the handlers; `c.Next()`
  is the continuation given to a handler.
* A table of the storage is a list of rows with the last value of its id
  sequence; a handler that writes returns the new table next to the context.
  What gorm does with a model struct (defaults, time stamps, column sizes,
  the statement behind `Delete`) is written out per model.
-/

namespace Erp

/-! ## Basic types -/

/-- Raw bytes, as in a Go byte slice. -/
abbrev Bytes := List (Fin 256)

/-- An instant, in nanoseconds since the Unix epoch. -/
abbrev Time := Int

/-- Nanoseconds in one second. -/
def second : Int := 1000000000

/-- The duration `24 * time.Hour`, in nanoseconds. -/
def day : Int := 24 * 3600 * second

/-- A JSON document. A number is `num` when its literal is an integer and `frac`
when the literal has a fraction or an exponent; `frac` carries the value. -/
inductive Json where
  | null : Json
  | bool (b : Bool) : Json
  | num (n : Int) : Json
  | frac (q : ℚ) : Json
  | str (s : String) : Json
  | arr (items : List Json) : Json
  | obj (fields : List (String × Json)) : Json

/-! ## Go string functions -/

/-- The pieces of `strings.Split(s, sep)` for a separator of one character. -/
def splitChars (sep : Char) : List Char → List (List Char)
  | [] => [[]]
  | c :: cs =>
    if c = sep then [] :: splitChars sep cs
    else
      match splitChars sep cs with
      | [] => [[c]]
      | p :: ps => (c :: p) :: ps

/-- Go `strings.Split(s, sep)` for a separator of one character. -/
def Split (s : String) (sep : Char) : List String :=
  (splitChars sep s.data).map String.mk

/-- Cut at the first separator: the text before it and, when there is a
separator, the text after it. -/
def cutChars (sep : Char) : List Char → List Char × Option (List Char)
  | [] => ([], none)
  | c :: cs =>
    if c = sep then ([], some cs)
    else ((c :: (cutChars sep cs).1), (cutChars sep cs).2)

/-- Go `strings.SplitN(s, sep, 2)` for a separator of one character. -/
def SplitN2 (s : String) (sep : Char) : List String :=
  match cutChars sep s.data with
  | (a, none) => [String.mk a]
  | (a, some b) => [String.mk a, String.mk b]

/-- The digits of a decimal numeral; `none` when the text is empty or has another
character. -/
def parseDigits (cs : List Char) : Option Nat :=
  if cs = [] then none
  else cs.foldl (fun acc ch =>
    match acc with
    | none => none
    | some n => if ch.isDigit then some (10 * n + (ch.toNat - 48)) else none) (some 0)

/-- Go `strconv.Atoi` on a 64-bit platform: an optional sign and decimal digits,
in the range of `int`; `none` is the error. -/
def Atoi (s : String) : Option Int :=
  match s.data with
  | '-' :: cs =>
    match parseDigits cs with
    | some n => if n ≤ 2 ^ 63 then some (-(n : Int)) else none
    | none => none
  | '+' :: cs =>
    match parseDigits cs with
    | some n => if n < 2 ^ 63 then some (n : Int) else none
    | none => none
  | cs =>
    match parseDigits cs with
    | some n => if n < 2 ^ 63 then some (n : Int) else none
    | none => none

/-! ## pkg/response -/

/-- The response envelope `response.Response`; `Data` has `omitempty`. -/
structure Response where
  Code : Int
  Message : String
  Data : Option Json

/-- The JSON of the envelope by its json tags: `data` is left out when the
interface value is nil. -/
def Response.toJson (r : Response) : Json :=
  Json.obj ([("code", Json.num r.Code), ("message", Json.str r.Message)] ++
    match r.Data with
    | none => []
    | some d => [("data", d)])

/-- The keys of a JSON object, in order; no keys for another document. -/
def Json.keys : Json → List String
  | Json.obj fields => fields.map Prod.fst
  | _ => []

/-- The member of a JSON object with the given key. -/
def Json.get? (doc : Json) (key : String) : Option Json :=
  match doc with
  | Json.obj fields => fields.lookup key
  | _ => none

/-! ## The gin context and the handler chain -/

/-- A value stored in the context with `c.Set` (an `interface{}` in Go). -/
inductive Value where
  | uint (n : Nat) : Value
  | str (s : String) : Value
deriving DecidableEq, Repr

/-- Ghost events: the start of a handler of the chain and a call of the token
parser. They record what ran; no handler reads them. -/
inductive Event where
  | handler (name : String) : Event
  | parse (tokenString : String) : Event
deriving DecidableEq, Repr

/-- The part of `gin.Context` the handlers use. `Written` lists the calls of
`c.JSON` (status, body), `index` is the position in the handler chain,
`Panicked` is set when a handler panics, `Log` is the ghost event log. -/
structure Context where
  Header : List (String × String)
  Body : Option Json
  Keys : List (String × Value)
  Written : List (Nat × Response)
  index : Int
  Panicked : Bool
  Log : List Event

/-- The constant `abortIndex` of gin: `math.MaxInt8 >> 1`. -/
def abortIndex : Int := 63

/-- The method `c.GetHeader(key)`: the first value of the header, the empty string
when the header is missing. -/
def Context.GetHeader (c : Context) (key : String) : String :=
  match c.Header.lookup key with
  | some v => v
  | none => ""

/-- The method `c.Set(key, value)`. -/
def Context.Set (c : Context) (key : String) (value : Value) : Context :=
  { c with Keys := (key, value) :: c.Keys.filter (fun kv => kv.1 ≠ key) }

/-- The method `c.Get(key)`. -/
def Context.Get (c : Context) (key : String) : Option Value :=
  c.Keys.lookup key

/-- The method `c.JSON(code, obj)`. -/
def Context.JSON (c : Context) (code : Nat) (obj : Response) : Context :=
  { c with Written := c.Written ++ [(code, obj)] }

/-- The method `c.Abort()`. -/
def Context.Abort (c : Context) : Context :=
  { c with index := abortIndex }

/-- The method `c.IsAborted()`. -/
def Context.IsAborted (c : Context) : Bool :=
  decide (abortIndex ≤ c.index)

/-- A run-time panic in a handler. -/
def Context.panic (c : Context) : Context :=
  { c with Panicked := true }

/-- Ghost: append an event to the log. -/
def Context.record (c : Context) (e : Event) : Context :=
  { c with Log := c.Log ++ [e] }

/-- A `gin.HandlerFunc`: its first argument is what `c.Next()` does when the
handler calls it. -/
abbrev HandlerFunc := (Context → Context) → Context → Context

/-- A handler of a chain with the name gin knows it by. -/
structure Handler where
  name : String
  fn : HandlerFunc

/-- The loop of `c.Next()`:
`for c.index < len(c.handlers) { c.handlers[c.index](c); c.index++ }`.
The list is the part of `c.handlers` from position `c.index` on, `len` is
`len(c.handlers)`. A panic unwinds the whole chain. -/
def runLoop (len : Int) : List Handler → Context → Context
  | [], c => c
  | h :: rest, c =>
    if c.Panicked then c
    else if c.index < len then
      let c1 := h.fn (fun c2 => runLoop len rest { c2 with index := c2.index + 1 })
        (c.record (Event.handler h.name))
      if c1.Panicked then c1
      else runLoop len rest { c1 with index := c1.index + 1 }
    else c

/-- An incoming request: its headers and its body. The body is `none` when it
is not a JSON document; object keys are in the spelling of the json tags
(`encoding/json` matches keys without regard to letter case). -/
structure Request where
  Header : List (String × String)
  Body : Option Json

/-- The method `c.reset()` of gin for a new request. -/
def Context.reset (r : Request) : Context :=
  { Header := r.Header, Body := r.Body, Keys := [], Written := [], index := -1,
    Panicked := false, Log := [] }

/-- The method `c.Next()`, given the handlers after the current position. -/
def Context.Next (len : Int) (pending : List Handler) (c : Context) : Context :=
  runLoop len pending { c with index := c.index + 1 }

/-- Serving a request with a handler chain: gin resets the context and calls
`c.Next()`. -/
def serve (handlers : List Handler) (r : Request) : Context :=
  (Context.reset r).Next handlers.length handlers

namespace response

/-- The function `response.Success`. -/
def Success (c : Context) (data : Option Json) : Context :=
  c.JSON 200 { Code := 0, Message := "success", Data := data }

/-- The function `response.Error`. -/
def Error (c : Context) (code : Nat) (message : String) : Context :=
  c.JSON code { Code := code, Message := message, Data := none }

/-- The function `response.BadRequestResponse`. -/
def BadRequestResponse (c : Context) (message : String) : Context :=
  Error c 400 message

/-- The function `response.NotFoundResponse`. -/
def NotFoundResponse (c : Context) (message : String) : Context :=
  Error c 404 message

/-- The function `response.InternalServerErrorResponse`. -/
def InternalServerErrorResponse (c : Context) (message : String) : Context :=
  Error c 500 message

/-- The function `response.UnauthorizedResponse`. -/
def UnauthorizedResponse (c : Context) (message : String) : Context :=
  Error c 401 message

/-- The function `response.ForbiddenResponse`. -/
def ForbiddenResponse (c : Context) (message : String) : Context :=
  Error c 403 message

end response

/-! ## The external libraries -/

/-- The hash functions of the HMAC signing methods. -/
inductive Hash where
  | SHA256 : Hash
  | SHA384 : Hash
  | SHA512 : Hash
deriving DecidableEq, Repr

/-- The registered claims of `jwt.RegisteredClaims` that the token code sets and
the validator reads: numeric dates, in whole seconds since the Unix epoch. -/
structure RegisteredClaims where
  ExpiresAt : Option Int
  NotBefore : Option Int
  IssuedAt : Option Int
deriving DecidableEq, Repr

/-- The struct `middleware.Claims`. -/
structure Claims where
  UserID : Nat
  UserType : String
  RegisteredClaims : RegisteredClaims
deriving DecidableEq, Repr

/-- The primitives of the external libraries.

* `hmac h key text`: the MAC of `crypto/hmac` with hash `h`.
* `EncodeSegment`, `DecodeSegment`: unpadded base64url, as used by the jwt library.
* `marshalHeader alg`: the JSON of the token header with that `alg` and `typ`
  `JWT`; `unmarshalHeader` gives `none` when the bytes are not a JSON object and
  otherwise the `alg` entry when it is a string.
* `marshalClaims`, `unmarshalClaims`: `encoding/json` on `middleware.Claims`.
* `bcryptHash password cost salt`: `bcrypt.GenerateFromPassword`, the random salt
  made explicit, `none` when it returns an error.
* `bcryptCompare hash password`: whether `bcrypt.CompareHashAndPassword` returns
  no error.
* `parseTime`: the RFC 3339 parser of `time.Time.UnmarshalJSON`; `formatTime`
  its inverse direction, used when a time is written as JSON.
* `sqlInt`, `sqlBool`: how the storage reads the text of a query parameter that
  is compared with an integer or a boolean column; `none` when it refuses the
  text.
* `jsonMarshal`: `json.Marshal` on a value that prints as the given document,
  `none` when it returns an error; `jsonUnmarshal`: the document `json.Unmarshal`
  reads from the bytes, `none` when they are not JSON. -/
structure Lib where
  hmac : Hash → Bytes → String → Bytes
  EncodeSegment : Bytes → String
  DecodeSegment : String → Option Bytes
  marshalHeader : String → Bytes
  unmarshalHeader : Bytes → Option (Option String)
  marshalClaims : Claims → Bytes
  unmarshalClaims : Bytes → Option Claims
  bcryptHash : String → Nat → Bytes → Option String
  bcryptCompare : String → String → Bool
  parseTime : String → Option Time
  formatTime : Time → String
  sqlInt : String → Option Int
  sqlBool : String → Option Bool
  jsonMarshal : Json → Option Bytes
  jsonUnmarshal : Bytes → Option Json

/-- Whether a numeric date survives JSON: the jwt library reads it back through a
64-bit float, which is exact up to `2 ^ 53` seconds. -/
def dateRepresentable : Option Int → Bool
  | none => true
  | some x => decide (-(2 ^ 53) ≤ x) && decide (x ≤ 2 ^ 53)

/-- The claims that Go can hold and JSON carries exactly: the user id is a `uint`
of 64 bits, the dates are representable. -/
def Claims.Representable (cl : Claims) : Bool :=
  decide (cl.UserID < 2 ^ 64) && dateRepresentable cl.RegisteredClaims.ExpiresAt &&
  dateRepresentable cl.RegisteredClaims.NotBefore &&
  dateRepresentable cl.RegisteredClaims.IssuedAt

/-- A clock reading between 1970 and `2 ^ 62` nanoseconds later (the year 2116). -/
def validClock (t : Time) : Prop := 0 ≤ t ∧ t ≤ 2 ^ 62

instance (t : Time) : Decidable (validClock t) :=
  inferInstanceAs (Decidable (0 ≤ t ∧ t ≤ 2 ^ 62))

/-- What the proofs assume of the encoders: decoding inverts encoding (for the
claims that are representable) and the base64url alphabet has no dot. -/
structure Lib.Lawful (L : Lib) : Prop where
  decode_encode : ∀ b, L.DecodeSegment (L.EncodeSegment b) = some b
  encode_no_dot : ∀ b, '.' ∉ (L.EncodeSegment b).data
  header_roundtrip : ∀ alg, L.unmarshalHeader (L.marshalHeader alg) = some (some alg)
  claims_roundtrip : ∀ cl : Claims, cl.Representable = true →
    L.unmarshalClaims (L.marshalClaims cl) = some cl

/-- Whether a number is a decimal of at most 15 significant digits and at most
300 decimals: a 64-bit float carries such a number exactly, in the sense that
its shortest decimal form is that number. -/
def Json.decimal15 (q : ℚ) : Bool :=
  (List.range 301).any (fun k =>
    decide ((q * 10 ^ k).den = 1) && decide (|(q * 10 ^ k).num| < 10 ^ 15))

mutual
/-- Whether a document is the JSON of a Go value that was decoded from JSON, in
the form `encoding/json` prints: the members of an object are in increasing
order of their keys (the order in which `json.Marshal` prints a map, which has
no key twice), an integer is at most `2 ^ 53` in magnitude, and a number with a
fraction is a decimal of at most 15 significant digits: the numbers a 64-bit
float prints as they are. -/
def Json.Canonical : Json → Bool
  | .null => true
  | .bool _ => true
  | .num n => decide (|n| ≤ 2 ^ 53)
  | .frac q => decide (q.den ≠ 1) && Json.decimal15 q
  | .str _ => true
  | .arr items => Json.allCanonical items
  | .obj fields =>
    decide ((fields.map Prod.fst).Pairwise (fun a b => a < b)) && Json.fieldsCanonical fields
/-- Whether every document of a list is canonical. -/
def Json.allCanonical : List Json → Bool
  | [] => true
  | j :: rest => j.Canonical && Json.allCanonical rest
/-- Whether every member of an object has a canonical value. -/
def Json.fieldsCanonical : List (String × Json) → Bool
  | [] => true
  | (_, v) :: rest => v.Canonical && Json.fieldsCanonical rest
end

namespace jwt

/-- The signing methods the library registers. -/
inductive SigningMethod where
  | HMAC (h : Hash) : SigningMethod
  | RSA (h : Hash) : SigningMethod
  | RSAPSS (h : Hash) : SigningMethod
  | ECDSA (h : Hash) : SigningMethod
  | Ed25519 : SigningMethod
  | none : SigningMethod
deriving DecidableEq, Repr

/-- The variable `jwt.SigningMethodHS256`. -/
def SigningMethodHS256 : SigningMethod := SigningMethod.HMAC Hash.SHA256

/-- The method `Alg()` of a signing method. -/
def SigningMethod.Alg : SigningMethod → String
  | .HMAC .SHA256 => "HS256"
  | .HMAC .SHA384 => "HS384"
  | .HMAC .SHA512 => "HS512"
  | .RSA .SHA256 => "RS256"
  | .RSA .SHA384 => "RS384"
  | .RSA .SHA512 => "RS512"
  | .RSAPSS .SHA256 => "PS256"
  | .RSAPSS .SHA384 => "PS384"
  | .RSAPSS .SHA512 => "PS512"
  | .ECDSA .SHA256 => "ES256"
  | .ECDSA .SHA384 => "ES384"
  | .ECDSA .SHA512 => "ES512"
  | .Ed25519 => "EdDSA"
  | .none => "none"

/-- The function `jwt.GetSigningMethod`: the registered method of that name. -/
def GetSigningMethod (alg : String) : Option SigningMethod :=
  [SigningMethod.HMAC .SHA256, .HMAC .SHA384, .HMAC .SHA512,
   .RSA .SHA256, .RSA .SHA384, .RSA .SHA512,
   .RSAPSS .SHA256, .RSAPSS .SHA384, .RSAPSS .SHA512,
   .ECDSA .SHA256, .ECDSA .SHA384, .ECDSA .SHA512,
   .Ed25519, .none].find? (fun m => m.Alg == alg)

/-- The type assertion `token.Method.(*jwt.SigningMethodHMAC)`. -/
def SigningMethod.isHMAC : SigningMethod → Bool
  | .HMAC _ => true
  | _ => false

/-- The error kinds of the parser. -/
inductive Error where
  | TokenMalformed : Error
  | TokenUnverifiable : Error
  | TokenSignatureInvalid : Error
  | InvalidKeyType : Error
  | TokenInvalidClaims (expired notValidYet : Bool) : Error
deriving DecidableEq, Repr

/-- The struct `jwt.Token`; of the header only the `alg` entry is kept. -/
structure Token where
  Raw : String
  Method : SigningMethod
  Header : String
  Claims : Claims
  Signature : Bytes
  Valid : Bool
deriving DecidableEq, Repr

/-- The function `jwt.NewNumericDate`: the instant truncated to `jwt.TimePrecision`,
which is one second. -/
def NewNumericDate (t : Time) : Int := t / second

/-- The function `jwt.NewWithClaims`. -/
def NewWithClaims (method : SigningMethod) (claims : Claims) : Token :=
  { Raw := "", Method := method, Header := method.Alg, Claims := claims,
    Signature := [], Valid := false }

/-- The method `Sign` with a key that is a byte slice: the HMAC methods compute
the MAC, every other method refuses a key of that type. -/
def SigningMethod.Sign (L : Lib) (m : SigningMethod) (signingString : String)
    (key : Bytes) : Except Error Bytes :=
  match m with
  | .HMAC h => .ok (L.hmac h key signingString)
  | _ => .error Error.InvalidKeyType

/-- The method `Verify` with a key that is a byte slice: the HMAC methods
recompute the MAC and compare, every other method refuses a key of that type. -/
def SigningMethod.Verify (L : Lib) (m : SigningMethod) (signingString : String)
    (sig : Bytes) (key : Bytes) : Bool :=
  match m with
  | .HMAC h => decide (sig = L.hmac h key signingString)
  | _ => false

/-- The method `token.SigningString()`. -/
def Token.SigningString (L : Lib) (t : Token) : String :=
  L.EncodeSegment (L.marshalHeader t.Header) ++ "." ++
    L.EncodeSegment (L.marshalClaims t.Claims)

/-- The method `token.SignedString(key)`. -/
def Token.SignedString (L : Lib) (t : Token) (key : Bytes) : Except Error String :=
  match t.Method.Sign L (t.SigningString L) key with
  | .error e => .error e
  | .ok sig => .ok (t.SigningString L ++ "." ++ L.EncodeSegment sig)

/-- The method `Parser.ParseUnverified` into `middleware.Claims`: three segments,
header and claims decoded, the signing method looked up. The result carries the
three segments. -/
def ParseUnverified (L : Lib) (tokenString : String) :
    Except Error (Token × String × String × String) :=
  match Split tokenString '.' with
  | [p0, p1, p2] =>
    match L.DecodeSegment p0 with
    | Option.none => .error Error.TokenMalformed
    | some headerBytes =>
      match L.unmarshalHeader headerBytes with
      | Option.none => .error Error.TokenMalformed
      | some header =>
        match L.DecodeSegment p1 with
        | Option.none => .error Error.TokenMalformed
        | some claimBytes =>
          match L.unmarshalClaims claimBytes with
          | Option.none => .error Error.TokenMalformed
          | some claims =>
            match header with
            | Option.none => .error Error.TokenUnverifiable
            | some alg =>
              match GetSigningMethod alg with
              | Option.none => .error Error.TokenUnverifiable
              | some method =>
                .ok ({ Raw := tokenString, Method := method, Header := alg,
                       Claims := claims, Signature := [], Valid := false }, p0, p1, p2)
  | _ => .error Error.TokenMalformed

/-- The method `Validator.Validate` with the default options, at the instant `now`:
`exp` must lie after `now`, `nbf` must not lie after `now`; `iat` is not checked. -/
def Validate (now : Time) (claims : Claims) : Except Error Unit :=
  let expired : Bool :=
    match claims.RegisteredClaims.ExpiresAt with
    | Option.none => false
    | some exp => !decide (now < exp * second)
  let notValidYet : Bool :=
    match claims.RegisteredClaims.NotBefore with
    | Option.none => false
    | some nbf => decide (now < nbf * second)
  if expired || notValidYet then .error (Error.TokenInvalidClaims expired notValidYet)
  else .ok ()

/-- The function `jwt.ParseWithClaims` with the default parser, the clock of the
validator reading `now`. A token is returned with `Valid` set only when no step
failed; every failure is returned as an error. -/
def ParseWithClaims (L : Lib) (now : Time) (tokenString : String)
    (keyFunc : Token → Except String Bytes) : Except Error Token :=
  match ParseUnverified L tokenString with
  | .error e => .error e
  | .ok (token, p0, p1, p2) =>
    match L.DecodeSegment p2 with
    | Option.none => .error Error.TokenMalformed
    | some sig =>
      match keyFunc token with
      | .error _ => .error Error.TokenUnverifiable
      | .ok key =>
        if token.Method.Verify L (p0 ++ "." ++ p1) sig key then
          match Validate now token.Claims with
          | .error e => .error e
          | .ok _ => .ok { token with Signature := sig, Valid := true }
        else .error Error.TokenSignatureInvalid

end jwt

/-! ## pkg/middleware/jwt.go -/

namespace middleware

/-- The UTF-8 bytes of a string: the conversion to a byte slice. -/
def toBytes (s : String) : Bytes := s.toUTF8.toList.map (fun b => b.val)

/-- The function `getJWTSecret`; the argument is the value of the environment
variable `JWT_SECRET` (empty when unset). -/
def getJWTSecret (JWT_SECRET : String) : String :=
  if JWT_SECRET = "" then "your-256-bit-secret" else JWT_SECRET

/-- The package variable `jwtSecret`. -/
def jwtSecret (JWT_SECRET : String) : Bytes := toBytes (getJWTSecret JWT_SECRET)

/-- The claims `GenerateToken` builds. The source reads the clock three times,
once per numeric date: `t1`, `t2`, `t3` are those readings, in that order. -/
def newClaims (t1 t2 t3 : Time) (userID : Nat) (userType : String) : Claims :=
  { UserID := userID,
    UserType := userType,
    RegisteredClaims :=
      { ExpiresAt := some (jwt.NewNumericDate (t1 + day)),
        IssuedAt := some (jwt.NewNumericDate t2),
        NotBefore := some (jwt.NewNumericDate t3) } }

/-- The function `GenerateToken`. -/
def GenerateToken (L : Lib) (secret : Bytes) (t1 t2 t3 : Time) (userID : Nat)
    (userType : String) : Except jwt.Error String :=
  let claims := newClaims t1 t2 t3 userID userType
  let token := jwt.NewWithClaims jwt.SigningMethodHS256 claims
  token.SignedString L secret

/-- The key function `JWTAuth` gives to the parser. -/
def keyFunc (secret : Bytes) (token : jwt.Token) : Except String Bytes :=
  if !token.Method.isHMAC then .error "无效的签名方法"
  else .ok secret

/-- The middleware `JWTAuth`; `now` is the clock reading of the token validator. -/
def JWTAuth (L : Lib) (secret : Bytes) (now : Time) : HandlerFunc := fun next c =>
  let authHeader := c.GetHeader "Authorization"
  if authHeader = "" then
    (response.UnauthorizedResponse c "未提供认证信息").Abort
  else
    match SplitN2 authHeader ' ' with
    | [p0, p1] =>
      if p0 = "Bearer" then
        let c := c.record (Event.parse p1)
        match jwt.ParseWithClaims L now p1 (keyFunc secret) with
        | .error _ => (response.UnauthorizedResponse c "无效的令牌").Abort
        | .ok token =>
          if !token.Valid then
            (response.UnauthorizedResponse c "令牌已过期").Abort
          else
            let c := c.Set "user_id" (Value.uint token.Claims.UserID)
            let c := c.Set "user_type" (Value.str token.Claims.UserType)
            next c
      else (response.UnauthorizedResponse c "认证格式错误").Abort
    | _ => (response.UnauthorizedResponse c "认证格式错误").Abort

/-- The middleware `JWTAuth` as a handler of a chain. -/
def JWTAuthHandler (L : Lib) (secret : Bytes) (now : Time) : Handler :=
  { name := "middleware.JWTAuth", fn := JWTAuth L secret now }

/-- The loop of `RequireUserType` over the allowed types, with its `break`. -/
def allowedLoop (userTypeStr : String) : List String → Bool
  | [] => false
  | t :: ts => if userTypeStr = t then true else allowedLoop userTypeStr ts

/-- The middleware `RequireUserType`. The type assertion `userType.(string)`
panics when the stored value is not a string. -/
def RequireUserType (allowedTypes : List String) : HandlerFunc := fun next c =>
  match c.Get "user_type" with
  | none => (response.UnauthorizedResponse c "未找到用户类型信息").Abort
  | some (Value.str userTypeStr) =>
    if !allowedLoop userTypeStr allowedTypes then
      (response.ForbiddenResponse c "权限不足").Abort
    else next c
  | some _ => c.panic

end middleware

/-! ## Storage errors

A call of the storage can fail for a reason outside the table: the connection,
a timeout, a statement the storage refuses. Every handler takes, for each of
its calls of the storage, the error that call raises, `none` when it works. -/

namespace gorm

/-- The outcome of a storage call that raises the error `e`, if any. -/
def call {β : Type} (e : Option String) (r : β) : Except String β :=
  match e with
  | some err => .error err
  | none => .ok r

end gorm

/-! ## modules/user -/

namespace user

/-- The zero value of `time.Time`: January 1 of year 1, 00:00:00 UTC. -/
def zeroTime : Time := -62135596800 * second

/-- The struct `user.User`. -/
structure User where
  ID : Nat
  CreatedAt : Time
  UpdatedAt : Time
  DeletedAt : Option Time
  Name : String
  Email : String
  Password : String
  UserType : String
  IsDelete : Bool
  Phone : String
deriving DecidableEq, Repr

/-- The zero value of `User`, as declared by `var user User`. -/
def User.zero : User :=
  { ID := 0, CreatedAt := zeroTime, UpdatedAt := zeroTime, DeletedAt := none,
    Name := "", Email := "", Password := "", UserType := "", IsDelete := false,
    Phone := "" }

/-- The struct `user.LoginRequest`. -/
structure LoginRequest where
  Username : String
  Password : String
deriving DecidableEq, Repr

/-- The struct `user.UserResponse`. -/
structure UserResponse where
  ID : Nat
  Name : String
  UserType : String
  Email : String
  Phone : String
  IsDelete : Bool
  CreatedAt : Time
  UpdatedAt : Time
deriving DecidableEq, Repr

/-- The method `User.ToResponse`. -/
def User.ToResponse (u : User) : UserResponse :=
  { ID := u.ID, Name := u.Name, UserType := u.UserType, Email := u.Email,
    Phone := u.Phone, IsDelete := u.IsDelete, CreatedAt := u.CreatedAt,
    UpdatedAt := u.UpdatedAt }

/-- The JSON of a `User` by its json tags; `Password` has the tag `-`. -/
def User.toJson (L : Lib) (u : User) : Json :=
  Json.obj
    [("id", Json.num u.ID),
     ("created_at", Json.str (L.formatTime u.CreatedAt)),
     ("updated_at", Json.str (L.formatTime u.UpdatedAt)),
     ("deleted_at", match u.DeletedAt with
        | none => Json.null
        | some t => Json.str (L.formatTime t)),
     ("name", Json.str u.Name),
     ("email", Json.str u.Email),
     ("user_type", Json.str u.UserType),
     ("is_delete", Json.bool u.IsDelete),
     ("phone", Json.str u.Phone)]

/-- The JSON of a `UserResponse` by its json tags. -/
def UserResponse.toJson (L : Lib) (u : UserResponse) : Json :=
  Json.obj
    [("id", Json.num u.ID),
     ("name", Json.str u.Name),
     ("user_type", Json.str u.UserType),
     ("email", Json.str u.Email),
     ("phone", Json.str u.Phone),
     ("is_delete", Json.bool u.IsDelete),
     ("created_at", Json.str (L.formatTime u.CreatedAt)),
     ("updated_at", Json.str (L.formatTime u.UpdatedAt))]

/-- The JSON of a `LoginResponse`. -/
def loginResponseJson (L : Lib) (token : String) (u : UserResponse) : Json :=
  Json.obj [("token", Json.str token), ("user", u.toJson L)]

/-! ### Binding a JSON body (`c.ShouldBindJSON`) -/

/-- Decoding a JSON value into a Go `string` field: `null` leaves the field. -/
def decodeString (v : Json) (old : String) : Option String :=
  match v with
  | Json.str s => some s
  | Json.null => some old
  | _ => none

/-- Decoding a JSON value into a Go `bool` field. -/
def decodeBool (v : Json) (old : Bool) : Option Bool :=
  match v with
  | Json.bool b => some b
  | Json.null => some old
  | _ => none

/-- Decoding a JSON value into a Go `uint` field (64 bits). -/
def decodeUint (v : Json) (old : Nat) : Option Nat :=
  match v with
  | Json.num n => if 0 ≤ n ∧ n < 2 ^ 64 then some n.toNat else none
  | Json.null => some old
  | _ => none

/-- Decoding a JSON value into a `time.Time` field. -/
def decodeTime (L : Lib) (v : Json) (old : Time) : Option Time :=
  match v with
  | Json.str s => L.parseTime s
  | Json.null => some old
  | _ => none

/-- Decoding a JSON value into a `*time.Time` field: `null` gives a nil pointer. -/
def decodeTimePtr (L : Lib) (v : Json) : Option (Option Time) :=
  match v with
  | Json.str s => (L.parseTime s).map some
  | Json.null => some none
  | _ => none

/-- Decoding the members of a JSON object one after the other; a member of the
wrong type makes the decoding fail. -/
def decodeFields {α : Type} (set : α → String → Json → Option α) :
    List (String × Json) → α → Option α
  | [], a => some a
  | (k, v) :: rest, a =>
    match set a k v with
    | none => none
    | some a1 => decodeFields set rest a1

/-- Decoding a JSON document into a struct: an object sets fields, `null`
changes nothing, anything else is a type error. -/
def decodeStruct {α : Type} (set : α → String → Json → Option α) (doc : Json)
    (a : α) : Option α :=
  match doc with
  | Json.obj fields => decodeFields set fields a
  | Json.null => some a
  | _ => none

/-- One member of a JSON object decoded into a `LoginRequest`. -/
def LoginRequest.setField (r : LoginRequest) (key : String) (v : Json) :
    Option LoginRequest :=
  if key = "username" then (decodeString v r.Username).map (fun s => { r with Username := s })
  else if key = "password" then
    (decodeString v r.Password).map (fun s => { r with Password := s })
  else some r

/-- The call `c.ShouldBindJSON(&loginData)`: decode, then check the two
`binding:"required"` tags. -/
def bindLoginRequest (body : Option Json) : Option LoginRequest :=
  match body with
  | none => none
  | some doc =>
    match decodeStruct LoginRequest.setField doc { Username := "", Password := "" } with
    | none => none
    | some r => if r.Username = "" ∨ r.Password = "" then none else some r

/-- One member of a JSON object decoded into a `User`: the fields with a json
tag. No key reaches `Password`, whose tag is `-`. -/
def User.setField (L : Lib) (u : User) (key : String) (v : Json) : Option User :=
  if key = "id" then (decodeUint v u.ID).map (fun x => { u with ID := x })
  else if key = "created_at" then
    (decodeTime L v u.CreatedAt).map (fun x => { u with CreatedAt := x })
  else if key = "updated_at" then
    (decodeTime L v u.UpdatedAt).map (fun x => { u with UpdatedAt := x })
  else if key = "deleted_at" then
    (decodeTimePtr L v).map (fun x => { u with DeletedAt := x })
  else if key = "name" then (decodeString v u.Name).map (fun x => { u with Name := x })
  else if key = "email" then (decodeString v u.Email).map (fun x => { u with Email := x })
  else if key = "user_type" then
    (decodeString v u.UserType).map (fun x => { u with UserType := x })
  else if key = "is_delete" then
    (decodeBool v u.IsDelete).map (fun x => { u with IsDelete := x })
  else if key = "phone" then (decodeString v u.Phone).map (fun x => { u with Phone := x })
  else some u

/-- The call `c.ShouldBindJSON(&user)` for a `User`, which has no `binding` tag. -/
def bindUser (L : Lib) (body : Option Json) (u : User) : Option User :=
  match body with
  | none => none
  | some doc => decodeStruct (User.setField L) doc u

/-! ### The users table -/

/-- The users table behind `h.db`: its rows and the last value of the id
sequence. The model has no soft delete for users: `DeletedAt` is a plain
`*time.Time`. The functions on the table fail on constraint violations only;
another failure of the storage is an argument of the handlers. -/
structure Store where
  users : List User
  seq : Nat
deriving DecidableEq, Repr

/-- The row with the least id: `ORDER BY id LIMIT 1`. -/
def leastID : List User → Option User
  | [] => none
  | u :: rest =>
    match leastID rest with
    | none => some u
    | some v => if v.ID < u.ID then some v else some u

/-- The query `db.Where("name = ?", name).First(&user)`; `none` is the error
`ErrRecordNotFound`. -/
def Store.FirstByName (db : Store) (name : String) : Option User :=
  leastID (db.users.filter (fun u => u.Name = name))

/-- The query `db.Model(&User{}).Where("name = ?", name).Count(&count)`. -/
def Store.CountByName (db : Store) (name : String) : Nat :=
  (db.users.filter (fun u => u.Name = name)).length

/-- The column sizes of the gorm tags of `User`. -/
def fitsColumns (u : User) : Bool :=
  decide (u.Name.length ≤ 100) && decide (u.Email.length ≤ 100) &&
  decide (u.Password.length ≤ 100) && decide (u.UserType.length ≤ 20) &&
  decide (u.Phone.length ≤ 20)

/-- The row `db.Create(&user)` sends to the storage at the instant `now`: gorm
fills the zero time stamps, the storage assigns the id when it is zero and the
default of `user_type` when it is empty. -/
def Store.newRow (db : Store) (now : Time) (u : User) : User :=
  { u with
    ID := if u.ID = 0 then db.seq + 1 else u.ID,
    CreatedAt := if u.CreatedAt = zeroTime then now else u.CreatedAt,
    UpdatedAt := if u.UpdatedAt = zeroTime then now else u.UpdatedAt,
    UserType := if u.UserType = "" then "user" else u.UserType }

/-- Whether the storage refuses a row: it breaks the primary key, a unique index
(`name`, `email`) or a column size. -/
def Store.refuses (db : Store) (row : User) : Bool :=
  db.users.any (fun v => decide (v.ID = row.ID) || decide (v.Name = row.Name) ||
    decide (v.Email = row.Email)) || !fitsColumns row

/-- The call `db.Create(&user)` at the instant `now`. The result is the new table
and the stored row, `none` on error; the id sequence advances also when the row
is refused. -/
def Store.Create (db : Store) (now : Time) (u : User) : Store × Option User :=
  if db.refuses (db.newRow now u) then
    ({ db with seq := if u.ID = 0 then db.seq + 1 else db.seq }, none)
  else
    ({ users := db.users ++ [db.newRow now u],
       seq := if u.ID = 0 then db.seq + 1 else db.seq }, some (db.newRow now u))

/-- The default user type of `Register`: `user` when the field is empty. -/
def withDefaultUserType (u : User) : User :=
  if u.UserType = "" then { u with UserType := "user" } else u

/-- The constant `bcrypt.DefaultCost`. -/
def bcryptDefaultCost : Nat := 10

/-- The handler `Handler.Login`; `t1 t2 t3` are the clock readings of
`GenerateToken`, `e` the error of the query. -/
def Handler.Login (L : Lib) (secret : Bytes) (t1 t2 t3 : Time) (db : Store)
    (e : Option String) (c : Context) : Context :=
  match bindLoginRequest c.Body with
  | none => response.Error c 400 "无效的请求参数"
  | some loginData =>
    match gorm.call e (db.FirstByName loginData.Username) with
    | .error _ => response.Error c 401 "用户名或密码错误"
    | .ok none => response.Error c 401 "用户名或密码错误"
    | .ok (some user) =>
      if !L.bcryptCompare user.Password loginData.Password then
        response.Error c 401 "用户名或密码错误"
      else
        match middleware.GenerateToken L secret t1 t2 t3 user.ID user.UserType with
        | .error _ => response.Error c 500 "生成token失败"
        | .ok tokenString =>
          response.Success c (some (loginResponseJson L tokenString user.ToResponse))

/-- The variable `count` of `Register` after `Count(&count)`: the handler does
not look at the error of the query, and on an error the variable keeps its
zero. -/
def registerCount (db : Store) (e : Option String) (name : String) : Nat :=
  match gorm.call e (db.CountByName name) with
  | .error _ => 0
  | .ok count => count

/-- The handler `Handler.Register`; `salt` is the randomness bcrypt draws, `now`
the clock reading of gorm, `e1` the error of the count, `e2` the error of the
insert. The result is the new table and the context. -/
def Handler.Register (L : Lib) (salt : Bytes) (now : Time) (db : Store)
    (e1 e2 : Option String) (c : Context) : Store × Context :=
  match bindUser L c.Body User.zero with
  | none => (db, response.Error c 400 "无效的请求参数")
  | some user =>
    if registerCount db e1 user.Name > 0 then (db, response.Error c 400 "用户名已存在")
    else
      match L.bcryptHash user.Password bcryptDefaultCost salt with
      | none => (db, response.Error c 500 "密码加密失败")
      | some hashedPassword =>
        let user := { user with Password := hashedPassword }
        let user := withDefaultUserType user
        match gorm.call e2 (db.Create now user) with
        | .error _ => (db, response.Error c 500 "创建用户失败")
        | .ok (db1, none) => (db1, response.Error c 500 "创建用户失败")
        | .ok (db1, some created) => (db1, response.Success c (some (created.toJson L)))

/-- The handler `Handler.List`; `e` is the error of the query. -/
def Handler.List (L : Lib) (db : Store) (e : Option String) (c : Context) : Context :=
  match gorm.call e db.users with
  | .error _ => response.Error c 500 "获取用户列表失败"
  | .ok users => response.Success c (some (Json.arr (users.map (fun u => u.toJson L))))

end user

/-! ## The route tables -/

namespace gin

/-- A `gin.RouterGroup`: its base path and the names of the handlers every route
of the group starts with. -/
structure RouterGroup where
  basePath : String
  Handlers : List String
deriving DecidableEq, Repr

/-- A registered route with its complete handler chain, by name. -/
structure RouteInfo where
  Method : String
  Path : String
  Handlers : List String
deriving DecidableEq, Repr

/-- The function `joinPaths` of gin, for the paths registered here. -/
def joinPaths (absolutePath relativePath : String) : String :=
  if relativePath = "" then absolutePath
  else if absolutePath = "/" then relativePath
  else absolutePath ++ relativePath

/-- The engine of `gin.Default()`, which uses the logger and the recovery. -/
def Default : RouterGroup :=
  { basePath := "/", Handlers := ["gin.Logger", "gin.Recovery"] }

/-- The method `Use`: more middleware for the group. -/
def RouterGroup.Use (g : RouterGroup) (middleware : List String) : RouterGroup :=
  { g with Handlers := g.Handlers ++ middleware }

/-- The method `Group` without middleware arguments, as all calls in the
repository are. -/
def RouterGroup.Group (g : RouterGroup) (relativePath : String) : RouterGroup :=
  { basePath := joinPaths g.basePath relativePath, Handlers := g.Handlers }

/-- The methods `GET`, `POST`, `PUT`, `PATCH`, `DELETE` with one handler: the
chain is the handlers of the group followed by the handler. -/
def RouterGroup.handle (g : RouterGroup) (httpMethod relativePath handler : String) :
    RouteInfo :=
  { Method := httpMethod, Path := joinPaths g.basePath relativePath,
    Handlers := g.Handlers ++ [handler] }

end gin

/-- The function `system.RegisterRoutes`. -/
def system.RegisterRoutes (r : gin.RouterGroup) : List gin.RouteInfo :=
  [r.handle "GET" "/health" "system.RegisterRoutes.func1",
   r.handle "GET" "/info" "system.RegisterRoutes.func2"]

/-- The function `user.RegisterRoutes`. -/
def user.RegisterRoutes (r : gin.RouterGroup) : List gin.RouteInfo :=
  let auth := r.Group "/auth"
  let users := r.Group "/users"
  [auth.handle "POST" "/login" "user.Handler.Login",
   auth.handle "POST" "/register" "user.Handler.Register",
   users.handle "GET" "" "user.Handler.List",
   users.handle "GET" "/:id" "user.Handler.Get",
   users.handle "POST" "" "user.Handler.Create",
   users.handle "PUT" "/:id" "user.Handler.Update",
   users.handle "DELETE" "/:id" "user.Handler.Delete",
   users.handle "GET" "/profile" "user.Handler.GetProfile",
   users.handle "PUT" "/profile" "user.Handler.UpdateProfile",
   users.handle "PUT" "/password" "user.Handler.UpdatePassword"]

/-- The function `supplier.RegisterRoutes`. -/
def supplier.RegisterRoutes (r : gin.RouterGroup) : List gin.RouteInfo :=
  let suppliers := r.Group "/suppliers"
  [suppliers.handle "POST" "" "supplier.Handler.Create",
   suppliers.handle "GET" "" "supplier.Handler.List",
   suppliers.handle "GET" "/:id" "supplier.Handler.Get",
   suppliers.handle "PUT" "/:id" "supplier.Handler.Update",
   suppliers.handle "DELETE" "/:id" "supplier.Handler.Delete",
   suppliers.handle "PATCH" "/:id/toggle" "supplier.Handler.ToggleStatus"]

/-- The function `shop.RegisterRoutes`. -/
def shop.RegisterRoutes (r : gin.RouterGroup) : List gin.RouteInfo :=
  let shops := r.Group "/shops"
  [shops.handle "POST" "" "shop.Handler.Create",
   shops.handle "GET" "" "shop.Handler.List",
   shops.handle "GET" "/:id" "shop.Handler.Get",
   shops.handle "PUT" "/:id" "shop.Handler.Update",
   shops.handle "DELETE" "/:id" "shop.Handler.Delete",
   shops.handle "PATCH" "/:id/toggle" "shop.Handler.ToggleStatus"]

/-- The function `product.RegisterRoutes`. -/
def product.RegisterRoutes (r : gin.RouterGroup) : List gin.RouteInfo :=
  let products := r.Group "/products"
  [products.handle "POST" "" "product.Handler.Create",
   products.handle "GET" "" "product.Handler.List",
   products.handle "GET" "/:id" "product.Handler.Get",
   products.handle "PUT" "/:id" "product.Handler.Update",
   products.handle "DELETE" "/:id" "product.Handler.Delete",
   products.handle "PATCH" "/:id/toggle" "product.Handler.ToggleStatus",
   products.handle "PATCH" "/:id/stock" "product.Handler.UpdateStock",
   products.handle "PATCH" "/:id/price" "product.Handler.UpdatePrice"]

/-- The function `category.RegisterRoutes`. -/
def category.RegisterRoutes (r : gin.RouterGroup) : List gin.RouteInfo :=
  let categories := r.Group "/categories"
  [categories.handle "POST" "" "category.Handler.Create",
   categories.handle "GET" "" "category.Handler.List",
   categories.handle "GET" "/:id" "category.Handler.Get",
   categories.handle "PUT" "/:id" "category.Handler.Update",
   categories.handle "DELETE" "/:id" "category.Handler.Delete",
   categories.handle "PATCH" "/:id/toggle" "category.Handler.ToggleStatus",
   categories.handle "GET" "/:id/children" "category.Handler.GetChildren"]

/-- The function `link.RegisterRoutes`. -/
def link.RegisterRoutes (r : gin.RouterGroup) : List gin.RouteInfo :=
  let links := r.Group "/links"
  [links.handle "POST" "" "link.Handler.Create",
   links.handle "GET" "" "link.Handler.List",
   links.handle "GET" "/:id" "link.Handler.Get",
   links.handle "PUT" "/:id" "link.Handler.Update",
   links.handle "DELETE" "/:id" "link.Handler.Delete",
   links.handle "PATCH" "/:id/toggle" "link.Handler.ToggleStatus"]

/-- The function `attribute.RegisterRoutes`. -/
def attribute.RegisterRoutes (r : gin.RouterGroup) : List gin.RouteInfo :=
  let attributes := r.Group "/attributes"
  let productAttributes := r.Group "/product-attributes"
  [attributes.handle "POST" "" "attribute.Handler.CreateAttribute",
   attributes.handle "GET" "" "attribute.Handler.ListAttributes",
   attributes.handle "GET" "/:id" "attribute.Handler.GetAttribute",
   attributes.handle "PUT" "/:id" "attribute.Handler.UpdateAttribute",
   attributes.handle "DELETE" "/:id" "attribute.Handler.DeleteAttribute",
   attributes.handle "PATCH" "/:id/toggle" "attribute.Handler.ToggleAttributeStatus",
   productAttributes.handle "POST" "" "attribute.Handler.CreateProductAttribute",
   productAttributes.handle "GET" "" "attribute.Handler.ListProductAttributes",
   productAttributes.handle "PUT" "/:id" "attribute.Handler.UpdateProductAttribute",
   productAttributes.handle "DELETE" "/:id" "attribute.Handler.DeleteProductAttribute"]

namespace main

/-- The function `setupRoutes` on the engine `r`. -/
def setupRoutes (r : gin.RouterGroup) : List gin.RouteInfo :=
  let v1 := r.Group "/api/v1"
  system.RegisterRoutes v1 ++ user.RegisterRoutes v1 ++ supplier.RegisterRoutes v1 ++
    shop.RegisterRoutes v1 ++ product.RegisterRoutes v1 ++ category.RegisterRoutes v1 ++
    link.RegisterRoutes v1 ++ attribute.RegisterRoutes v1 ++
    [r.handle "GET" "/" "main.setupRoutes.func1"]

/-- The engine of `main`: `gin.Default()` with `r.Use(middleware.CORSMiddleware())`. -/
def engine : gin.RouterGroup := gin.Default.Use ["middleware.CORSMiddleware"]

/-- The routes `main` registers: those of `setupRoutes` and the Swagger route. -/
def routes : List gin.RouteInfo :=
  setupRoutes engine ++ [engine.handle "GET" "/swagger/*any" "ginSwagger.WrapHandler"]

/-- The route groups the specification lists as requiring a token. -/
def tokenGroups : List String :=
  ["/api/v1/users", "/api/v1/suppliers", "/api/v1/shops", "/api/v1/products",
   "/api/v1/categories", "/api/v1/links", "/api/v1/attributes",
   "/api/v1/product-attributes"]

/-- Whether a route belongs to one of the groups that require a token. -/
def requiresToken (rt : gin.RouteInfo) : Bool :=
  tokenGroups.any (fun g => decide (rt.Path = g) || (g ++ "/").data.isPrefixOf rt.Path.data)

end main

/-! ## The tables of the entity modules (gorm)

The six entity modules keep one table each and have the same handlers up to
names, messages and filters. `gorm.Model` is what gorm and the storage know of
a model struct, `gorm.Table` a table, and the functions of `crud` are the
handlers, written once over a `crud.Resource`. Every call of the storage takes
an argument `e`: the error it raises for that call, `none` when it works. -/

namespace gorm

/-- What gorm and the storage know of a model struct.

* `ID`: the primary key.
* `newRow seq now x`: the struct after `db.Create` at the instant `now`, the id
  sequence standing at `seq`: the id is assigned when it is zero, zero time
  stamps are filled, a zero-valued field with a `default` tag takes the default.
* `column x`: what the columns keep of the struct (a `decimal(10,2)` is rounded);
  `none` when a value does not fit its column.
* `collides x y`: whether two rows break a unique index other than the primary
  key.
* `touch now x`: the struct after an update at the instant `now`: gorm sets
  `UpdatedAt`. -/
structure Model (α : Type) where
  ID : α → Nat
  newRow : Nat → Time → α → α
  column : α → Option α
  collides : α → α → Bool
  touch : Time → α → α

/-- A table: its rows in storage order and the last value of the id sequence.
No table of the repository has soft delete: `DeletedAt` is a plain `*time.Time`
in every model, which gorm (v2, `gorm.io/gorm`) treats as an ordinary column. -/
structure Table (α : Type) where
  rows : List α
  seq : Nat

/-- The call `db.Create(&x)` at the instant `now`. The result is the new table
and the struct as gorm leaves it, `none` on error. The id sequence advances
also when the row is refused. -/
def Table.Create {α : Type} (M : Model α) (t : Table α) (now : Time) (x : α) :
    Table α × Option α :=
  match M.column (M.newRow t.seq now x) with
  | none => ({ t with seq := if M.ID x = 0 then t.seq + 1 else t.seq }, none)
  | some row =>
    if t.rows.any (fun v => decide (M.ID v = M.ID row) || M.collides v row) then
      ({ t with seq := if M.ID x = 0 then t.seq + 1 else t.seq }, none)
    else
      ({ rows := t.rows ++ [row], seq := if M.ID x = 0 then t.seq + 1 else t.seq },
        some (M.newRow t.seq now x))

/-- The query `db.First(&x, id)`: the row with that primary key; `none` is the
error `ErrRecordNotFound`. -/
def Table.First {α : Type} (M : Model α) (t : Table α) (id : Int) : Option α :=
  t.rows.find? (fun r => decide ((M.ID r : Int) = id))

/-- The call `db.Delete(&X{}, id)`: the statement `DELETE FROM ... WHERE id = ?`.
It removes the row; a statement that matches no row is no error. -/
def Table.Delete {α : Type} (M : Model α) (t : Table α) (id : Int) : Table α :=
  { t with rows := t.rows.filter (fun r => !decide ((M.ID r : Int) = id)) }

/-- The call `db.Save(&x)` at the instant `now`. With a zero id it is `db.Create`.
Otherwise it is `UPDATE ... SET ... WHERE id = ?` over all columns with
`updated_at` set to `now`, zero values included; when no row has the id, gorm
follows it with an insert of the struct. The result is the new table and the
struct as gorm leaves it, `none` on error: a value does not fit its column or
the row breaks a unique index against another row. -/
def Table.Save {α : Type} (M : Model α) (t : Table α) (now : Time) (x : α) :
    Table α × Option α :=
  if M.ID x = 0 then t.Create M now x
  else if t.rows.all (fun v => decide (M.ID v ≠ M.ID x)) then t.Create M now (M.touch now x)
  else
    match M.column (M.touch now x) with
    | none => (t, none)
    | some row =>
      if t.rows.any (fun v => decide (M.ID v ≠ M.ID x) && M.collides v row) then (t, none)
      else
        ({ rows := t.rows.map (fun v => if M.ID v = M.ID x then row else v), seq := t.seq },
          some (M.touch now x))

/-- The query `Find(&xs)` under the conditions added with `Where`. -/
def Table.Find {α : Type} (t : Table α) (conds : List (α → Bool)) : List α :=
  t.rows.filter (fun r => conds.all (fun cond => cond r))

end gorm

namespace crud

/-- A filter of a list handler: the query parameter it reads and the condition
`column = ?` for the text of the parameter, `none` when the storage refuses the
text for the type of the column. -/
structure Filter (α : Type) where
  key : String
  cond : Lib → String → Option (α → Bool)

/-- What distinguishes the handlers of one entity module: the model, the zero
struct, the JSON binding and printing of the struct, the filters of the list
handler and the messages. -/
structure Resource (α : Type) where
  model : gorm.Model α
  zero : α
  setField : Lib → α → String → Json → Option α
  toJson : Lib → α → Json
  filters : List (Filter α)
  createFailed : String
  listFailed : String
  notFound : String
  updateFailed : String
  deleteFailed : String

/-- The method `c.Query(key)`: the first value of the key in the query string,
the empty string when it is absent. -/
def Query (query : List (String × String)) (key : String) : String :=
  match query.lookup key with
  | some v => v
  | none => ""

/-- The conditions a list handler adds: one for every filter whose query
parameter is not empty; `none` when the storage refuses one of the texts. -/
def conditions {α : Type} (L : Lib) (query : List (String × String)) :
    List (Filter α) → Option (List (α → Bool))
  | [] => some []
  | f :: rest =>
    if Query query f.key = "" then conditions L query rest
    else
      match f.cond L (Query query f.key), conditions L query rest with
      | some cond, some conds => some (cond :: conds)
      | _, _ => none

/-- The rows a list handler selects; an error when the storage fails or refuses
a parameter. -/
def selected {α : Type} (L : Lib) (R : Resource α) (t : gorm.Table α) (e : Option String)
    (query : List (String × String)) : Except String (List α) :=
  match conditions L query R.filters with
  | none => .error "invalid input syntax"
  | some conds => gorm.call e (t.Find conds)

/-- The handler `Create` of an entity module. -/
def Create {α : Type} (L : Lib) (R : Resource α) (t : gorm.Table α) (e : Option String)
    (now : Time) (c : Context) : gorm.Table α × Context :=
  match c.Body with
  | none => (t, response.Error c 400 "无效的请求参数")
  | some doc =>
    match user.decodeStruct (R.setField L) doc R.zero with
    | none => (t, response.Error c 400 "无效的请求参数")
    | some x =>
      match gorm.call e (t.Create R.model now x) with
      | .error _ => (t, response.Error c 500 R.createFailed)
      | .ok (t1, none) => (t1, response.Error c 500 R.createFailed)
      | .ok (t1, some created) => (t1, response.Success c (some (R.toJson L created)))

/-- The handler `List` of an entity module. -/
def List {α : Type} (L : Lib) (R : Resource α) (t : gorm.Table α) (e : Option String)
    (query : List (String × String)) (c : Context) : Context :=
  match selected L R t e query with
  | .error _ => response.Error c 500 R.listFailed
  | .ok rows => response.Success c (some (Json.arr (rows.map (R.toJson L))))

/-- The handler `Get` of an entity module; `idParam` is `c.Param("id")`. -/
def Get {α : Type} (L : Lib) (R : Resource α) (t : gorm.Table α) (e : Option String)
    (idParam : String) (c : Context) : Context :=
  match Atoi idParam with
  | none => response.Error c 400 "无效的ID"
  | some id =>
    match gorm.call e (t.First R.model id) with
    | .error _ => response.Error c 404 R.notFound
    | .ok none => response.Error c 404 R.notFound
    | .ok (some x) => response.Success c (some (R.toJson L x))

/-- The JSON of `gin.H{"message": "删除成功"}`. -/
def deleted : Json := Json.obj [("message", Json.str "删除成功")]

/-- The handler `Delete` of an entity module other than the categories;
`idParam` is `c.Param("id")`. -/
def Delete {α : Type} (R : Resource α) (t : gorm.Table α) (e : Option String)
    (idParam : String) (c : Context) : gorm.Table α × Context :=
  match Atoi idParam with
  | none => (t, response.Error c 400 "无效的ID")
  | some id =>
    match gorm.call e (t.Delete R.model id) with
    | .error _ => (t, response.Error c 500 R.deleteFailed)
    | .ok t1 => (t1, response.Success c (some deleted))

/-- The handler `Update` of an entity module; `e1` is the error of the query,
`e2` the error of the save. The body is decoded over the struct that was
loaded. -/
def Update {α : Type} (L : Lib) (R : Resource α) (t : gorm.Table α) (e1 e2 : Option String)
    (now : Time) (idParam : String) (c : Context) : gorm.Table α × Context :=
  match Atoi idParam with
  | none => (t, response.Error c 400 "无效的ID")
  | some id =>
    match gorm.call e1 (t.First R.model id) with
    | .error _ => (t, response.Error c 404 R.notFound)
    | .ok none => (t, response.Error c 404 R.notFound)
    | .ok (some x) =>
      match c.Body with
      | none => (t, response.Error c 400 "无效的请求参数")
      | some doc =>
        match user.decodeStruct (R.setField L) doc x with
        | none => (t, response.Error c 400 "无效的请求参数")
        | some y =>
          match gorm.call e2 (t.Save R.model now y) with
          | .error _ => (t, response.Error c 500 R.updateFailed)
          | .ok (t1, none) => (t1, response.Error c 500 R.updateFailed)
          | .ok (t1, some saved) => (t1, response.Success c (some (R.toJson L saved)))

/-- The handler `ToggleStatus` of an entity module; `negate` is the assignment
`x.IsEnabled = !x.IsEnabled`, `e1` the error of the query, `e2` the error of
the save. -/
def ToggleStatus {α : Type} (L : Lib) (R : Resource α) (negate : α → α) (t : gorm.Table α)
    (e1 e2 : Option String) (now : Time) (idParam : String) (c : Context) :
    gorm.Table α × Context :=
  match Atoi idParam with
  | none => (t, response.Error c 400 "无效的ID")
  | some id =>
    match gorm.call e1 (t.First R.model id) with
    | .error _ => (t, response.Error c 404 R.notFound)
    | .ok none => (t, response.Error c 404 R.notFound)
    | .ok (some x) =>
      match gorm.call e2 (t.Save R.model now (negate x)) with
      | .error _ => (t, response.Error c 500 "更新状态失败")
      | .ok (t1, none) => (t1, response.Error c 500 "更新状态失败")
      | .ok (t1, some saved) => (t1, response.Success c (some (R.toJson L saved)))

end crud

/-! ## The entity modules -/

namespace bind

/-- Decoding a JSON value into a Go `int` field (64 bits). -/
def decodeInt (v : Json) (old : Int) : Option Int :=
  match v with
  | Json.num n => if -(2 ^ 63) ≤ n ∧ n < 2 ^ 63 then some n else none
  | Json.null => some old
  | _ => none

/-- Decoding a JSON value into a Go `float64` field; the float is taken as the
rational the literal denotes. -/
def decodeFloat (v : Json) (old : ℚ) : Option ℚ :=
  match v with
  | Json.num n => some (n : ℚ)
  | Json.frac q => some q
  | Json.null => some old
  | _ => none

/-- Decoding a JSON value into a `*uint` field: `null` gives a nil pointer. -/
def decodeUintPtr (v : Json) : Option (Option Nat) :=
  match v with
  | Json.num n => if 0 ≤ n ∧ n < 2 ^ 64 then some (some n.toNat) else none
  | Json.null => some none
  | _ => none

/-- Setting a key of a Go map kept as an association list. -/
def setKey (m : List (String × Json)) (k : String) (v : Json) : List (String × Json) :=
  if m.any (fun kv => decide (kv.1 = k)) then
    m.map (fun kv => if kv.1 = k then (k, v) else kv)
  else m ++ [(k, v)]

/-- Decoding a JSON value into a `map[string]interface{}` field: an object sets
its members in the map that is there (a new one when it is nil), `null` gives a
nil map. Member values are kept as they are given. -/
def decodeMap (v : Json) (old : Option (List (String × Json))) :
    Option (Option (List (String × Json))) :=
  match v with
  | Json.obj fields =>
    some (some (fields.foldl (fun m kv => setKey m kv.1 kv.2) (old.getD [])))
  | Json.null => some none
  | _ => none

/-- The JSON of a Go `float64`: a value without fraction prints as an integer. -/
def floatJson (q : ℚ) : Json :=
  if q.den = 1 then Json.num q.num else Json.frac q

/-- The JSON of a `*time.Time`. -/
def timePtrJson (L : Lib) (t : Option Time) : Json :=
  match t with
  | none => Json.null
  | some x => Json.str (L.formatTime x)

/-- The JSON of a `*uint`. -/
def uintPtrJson (n : Option Nat) : Json :=
  match n with
  | none => Json.null
  | some x => Json.num x

/-- The JSON of a `map[string]interface{}`: a nil map prints as `null`, the keys
of a map print in sorted order. -/
def mapJson (m : Option (List (String × Json))) : Json :=
  match m with
  | none => Json.null
  | some fields =>
    Json.obj (fields.insertionSort (fun a b => decide (a.1 < b.1 ∨ a.1 = b.1)))

/-- The condition `column = ?` for an unsigned integer column. -/
def uintCond {α : Type} (column : α → Nat) (L : Lib) (text : String) : Option (α → Bool) :=
  (L.sqlInt text).map (fun n r => decide ((column r : Int) = n))

/-- The condition `column = ?` for an integer column. -/
def intCond {α : Type} (column : α → Int) (L : Lib) (text : String) : Option (α → Bool) :=
  (L.sqlInt text).map (fun n r => decide (column r = n))

/-- The condition `column = ?` for a boolean column. -/
def boolCond {α : Type} (column : α → Bool) (L : Lib) (text : String) : Option (α → Bool) :=
  (L.sqlBool text).map (fun b r => column r == b)

end bind

namespace supplier

/-- The struct `supplier.Supplier`. -/
structure Supplier where
  ID : Nat
  CreatedAt : Time
  UpdatedAt : Time
  DeletedAt : Option Time
  Name : String
  Remark : String
  IsEnabled : Bool
deriving DecidableEq, Repr

/-- The zero value of `Supplier`. -/
def Supplier.zero : Supplier :=
  { ID := 0, CreatedAt := user.zeroTime, UpdatedAt := user.zeroTime, DeletedAt := none,
    Name := "", Remark := "", IsEnabled := false }

/-- One member of a JSON object decoded into a `Supplier`. -/
def Supplier.setField (L : Lib) (x : Supplier) (key : String) (v : Json) : Option Supplier :=
  if key = "id" then (user.decodeUint v x.ID).map (fun a => { x with ID := a })
  else if key = "created_at" then
    (user.decodeTime L v x.CreatedAt).map (fun a => { x with CreatedAt := a })
  else if key = "updated_at" then
    (user.decodeTime L v x.UpdatedAt).map (fun a => { x with UpdatedAt := a })
  else if key = "deleted_at" then
    (user.decodeTimePtr L v).map (fun a => { x with DeletedAt := a })
  else if key = "name" then (user.decodeString v x.Name).map (fun a => { x with Name := a })
  else if key = "remark" then
    (user.decodeString v x.Remark).map (fun a => { x with Remark := a })
  else if key = "is_enabled" then
    (user.decodeBool v x.IsEnabled).map (fun a => { x with IsEnabled := a })
  else some x

/-- The JSON of a `Supplier` by its json tags. -/
def Supplier.toJson (L : Lib) (x : Supplier) : Json :=
  Json.obj
    [("id", Json.num x.ID),
     ("created_at", Json.str (L.formatTime x.CreatedAt)),
     ("updated_at", Json.str (L.formatTime x.UpdatedAt)),
     ("deleted_at", bind.timePtrJson L x.DeletedAt),
     ("name", Json.str x.Name),
     ("remark", Json.str x.Remark),
     ("is_enabled", Json.bool x.IsEnabled)]

/-- The model of `Supplier`: `is_enabled` has the tag `default:true`, `name` is a
`varchar(100)`. -/
def model : gorm.Model Supplier :=
  { ID := fun x => x.ID,
    newRow := fun seq now x =>
      { x with
        ID := if x.ID = 0 then seq + 1 else x.ID,
        CreatedAt := if x.CreatedAt = user.zeroTime then now else x.CreatedAt,
        UpdatedAt := if x.UpdatedAt = user.zeroTime then now else x.UpdatedAt,
        IsEnabled := if x.IsEnabled = false then true else x.IsEnabled },
    column := fun x => if x.Name.length ≤ 100 then some x else none,
    collides := fun _ _ => false,
    touch := fun now x => { x with UpdatedAt := now } }

/-- The handlers of the supplier module. -/
def resource : crud.Resource Supplier :=
  { model := model, zero := Supplier.zero, setField := Supplier.setField,
    toJson := Supplier.toJson, filters := [],
    createFailed := "创建供应商失败", listFailed := "获取供应商列表失败",
    notFound := "供应商不存在", updateFailed := "更新供应商失败",
    deleteFailed := "删除供应商失败" }

end supplier

namespace shop

/-- The struct `shop.Shop`. -/
structure Shop where
  ID : Nat
  CreatedAt : Time
  UpdatedAt : Time
  DeletedAt : Option Time
  SupplierID : Nat
  Name : String
  Remark : String
  IsEnabled : Bool
deriving DecidableEq, Repr

/-- The zero value of `Shop`. -/
def Shop.zero : Shop :=
  { ID := 0, CreatedAt := user.zeroTime, UpdatedAt := user.zeroTime, DeletedAt := none,
    SupplierID := 0, Name := "", Remark := "", IsEnabled := false }

/-- One member of a JSON object decoded into a `Shop`. -/
def Shop.setField (L : Lib) (x : Shop) (key : String) (v : Json) : Option Shop :=
  if key = "id" then (user.decodeUint v x.ID).map (fun a => { x with ID := a })
  else if key = "created_at" then
    (user.decodeTime L v x.CreatedAt).map (fun a => { x with CreatedAt := a })
  else if key = "updated_at" then
    (user.decodeTime L v x.UpdatedAt).map (fun a => { x with UpdatedAt := a })
  else if key = "deleted_at" then
    (user.decodeTimePtr L v).map (fun a => { x with DeletedAt := a })
  else if key = "supplier_id" then
    (user.decodeUint v x.SupplierID).map (fun a => { x with SupplierID := a })
  else if key = "name" then (user.decodeString v x.Name).map (fun a => { x with Name := a })
  else if key = "remark" then
    (user.decodeString v x.Remark).map (fun a => { x with Remark := a })
  else if key = "is_enabled" then
    (user.decodeBool v x.IsEnabled).map (fun a => { x with IsEnabled := a })
  else some x

/-- The JSON of a `Shop` by its json tags. -/
def Shop.toJson (L : Lib) (x : Shop) : Json :=
  Json.obj
    [("id", Json.num x.ID),
     ("created_at", Json.str (L.formatTime x.CreatedAt)),
     ("updated_at", Json.str (L.formatTime x.UpdatedAt)),
     ("deleted_at", bind.timePtrJson L x.DeletedAt),
     ("supplier_id", Json.num x.SupplierID),
     ("name", Json.str x.Name),
     ("remark", Json.str x.Remark),
     ("is_enabled", Json.bool x.IsEnabled)]

/-- The model of `Shop`. -/
def model : gorm.Model Shop :=
  { ID := fun x => x.ID,
    newRow := fun seq now x =>
      { x with
        ID := if x.ID = 0 then seq + 1 else x.ID,
        CreatedAt := if x.CreatedAt = user.zeroTime then now else x.CreatedAt,
        UpdatedAt := if x.UpdatedAt = user.zeroTime then now else x.UpdatedAt,
        IsEnabled := if x.IsEnabled = false then true else x.IsEnabled },
    column := fun x => if x.Name.length ≤ 100 then some x else none,
    collides := fun _ _ => false,
    touch := fun now x => { x with UpdatedAt := now } }

/-- The handlers of the shop module; the list handler filters on `supplier_id`
and `is_enabled`. -/
def resource : crud.Resource Shop :=
  { model := model, zero := Shop.zero, setField := Shop.setField, toJson := Shop.toJson,
    filters :=
      [{ key := "supplier_id", cond := bind.uintCond (fun x => x.SupplierID) },
       { key := "is_enabled", cond := bind.boolCond (fun x => x.IsEnabled) }],
    createFailed := "创建店铺失败", listFailed := "获取店铺列表失败",
    notFound := "店铺不存在", updateFailed := "更新店铺失败",
    deleteFailed := "删除店铺失败" }

end shop

namespace product

/-- The struct `product.Product`. `Price` is a Go `float64`, taken as the rational
it stands for; `DynamicAttrs` is nil or a map; `Type_` is the field `Type`. -/
structure Product where
  ID : Nat
  CreatedAt : Time
  UpdatedAt : Time
  DeletedAt : Option Time
  SupplierID : Nat
  CategoryID : Nat
  Name : String
  SKU : String
  Type_ : Int
  Price : ℚ
  Stock : Int
  DynamicAttrs : Option (List (String × Json))
  Remark : String
  IsEnabled : Bool

/-- The zero value of `Product`. -/
def Product.zero : Product :=
  { ID := 0, CreatedAt := user.zeroTime, UpdatedAt := user.zeroTime, DeletedAt := none,
    SupplierID := 0, CategoryID := 0, Name := "", SKU := "", Type_ := 0, Price := 0,
    Stock := 0, DynamicAttrs := none, Remark := "", IsEnabled := false }

/-- One member of a JSON object decoded into a `Product`. -/
def Product.setField (L : Lib) (x : Product) (key : String) (v : Json) : Option Product :=
  if key = "id" then (user.decodeUint v x.ID).map (fun a => { x with ID := a })
  else if key = "created_at" then
    (user.decodeTime L v x.CreatedAt).map (fun a => { x with CreatedAt := a })
  else if key = "updated_at" then
    (user.decodeTime L v x.UpdatedAt).map (fun a => { x with UpdatedAt := a })
  else if key = "deleted_at" then
    (user.decodeTimePtr L v).map (fun a => { x with DeletedAt := a })
  else if key = "supplier_id" then
    (user.decodeUint v x.SupplierID).map (fun a => { x with SupplierID := a })
  else if key = "category_id" then
    (user.decodeUint v x.CategoryID).map (fun a => { x with CategoryID := a })
  else if key = "name" then (user.decodeString v x.Name).map (fun a => { x with Name := a })
  else if key = "sku" then (user.decodeString v x.SKU).map (fun a => { x with SKU := a })
  else if key = "type" then (bind.decodeInt v x.Type_).map (fun a => { x with Type_ := a })
  else if key = "price" then (bind.decodeFloat v x.Price).map (fun a => { x with Price := a })
  else if key = "stock" then (bind.decodeInt v x.Stock).map (fun a => { x with Stock := a })
  else if key = "dynamic_attrs" then
    (bind.decodeMap v x.DynamicAttrs).map (fun a => { x with DynamicAttrs := a })
  else if key = "remark" then
    (user.decodeString v x.Remark).map (fun a => { x with Remark := a })
  else if key = "is_enabled" then
    (user.decodeBool v x.IsEnabled).map (fun a => { x with IsEnabled := a })
  else some x

/-- The JSON of a `Product` by its json tags. -/
def Product.toJson (L : Lib) (x : Product) : Json :=
  Json.obj
    [("id", Json.num x.ID),
     ("created_at", Json.str (L.formatTime x.CreatedAt)),
     ("updated_at", Json.str (L.formatTime x.UpdatedAt)),
     ("deleted_at", bind.timePtrJson L x.DeletedAt),
     ("supplier_id", Json.num x.SupplierID),
     ("category_id", Json.num x.CategoryID),
     ("name", Json.str x.Name),
     ("sku", Json.str x.SKU),
     ("type", Json.num x.Type_),
     ("price", bind.floatJson x.Price),
     ("stock", Json.num x.Stock),
     ("dynamic_attrs", bind.mapJson x.DynamicAttrs),
     ("remark", Json.str x.Remark),
     ("is_enabled", Json.bool x.IsEnabled)]

/-- What a `decimal(10,2)` column keeps of a number: two decimals, rounded half
away from zero. -/
def roundCents (q : ℚ) : ℚ :=
  if 0 ≤ q then ((⌊q * 100 + 1 / 2⌋ : Int) : ℚ) / 100
  else -(((⌊-q * 100 + 1 / 2⌋ : Int) : ℚ) / 100)

/-- The model of `Product`: `is_enabled` has the tag `default:true`, `name` is a
`varchar(200)`, `sku` a `varchar(50)` with a unique index, `price` a
`decimal(10,2)`. -/
def model : gorm.Model Product :=
  { ID := fun x => x.ID,
    newRow := fun seq now x =>
      { x with
        ID := if x.ID = 0 then seq + 1 else x.ID,
        CreatedAt := if x.CreatedAt = user.zeroTime then now else x.CreatedAt,
        UpdatedAt := if x.UpdatedAt = user.zeroTime then now else x.UpdatedAt,
        IsEnabled := if x.IsEnabled = false then true else x.IsEnabled },
    column := fun x =>
      if x.Name.length ≤ 200 ∧ x.SKU.length ≤ 50 ∧ |roundCents x.Price| < 100000000 then
        some { x with Price := roundCents x.Price }
      else none,
    collides := fun x y => decide (x.SKU = y.SKU),
    touch := fun now x => { x with UpdatedAt := now } }

/-- The handlers of the product module; the list handler filters on
`supplier_id`, `category_id`, `type` and `is_enabled`. -/
def resource : crud.Resource Product :=
  { model := model, zero := Product.zero, setField := Product.setField,
    toJson := Product.toJson,
    filters :=
      [{ key := "supplier_id", cond := bind.uintCond (fun x => x.SupplierID) },
       { key := "category_id", cond := bind.uintCond (fun x => x.CategoryID) },
       { key := "type", cond := bind.intCond (fun x => x.Type_) },
       { key := "is_enabled", cond := bind.boolCond (fun x => x.IsEnabled) }],
    createFailed := "创建商品失败", listFailed := "获取商品列表失败",
    notFound := "商品不存在", updateFailed := "更新商品失败",
    deleteFailed := "删除商品失败" }

end product

namespace category

/-- The struct `category.Category`. -/
structure Category where
  ID : Nat
  CreatedAt : Time
  UpdatedAt : Time
  DeletedAt : Option Time
  Name : String
  Description : String
  ParentID : Option Nat
  LevelRemark : String
  IsEnabled : Bool
deriving DecidableEq, Repr

/-- The zero value of `Category`. -/
def Category.zero : Category :=
  { ID := 0, CreatedAt := user.zeroTime, UpdatedAt := user.zeroTime, DeletedAt := none,
    Name := "", Description := "", ParentID := none, LevelRemark := "", IsEnabled := false }

/-- One member of a JSON object decoded into a `Category`. -/
def Category.setField (L : Lib) (x : Category) (key : String) (v : Json) : Option Category :=
  if key = "id" then (user.decodeUint v x.ID).map (fun a => { x with ID := a })
  else if key = "created_at" then
    (user.decodeTime L v x.CreatedAt).map (fun a => { x with CreatedAt := a })
  else if key = "updated_at" then
    (user.decodeTime L v x.UpdatedAt).map (fun a => { x with UpdatedAt := a })
  else if key = "deleted_at" then
    (user.decodeTimePtr L v).map (fun a => { x with DeletedAt := a })
  else if key = "name" then (user.decodeString v x.Name).map (fun a => { x with Name := a })
  else if key = "description" then
    (user.decodeString v x.Description).map (fun a => { x with Description := a })
  else if key = "parent_id" then
    (bind.decodeUintPtr v).map (fun a => { x with ParentID := a })
  else if key = "level_remark" then
    (user.decodeString v x.LevelRemark).map (fun a => { x with LevelRemark := a })
  else if key = "is_enabled" then
    (user.decodeBool v x.IsEnabled).map (fun a => { x with IsEnabled := a })
  else some x

/-- The JSON of a `Category` by its json tags. -/
def Category.toJson (L : Lib) (x : Category) : Json :=
  Json.obj
    [("id", Json.num x.ID),
     ("created_at", Json.str (L.formatTime x.CreatedAt)),
     ("updated_at", Json.str (L.formatTime x.UpdatedAt)),
     ("deleted_at", bind.timePtrJson L x.DeletedAt),
     ("name", Json.str x.Name),
     ("description", Json.str x.Description),
     ("parent_id", bind.uintPtrJson x.ParentID),
     ("level_remark", Json.str x.LevelRemark),
     ("is_enabled", Json.bool x.IsEnabled)]

/-- The model of `Category`. -/
def model : gorm.Model Category :=
  { ID := fun x => x.ID,
    newRow := fun seq now x =>
      { x with
        ID := if x.ID = 0 then seq + 1 else x.ID,
        CreatedAt := if x.CreatedAt = user.zeroTime then now else x.CreatedAt,
        UpdatedAt := if x.UpdatedAt = user.zeroTime then now else x.UpdatedAt,
        IsEnabled := if x.IsEnabled = false then true else x.IsEnabled },
    column := fun x => if x.Name.length ≤ 100 then some x else none,
    collides := fun _ _ => false,
    touch := fun now x => { x with UpdatedAt := now } }

/-- The handlers of the category module other than `Delete`. -/
def resource : crud.Resource Category :=
  { model := model, zero := Category.zero, setField := Category.setField,
    toJson := Category.toJson, filters := [],
    createFailed := "创建分类失败", listFailed := "获取分类列表失败",
    notFound := "分类不存在", updateFailed := "更新分类失败",
    deleteFailed := "删除分类失败" }

/-- The query `db.Model(&Category{}).Where("parent_id = ?", id).Count(&count)`. -/
def countChildren (t : gorm.Table Category) (id : Int) : Nat :=
  (t.rows.filter (fun r =>
    match r.ParentID with
    | none => false
    | some p => decide ((p : Int) = id))).length

/-- The handler `Delete` of the category module; `e1` is the error of the count
query, `e2` the error of the delete statement. -/
def Handler.Delete (t : gorm.Table Category) (e1 e2 : Option String) (idParam : String)
    (c : Context) : gorm.Table Category × Context :=
  match Atoi idParam with
  | none => (t, response.Error c 400 "无效的ID")
  | some id =>
    match gorm.call e1 (countChildren t id) with
    | .error _ => (t, response.Error c 500 "检查子分类失败")
    | .ok count =>
      if count > 0 then (t, response.Error c 400 "该分类下存在子分类，无法删除")
      else
        match gorm.call e2 (t.Delete model id) with
        | .error _ => (t, response.Error c 500 "删除分类失败")
        | .ok t1 => (t1, response.Success c (some crud.deleted))

end category

namespace link

/-- The struct `link.Link`. -/
structure Link where
  ID : Nat
  CreatedAt : Time
  UpdatedAt : Time
  DeletedAt : Option Time
  Name : String
  URL : String
  BaseRemark : String
  ShopID : Nat
  CategoryID : Nat
  Remark : String
  IsEnabled : Bool
deriving DecidableEq, Repr

/-- The zero value of `Link`. -/
def Link.zero : Link :=
  { ID := 0, CreatedAt := user.zeroTime, UpdatedAt := user.zeroTime, DeletedAt := none,
    Name := "", URL := "", BaseRemark := "", ShopID := 0, CategoryID := 0, Remark := "",
    IsEnabled := false }

/-- One member of a JSON object decoded into a `Link`. -/
def Link.setField (L : Lib) (x : Link) (key : String) (v : Json) : Option Link :=
  if key = "id" then (user.decodeUint v x.ID).map (fun a => { x with ID := a })
  else if key = "created_at" then
    (user.decodeTime L v x.CreatedAt).map (fun a => { x with CreatedAt := a })
  else if key = "updated_at" then
    (user.decodeTime L v x.UpdatedAt).map (fun a => { x with UpdatedAt := a })
  else if key = "deleted_at" then
    (user.decodeTimePtr L v).map (fun a => { x with DeletedAt := a })
  else if key = "name" then (user.decodeString v x.Name).map (fun a => { x with Name := a })
  else if key = "url" then (user.decodeString v x.URL).map (fun a => { x with URL := a })
  else if key = "base_remark" then
    (user.decodeString v x.BaseRemark).map (fun a => { x with BaseRemark := a })
  else if key = "shop_id" then
    (user.decodeUint v x.ShopID).map (fun a => { x with ShopID := a })
  else if key = "category_id" then
    (user.decodeUint v x.CategoryID).map (fun a => { x with CategoryID := a })
  else if key = "remark" then
    (user.decodeString v x.Remark).map (fun a => { x with Remark := a })
  else if key = "is_enabled" then
    (user.decodeBool v x.IsEnabled).map (fun a => { x with IsEnabled := a })
  else some x

/-- The JSON of a `Link` by its json tags. -/
def Link.toJson (L : Lib) (x : Link) : Json :=
  Json.obj
    [("id", Json.num x.ID),
     ("created_at", Json.str (L.formatTime x.CreatedAt)),
     ("updated_at", Json.str (L.formatTime x.UpdatedAt)),
     ("deleted_at", bind.timePtrJson L x.DeletedAt),
     ("name", Json.str x.Name),
     ("url", Json.str x.URL),
     ("base_remark", Json.str x.BaseRemark),
     ("shop_id", Json.num x.ShopID),
     ("category_id", Json.num x.CategoryID),
     ("remark", Json.str x.Remark),
     ("is_enabled", Json.bool x.IsEnabled)]

/-- The model of `Link`: `name` is a `varchar(100)`, `url` a `varchar(500)`. -/
def model : gorm.Model Link :=
  { ID := fun x => x.ID,
    newRow := fun seq now x =>
      { x with
        ID := if x.ID = 0 then seq + 1 else x.ID,
        CreatedAt := if x.CreatedAt = user.zeroTime then now else x.CreatedAt,
        UpdatedAt := if x.UpdatedAt = user.zeroTime then now else x.UpdatedAt,
        IsEnabled := if x.IsEnabled = false then true else x.IsEnabled },
    column := fun x => if x.Name.length ≤ 100 ∧ x.URL.length ≤ 500 then some x else none,
    collides := fun _ _ => false,
    touch := fun now x => { x with UpdatedAt := now } }

/-- The handlers of the link module; the list handler filters on `shop_id`,
`category_id` and `is_enabled`. -/
def resource : crud.Resource Link :=
  { model := model, zero := Link.zero, setField := Link.setField, toJson := Link.toJson,
    filters :=
      [{ key := "shop_id", cond := bind.uintCond (fun x => x.ShopID) },
       { key := "category_id", cond := bind.uintCond (fun x => x.CategoryID) },
       { key := "is_enabled", cond := bind.boolCond (fun x => x.IsEnabled) }],
    createFailed := "创建链接失败", listFailed := "获取链接列表失败",
    notFound := "链接不存在", updateFailed := "更新链接失败",
    deleteFailed := "删除链接失败" }

end link

/-! ### modules/attribute -/

/-- The struct `attribute.Attribute`. -/
structure attribute.Attribute where
  ID : Nat
  CreatedAt : Time
  UpdatedAt : Time
  DeletedAt : Option Time
  Name : String
  DataType : String
  CategoryID : Nat
  IsRequired : Bool
  Remark : String
  IsEnabled : Bool
deriving DecidableEq, Repr

/-- The zero value of `attribute.Attribute`. -/
def attribute.Attribute.zero : attribute.Attribute :=
  { ID := 0, CreatedAt := user.zeroTime, UpdatedAt := user.zeroTime, DeletedAt := none,
    Name := "", DataType := "", CategoryID := 0, IsRequired := false, Remark := "",
    IsEnabled := false }

/-- One member of a JSON object decoded into an `attribute.Attribute`. -/
def attribute.Attribute.setField (L : Lib) (x : attribute.Attribute) (key : String) (v : Json) :
    Option attribute.Attribute :=
  if key = "id" then (user.decodeUint v x.ID).map (fun a => { x with ID := a })
  else if key = "created_at" then
    (user.decodeTime L v x.CreatedAt).map (fun a => { x with CreatedAt := a })
  else if key = "updated_at" then
    (user.decodeTime L v x.UpdatedAt).map (fun a => { x with UpdatedAt := a })
  else if key = "deleted_at" then
    (user.decodeTimePtr L v).map (fun a => { x with DeletedAt := a })
  else if key = "name" then (user.decodeString v x.Name).map (fun a => { x with Name := a })
  else if key = "data_type" then
    (user.decodeString v x.DataType).map (fun a => { x with DataType := a })
  else if key = "category_id" then
    (user.decodeUint v x.CategoryID).map (fun a => { x with CategoryID := a })
  else if key = "is_required" then
    (user.decodeBool v x.IsRequired).map (fun a => { x with IsRequired := a })
  else if key = "remark" then
    (user.decodeString v x.Remark).map (fun a => { x with Remark := a })
  else if key = "is_enabled" then
    (user.decodeBool v x.IsEnabled).map (fun a => { x with IsEnabled := a })
  else some x

/-- The JSON of an `attribute.Attribute` by its json tags. -/
def attribute.Attribute.toJson (L : Lib) (x : attribute.Attribute) : Json :=
  Json.obj
    [("id", Json.num x.ID),
     ("created_at", Json.str (L.formatTime x.CreatedAt)),
     ("updated_at", Json.str (L.formatTime x.UpdatedAt)),
     ("deleted_at", bind.timePtrJson L x.DeletedAt),
     ("name", Json.str x.Name),
     ("data_type", Json.str x.DataType),
     ("category_id", Json.num x.CategoryID),
     ("is_required", Json.bool x.IsRequired),
     ("remark", Json.str x.Remark),
     ("is_enabled", Json.bool x.IsEnabled)]

/-- The model of `attribute.Attribute`: `is_enabled` has the tag `default:true`,
`is_required` the tag `default:false`, `name` is a `varchar(100)`, `data_type` a
`varchar(50)`. -/
def attribute.model : gorm.Model attribute.Attribute :=
  { ID := fun x => x.ID,
    newRow := fun seq now x =>
      { x with
        ID := if x.ID = 0 then seq + 1 else x.ID,
        CreatedAt := if x.CreatedAt = user.zeroTime then now else x.CreatedAt,
        UpdatedAt := if x.UpdatedAt = user.zeroTime then now else x.UpdatedAt,
        IsRequired := if x.IsRequired = false then false else x.IsRequired,
        IsEnabled := if x.IsEnabled = false then true else x.IsEnabled },
    column := fun x =>
      if x.Name.length ≤ 100 ∧ x.DataType.length ≤ 50 then some x else none,
    collides := fun _ _ => false,
    touch := fun now x => { x with UpdatedAt := now } }

/-- The handlers of the attributes; the list handler filters on `category_id`
and `is_enabled`. -/
def attribute.resource : crud.Resource attribute.Attribute :=
  { model := attribute.model, zero := attribute.Attribute.zero, setField := attribute.Attribute.setField,
    toJson := attribute.Attribute.toJson,
    filters :=
      [{ key := "category_id", cond := bind.uintCond (fun x => x.CategoryID) },
       { key := "is_enabled", cond := bind.boolCond (fun x => x.IsEnabled) }],
    createFailed := "创建属性失败", listFailed := "获取属性列表失败",
    notFound := "属性不存在", updateFailed := "更新属性失败",
    deleteFailed := "删除属性失败" }

/-- The struct `attribute.ProductAttribute`. -/
structure attribute.ProductAttribute where
  ID : Nat
  CreatedAt : Time
  UpdatedAt : Time
  DeletedAt : Option Time
  ProductID : Nat
  AttributeID : Nat
  Value : String
deriving DecidableEq, Repr

/-- The zero value of `attribute.ProductAttribute`. -/
def attribute.ProductAttribute.zero : attribute.ProductAttribute :=
  { ID := 0, CreatedAt := user.zeroTime, UpdatedAt := user.zeroTime, DeletedAt := none,
    ProductID := 0, AttributeID := 0, Value := "" }

/-- One member of a JSON object decoded into a `attribute.ProductAttribute`. -/
def attribute.ProductAttribute.setField (L : Lib) (x : attribute.ProductAttribute) (key : String) (v : Json) :
    Option attribute.ProductAttribute :=
  if key = "id" then (user.decodeUint v x.ID).map (fun a => { x with ID := a })
  else if key = "created_at" then
    (user.decodeTime L v x.CreatedAt).map (fun a => { x with CreatedAt := a })
  else if key = "updated_at" then
    (user.decodeTime L v x.UpdatedAt).map (fun a => { x with UpdatedAt := a })
  else if key = "deleted_at" then
    (user.decodeTimePtr L v).map (fun a => { x with DeletedAt := a })
  else if key = "product_id" then
    (user.decodeUint v x.ProductID).map (fun a => { x with ProductID := a })
  else if key = "attribute_id" then
    (user.decodeUint v x.AttributeID).map (fun a => { x with AttributeID := a })
  else if key = "value" then
    (user.decodeString v x.Value).map (fun a => { x with Value := a })
  else some x

/-- The JSON of a `attribute.ProductAttribute` by its json tags. -/
def attribute.ProductAttribute.toJson (L : Lib) (x : attribute.ProductAttribute) : Json :=
  Json.obj
    [("id", Json.num x.ID),
     ("created_at", Json.str (L.formatTime x.CreatedAt)),
     ("updated_at", Json.str (L.formatTime x.UpdatedAt)),
     ("deleted_at", bind.timePtrJson L x.DeletedAt),
     ("product_id", Json.num x.ProductID),
     ("attribute_id", Json.num x.AttributeID),
     ("value", Json.str x.Value)]

/-- The model of `attribute.ProductAttribute`. -/
def attribute.productAttributeModel : gorm.Model attribute.ProductAttribute :=
  { ID := fun x => x.ID,
    newRow := fun seq now x =>
      { x with
        ID := if x.ID = 0 then seq + 1 else x.ID,
        CreatedAt := if x.CreatedAt = user.zeroTime then now else x.CreatedAt,
        UpdatedAt := if x.UpdatedAt = user.zeroTime then now else x.UpdatedAt },
    column := fun x => some x,
    collides := fun _ _ => false,
    touch := fun now x => { x with UpdatedAt := now } }

/-- The handlers of the product attribute values; the list handler filters on
`product_id` and `attribute_id`. There is no handler for a single value. -/
def attribute.productAttributeResource : crud.Resource attribute.ProductAttribute :=
  { model := attribute.productAttributeModel, zero := attribute.ProductAttribute.zero,
    setField := attribute.ProductAttribute.setField, toJson := attribute.ProductAttribute.toJson,
    filters :=
      [{ key := "product_id", cond := bind.uintCond (fun x => x.ProductID) },
       { key := "attribute_id", cond := bind.uintCond (fun x => x.AttributeID) }],
    createFailed := "创建商品属性值失败", listFailed := "获取商品属性值列表失败",
    notFound := "商品属性值不存在", updateFailed := "更新商品属性值失败",
    deleteFailed := "删除商品属性值失败" }

/-! ### The handlers by their names in the source -/

/-- The handler `supplier.Handler.Create`. -/
def supplier.Handler.Create (L : Lib) := crud.Create L supplier.resource

/-- The handler `supplier.Handler.List`. -/
def supplier.Handler.List (L : Lib) := crud.List L supplier.resource

/-- The handler `supplier.Handler.Get`. -/
def supplier.Handler.Get (L : Lib) := crud.Get L supplier.resource

/-- The handler `supplier.Handler.Delete`. -/
def supplier.Handler.Delete := crud.Delete supplier.resource

/-- The handler `shop.Handler.Create`. -/
def shop.Handler.Create (L : Lib) := crud.Create L shop.resource

/-- The handler `shop.Handler.List`. -/
def shop.Handler.List (L : Lib) := crud.List L shop.resource

/-- The handler `shop.Handler.Get`. -/
def shop.Handler.Get (L : Lib) := crud.Get L shop.resource

/-- The handler `shop.Handler.Delete`. -/
def shop.Handler.Delete := crud.Delete shop.resource

/-- The handler `product.Handler.Create`. -/
def product.Handler.Create (L : Lib) := crud.Create L product.resource

/-- The handler `product.Handler.List`. -/
def product.Handler.List (L : Lib) := crud.List L product.resource

/-- The handler `product.Handler.Get`. -/
def product.Handler.Get (L : Lib) := crud.Get L product.resource

/-- The handler `product.Handler.Delete`. -/
def product.Handler.Delete := crud.Delete product.resource

/-- The handler `category.Handler.Create`. -/
def category.Handler.Create (L : Lib) := crud.Create L category.resource

/-- The handler `category.Handler.List`. -/
def category.Handler.List (L : Lib) := crud.List L category.resource

/-- The handler `category.Handler.Get`. -/
def category.Handler.Get (L : Lib) := crud.Get L category.resource

/-- The handler `link.Handler.Create`. -/
def link.Handler.Create (L : Lib) := crud.Create L link.resource

/-- The handler `link.Handler.List`. -/
def link.Handler.List (L : Lib) := crud.List L link.resource

/-- The handler `link.Handler.Get`. -/
def link.Handler.Get (L : Lib) := crud.Get L link.resource

/-- The handler `link.Handler.Delete`. -/
def link.Handler.Delete := crud.Delete link.resource

/-- The handler `attribute.Handler.CreateAttribute`. -/
def attribute.Handler.CreateAttribute (L : Lib) := crud.Create L attribute.resource

/-- The handler `attribute.Handler.ListAttributes`. -/
def attribute.Handler.ListAttributes (L : Lib) := crud.List L attribute.resource

/-- The handler `attribute.Handler.GetAttribute`. -/
def attribute.Handler.GetAttribute (L : Lib) := crud.Get L attribute.resource

/-- The handler `attribute.Handler.DeleteAttribute`. -/
def attribute.Handler.DeleteAttribute := crud.Delete attribute.resource

/-- The handler `attribute.Handler.CreateProductAttribute`. -/
def attribute.Handler.CreateProductAttribute (L : Lib) :=
  crud.Create L attribute.productAttributeResource

/-- The handler `attribute.Handler.ListProductAttributes`. -/
def attribute.Handler.ListProductAttributes (L : Lib) :=
  crud.List L attribute.productAttributeResource

/-- The handler `attribute.Handler.DeleteProductAttribute`. -/
def attribute.Handler.DeleteProductAttribute := crud.Delete attribute.productAttributeResource

/-- The handler `supplier.Handler.Update`. -/
def supplier.Handler.Update (L : Lib) := crud.Update L supplier.resource

/-- The handler `supplier.Handler.ToggleStatus`. -/
def supplier.Handler.ToggleStatus (L : Lib) :=
  crud.ToggleStatus L supplier.resource (fun x => { x with IsEnabled := !x.IsEnabled })

/-- The handler `shop.Handler.Update`. -/
def shop.Handler.Update (L : Lib) := crud.Update L shop.resource

/-- The handler `shop.Handler.ToggleStatus`. -/
def shop.Handler.ToggleStatus (L : Lib) :=
  crud.ToggleStatus L shop.resource (fun x => { x with IsEnabled := !x.IsEnabled })

/-- The handler `product.Handler.Update`. -/
def product.Handler.Update (L : Lib) := crud.Update L product.resource

/-- The handler `product.Handler.ToggleStatus`. -/
def product.Handler.ToggleStatus (L : Lib) :=
  crud.ToggleStatus L product.resource (fun x => { x with IsEnabled := !x.IsEnabled })

/-- The handler `category.Handler.Update`. -/
def category.Handler.Update (L : Lib) := crud.Update L category.resource

/-- The handler `category.Handler.ToggleStatus`. -/
def category.Handler.ToggleStatus (L : Lib) :=
  crud.ToggleStatus L category.resource (fun x => { x with IsEnabled := !x.IsEnabled })

/-- The handler `category.Handler.GetChildren`; `e` is the error of the query
`db.Where("parent_id = ?", id).Find(&categories)`. -/
def category.Handler.GetChildren (L : Lib) (t : gorm.Table category.Category)
    (e : Option String) (idParam : String) (c : Context) : Context :=
  match Atoi idParam with
  | none => response.Error c 400 "无效的ID"
  | some id =>
    match gorm.call e (t.Find [fun r =>
        match r.ParentID with
        | none => false
        | some p => decide ((p : Int) = id)]) with
    | .error _ => response.Error c 500 "获取子分类失败"
    | .ok rows => response.Success c (some (Json.arr (rows.map (category.Category.toJson L))))

/-- The handler `link.Handler.Update`. -/
def link.Handler.Update (L : Lib) := crud.Update L link.resource

/-- The handler `link.Handler.ToggleStatus`. -/
def link.Handler.ToggleStatus (L : Lib) :=
  crud.ToggleStatus L link.resource (fun x => { x with IsEnabled := !x.IsEnabled })

/-- The handler `attribute.Handler.UpdateAttribute`. -/
def attribute.Handler.UpdateAttribute (L : Lib) := crud.Update L attribute.resource

/-- The handler `attribute.Handler.ToggleAttributeStatus`. -/
def attribute.Handler.ToggleAttributeStatus (L : Lib) :=
  crud.ToggleStatus L attribute.resource (fun x => { x with IsEnabled := !x.IsEnabled })

/-- The handler `attribute.Handler.UpdateProductAttribute`. -/
def attribute.Handler.UpdateProductAttribute (L : Lib) :=
  crud.Update L attribute.productAttributeResource

/-! ## modules/user: the password handler -/

namespace user

/-- The query `db.First(&user, id)` for a number: the row with that primary key;
`none` is the error `ErrRecordNotFound`. -/
def Store.FirstByID (db : Store) (id : Int) : Option User :=
  db.users.find? (fun u => decide ((u.ID : Int) = id))

/-- The query `db.First(&user, userID)` for the value kept under `user_id`. The
only writer of that key, `JWTAuth`, stores a `uint`. For a string gorm takes a
number as the primary key and the empty string as no condition; any other text
is sent as a condition in SQL, which is outside this model and counts as a
statement the storage refuses. -/
def Store.First (db : Store) (v : Value) : Option User :=
  match v with
  | Value.uint n => db.FirstByID n
  | Value.str s =>
    match Atoi s with
    | some id => db.FirstByID id
    | none => if s = "" then leastID db.users else none

/-- Whether the storage refuses to write `row` over the row with its id: another
row has its name or its email, or a value does not fit its column. -/
def Store.refusesUpdate (db : Store) (row : User) : Bool :=
  db.users.any (fun v => decide (v.ID ≠ row.ID) &&
    (decide (v.Name = row.Name) || decide (v.Email = row.Email))) || !fitsColumns row

/-- The call `db.Save(&user)` at the instant `now`. With a zero id it is
`db.Create`. Otherwise it is `UPDATE users SET ... WHERE id = ?` over all
columns with `updated_at` set to `now`, followed by an insert when no row has
the id. The result is the new table and the struct, `none` on error. -/
def Store.Save (db : Store) (now : Time) (u : User) : Store × Option User :=
  if u.ID = 0 then db.Create now u
  else if db.users.all (fun v => decide (v.ID ≠ u.ID)) then
    db.Create now { u with UpdatedAt := now }
  else if db.refusesUpdate { u with UpdatedAt := now } then (db, none)
  else
    ({ users := db.users.map (fun v => if v.ID = u.ID then { u with UpdatedAt := now } else v),
       seq := db.seq },
      some { u with UpdatedAt := now })

/-- The struct `passwordData` of `UpdatePassword`. -/
structure PasswordData where
  OldPassword : String
  NewPassword : String
deriving DecidableEq, Repr

/-- One member of a JSON object decoded into a `PasswordData`. -/
def PasswordData.setField (r : PasswordData) (key : String) (v : Json) :
    Option PasswordData :=
  if key = "old_password" then
    (decodeString v r.OldPassword).map (fun s => { r with OldPassword := s })
  else if key = "new_password" then
    (decodeString v r.NewPassword).map (fun s => { r with NewPassword := s })
  else some r

/-- The call `c.ShouldBindJSON(&passwordData)`: decode, then check the two
`binding:"required"` tags, which refuse the empty string. -/
def bindPasswordData (body : Option Json) : Option PasswordData :=
  match body with
  | none => none
  | some doc =>
    match decodeStruct PasswordData.setField doc { OldPassword := "", NewPassword := "" } with
    | none => none
    | some r => if r.OldPassword = "" ∨ r.NewPassword = "" then none else some r

/-- The JSON of `gin.H{"message": "密码更新成功"}`. -/
def passwordUpdated : Json := Json.obj [("message", Json.str "密码更新成功")]

/-- The handler `Handler.UpdatePassword`; `salt` is the randomness bcrypt draws,
`now` the clock reading of gorm, `e1` the error of the query, `e2` the error of
the save. The result is the new table and the context. -/
def Handler.UpdatePassword (L : Lib) (salt : Bytes) (now : Time) (db : Store)
    (e1 e2 : Option String) (c : Context) : Store × Context :=
  match c.Get "user_id" with
  | none => (db, response.Error c 401 "未认证")
  | some userID =>
    match bindPasswordData c.Body with
    | none => (db, response.Error c 400 "无效的请求参数")
    | some passwordData =>
      match gorm.call e1 (db.First userID) with
      | .error _ => (db, response.Error c 404 "用户不存在")
      | .ok none => (db, response.Error c 404 "用户不存在")
      | .ok (some user) =>
        if !L.bcryptCompare user.Password passwordData.OldPassword then
          (db, response.Error c 400 "原密码错误")
        else
          match L.bcryptHash passwordData.NewPassword bcryptDefaultCost salt with
          | none => (db, response.Error c 500 "密码加密失败")
          | some hashedPassword =>
            match gorm.call e2 (db.Save now { user with Password := hashedPassword }) with
            | .error _ => (db, response.Error c 500 "更新密码失败")
            | .ok (db1, none) => (db1, response.Error c 500 "更新密码失败")
            | .ok (db1, some _) => (db1, response.Success c (some passwordUpdated))

end user

/-! ## modules/user: the other handlers

Every call of the storage in these handlers takes the error it raises, `none`
when it works. -/

namespace user

/-- The call `db.Delete(&User{}, id)`: the statement `DELETE FROM users WHERE
id = ?`. -/
def Store.Delete (db : Store) (id : Int) : Store :=
  { db with users := db.users.filter (fun u => !decide ((u.ID : Int) = id)) }

/-- The handler `Handler.Get`; `idParam` is `c.Param("id")`. -/
def Handler.Get (L : Lib) (db : Store) (e : Option String) (idParam : String)
    (c : Context) : Context :=
  match Atoi idParam with
  | none => response.Error c 400 "无效的ID"
  | some id =>
    match gorm.call e (db.FirstByID id) with
    | .error _ => response.Error c 404 "用户不存在"
    | .ok none => response.Error c 404 "用户不存在"
    | .ok (some user) => response.Success c (some (user.toJson L))

/-- The handler `Handler.Create`. -/
def Handler.Create (L : Lib) (salt : Bytes) (now : Time) (db : Store) (e : Option String)
    (c : Context) : Store × Context :=
  match bindUser L c.Body User.zero with
  | none => (db, response.Error c 400 "无效的请求参数")
  | some user =>
    match L.bcryptHash user.Password bcryptDefaultCost salt with
    | none => (db, response.Error c 500 "密码加密失败")
    | some hashedPassword =>
      match gorm.call e (db.Create now { user with Password := hashedPassword }) with
      | .error _ => (db, response.Error c 500 "创建用户失败")
      | .ok (db1, none) => (db1, response.Error c 500 "创建用户失败")
      | .ok (db1, some created) => (db1, response.Success c (some (created.toJson L)))

/-- The handler `Handler.Update`; `e1` is the error of the query, `e2` the error
of the save. The body is decoded over the user that was loaded. -/
def Handler.Update (L : Lib) (now : Time) (db : Store) (e1 e2 : Option String)
    (idParam : String) (c : Context) : Store × Context :=
  match Atoi idParam with
  | none => (db, response.Error c 400 "无效的ID")
  | some id =>
    match gorm.call e1 (db.FirstByID id) with
    | .error _ => (db, response.Error c 404 "用户不存在")
    | .ok none => (db, response.Error c 404 "用户不存在")
    | .ok (some user) =>
      match bindUser L c.Body user with
      | none => (db, response.Error c 400 "无效的请求参数")
      | some bound =>
        match gorm.call e2 (db.Save now bound) with
        | .error _ => (db, response.Error c 500 "更新用户失败")
        | .ok (db1, none) => (db1, response.Error c 500 "更新用户失败")
        | .ok (db1, some saved) => (db1, response.Success c (some (saved.toJson L)))

/-- The handler `Handler.Delete`. -/
def Handler.Delete (db : Store) (e : Option String) (idParam : String) (c : Context) :
    Store × Context :=
  match Atoi idParam with
  | none => (db, response.Error c 400 "无效的ID")
  | some id =>
    match gorm.call e (db.Delete id) with
    | .error _ => (db, response.Error c 500 "删除用户失败")
    | .ok db1 => (db1, response.Success c (some crud.deleted))

/-- The handler `Handler.GetProfile`. -/
def Handler.GetProfile (L : Lib) (db : Store) (e : Option String) (c : Context) : Context :=
  match c.Get "user_id" with
  | none => response.Error c 401 "未认证"
  | some userID =>
    match gorm.call e (db.First userID) with
    | .error _ => response.Error c 404 "用户不存在"
    | .ok none => response.Error c 404 "用户不存在"
    | .ok (some user) => response.Success c (some (user.toJson L))

/-- The handler `Handler.UpdateProfile`; `e1` is the error of the query, `e2`
the error of the save. -/
def Handler.UpdateProfile (L : Lib) (now : Time) (db : Store) (e1 e2 : Option String)
    (c : Context) : Store × Context :=
  match c.Get "user_id" with
  | none => (db, response.Error c 401 "未认证")
  | some userID =>
    match gorm.call e1 (db.First userID) with
    | .error _ => (db, response.Error c 404 "用户不存在")
    | .ok none => (db, response.Error c 404 "用户不存在")
    | .ok (some user) =>
      match bindUser L c.Body user with
      | none => (db, response.Error c 400 "无效的请求参数")
      | some bound =>
        match gorm.call e2 (db.Save now bound) with
        | .error _ => (db, response.Error c 500 "更新个人资料失败")
        | .ok (db1, none) => (db1, response.Error c 500 "更新个人资料失败")
        | .ok (db1, some saved) => (db1, response.Success c (some (saved.toJson L)))

end user

/-! ## modules/product: dynamic attributes, stock and price -/

namespace product

/-- The type `DynamicAttributes`, a `map[string]interface{}`: nil, or the
members of the map. -/
abbrev DynamicAttributes := Option (List (String × Json))

/-- The method `DynamicAttributes.Value`: `json.Marshal(da)`; `none` is an
error. -/
def DynamicAttributes.Value (L : Lib) (da : DynamicAttributes) : Option Bytes :=
  L.jsonMarshal (bind.mapJson da)

/-- One member of a JSON object decoded into the struct `stockUpdate`. -/
def stockSetField (stock : Int) (key : String) (v : Json) : Option Int :=
  if key = "stock" then bind.decodeInt v stock else some stock

/-- The call `c.ShouldBindJSON(&stockUpdate)`: decode, then check the tag
`binding:"required"`, which refuses the zero value of the field. -/
def bindStockUpdate (body : Option Json) : Option Int :=
  match body with
  | none => none
  | some doc =>
    match user.decodeStruct stockSetField doc 0 with
    | none => none
    | some stock => if stock = 0 then none else some stock

/-- One member of a JSON object decoded into the struct `priceUpdate`. -/
def priceSetField (price : ℚ) (key : String) (v : Json) : Option ℚ :=
  if key = "price" then bind.decodeFloat v price else some price

/-- The call `c.ShouldBindJSON(&priceUpdate)`: decode, then check the tag
`binding:"required"`, which refuses the zero value of the field. -/
def bindPriceUpdate (body : Option Json) : Option ℚ :=
  match body with
  | none => none
  | some doc =>
    match user.decodeStruct priceSetField doc 0 with
    | none => none
    | some price => if price = 0 then none else some price

/-- The call `db.Model(&Product{}).Where("id = ?", id).Update("stock", stock)` at
the instant `now`: `UPDATE products SET stock = ?, updated_at = ? WHERE id = ?`.
A statement that matches no row is no error. -/
def updateStock (t : gorm.Table Product) (now : Time) (id : Int) (stock : Int) :
    gorm.Table Product :=
  { rows := t.rows.map (fun r =>
      if (r.ID : Int) = id then { r with Stock := stock, UpdatedAt := now } else r),
    seq := t.seq }

/-- The call `db.Model(&Product{}).Where("id = ?", id).Update("price", price)` at
the instant `now`. The column is a `decimal(10,2)`: the value is rounded, and
the statement fails when it matches a row and the value is too large. -/
def updatePrice (t : gorm.Table Product) (now : Time) (id : Int) (price : ℚ) :
    Option (gorm.Table Product) :=
  if t.rows.any (fun r => decide ((r.ID : Int) = id)) ∧
      ¬ |roundCents price| < 100000000 then none
  else
    some { rows := t.rows.map (fun r =>
             if (r.ID : Int) = id then { r with Price := roundCents price, UpdatedAt := now }
             else r),
           seq := t.seq }

/-- The JSON of `gin.H{"message": "更新库存成功"}`. -/
def stockUpdated : Json := Json.obj [("message", Json.str "更新库存成功")]

/-- The JSON of `gin.H{"message": "更新价格成功"}`. -/
def priceUpdated : Json := Json.obj [("message", Json.str "更新价格成功")]

/-- The handler `Handler.UpdateStock`; `e` is the error of the update. -/
def Handler.UpdateStock (t : gorm.Table Product) (e : Option String) (now : Time)
    (idParam : String) (c : Context) : gorm.Table Product × Context :=
  match Atoi idParam with
  | none => (t, response.Error c 400 "无效的ID")
  | some id =>
    match bindStockUpdate c.Body with
    | none => (t, response.Error c 400 "无效的请求参数")
    | some stock =>
      match gorm.call e (updateStock t now id stock) with
      | .error _ => (t, response.Error c 500 "更新库存失败")
      | .ok t1 => (t1, response.Success c (some stockUpdated))

/-- The handler `Handler.UpdatePrice`; `e` is the error of the update. -/
def Handler.UpdatePrice (t : gorm.Table Product) (e : Option String) (now : Time)
    (idParam : String) (c : Context) : gorm.Table Product × Context :=
  match Atoi idParam with
  | none => (t, response.Error c 400 "无效的ID")
  | some id =>
    match bindPriceUpdate c.Body with
    | none => (t, response.Error c 400 "无效的请求参数")
    | some price =>
      match gorm.call e (updatePrice t now id price) with
      | .error _ => (t, response.Error c 500 "更新价格失败")
      | .ok none => (t, response.Error c 500 "更新价格失败")
      | .ok (some t1) => (t1, response.Success c (some priceUpdated))

end product

/-! ## modules/system -/

namespace system

/-- The first function literal of `RegisterRoutes`, the handler of `GET /health`:
the status and the document it passes to `c.JSON`. The document is a `gin.H`, a
map, whose keys print in sorted order; `now` is the clock reading. -/
def RegisterRoutes.func1 (L : Lib) (now : Time) : Nat × Json :=
  (200, Json.obj [("status", Json.str "ok"), ("time", Json.str (L.formatTime now))])

/-- The second function literal of `RegisterRoutes`, the handler of `GET /info`;
`mode` is `gin.Mode()`. -/
def RegisterRoutes.func2 (mode : String) : Nat × Json :=
  (200, Json.obj [("env", Json.str mode), ("name", Json.str "ERP Backend"),
    ("version", Json.str "1.0.0")])

/-- The function `HealthCheck` of `handlers.go`, which no route uses. -/
def HealthCheck (L : Lib) (now : Time) (c : Context) : Context :=
  response.Success c
    (some (Json.obj [("status", Json.str "ok"), ("time", Json.str (L.formatTime now))]))

/-- The function `SystemInfo` of `handlers.go`, which no route uses. -/
def SystemInfo (mode : String) (c : Context) : Context :=
  response.Success c
    (some (Json.obj [("env", Json.str mode), ("name", Json.str "ERP Backend"),
      ("version", Json.str "1.0.0")]))

end system

/-- The function literal of `setupRoutes`, the handler of `GET /`. -/
def main.setupRoutes.func1 (c : Context) : Context :=
  response.Success c
    (some (Json.obj [("message", Json.str "ERP后端服务运行正常"),
      ("version", Json.str "1.0.0")]))

/-- The status and the JSON document of every call of `c.JSON` a context has
recorded. gin sends the document as the body of the answer for every status
that allows a body, which excludes 1xx, 204 and 304; no call site of the
repository uses one of these. -/
def Context.sent (c : Context) : List (Nat × Json) :=
  c.Written.map (fun w => (w.1, w.2.toJson))

/-! ## A concrete instance of the library primitives

Small stand-ins for the primitives, used to instantiate the general statements
at concrete inputs. Encodings are unary: a value is coded as a number and the
number as a run of one symbol. -/

namespace Toy

/-- The characters of a string as numbers. -/
def codes (s : String) : List Nat := s.data.map Char.toNat

/-- The string of a list of character numbers. -/
def uncodes (l : List Nat) : String := String.mk (l.map Char.ofNat)

/-- The claims as a tuple of encodable values. -/
def claimsTuple (cl : Claims) : Nat × List Nat × Option Int × Option Int × Option Int :=
  (cl.UserID, codes cl.UserType, cl.RegisteredClaims.ExpiresAt,
    cl.RegisteredClaims.NotBefore, cl.RegisteredClaims.IssuedAt)

/-- The claims of a tuple. -/
def tupleClaims (t : Nat × List Nat × Option Int × Option Int × Option Int) : Claims :=
  { UserID := t.1, UserType := uncodes t.2.1,
    RegisteredClaims := { ExpiresAt := t.2.2.1, NotBefore := t.2.2.2.1,
                          IssuedAt := t.2.2.2.2 } }

/-- A run of zero bytes of the given length. -/
def run (n : Nat) : Bytes := List.replicate n 0

mutual
/-- A JSON document as a list of numbers: a tag, then the content. A string is
its length and its characters, a number its sign and its magnitude, a list or
an object its members, each after a 1, and a 0 at the end. -/
def tokens : Json → List Nat
  | .null => [0]
  | .bool b => [1, if b then 1 else 0]
  | .num n => [2, if n < 0 then 1 else 0, n.natAbs]
  | .frac q => [3, if q.num < 0 then 1 else 0, q.num.natAbs, q.den]
  | .str s => 4 :: s.data.length :: codes s
  | .arr items => 5 :: tokensList items
  | .obj fields => 6 :: tokensFields fields
/-- The members of a list as numbers. -/
def tokensList : List Json → List Nat
  | [] => [0]
  | j :: rest => 1 :: (tokens j ++ tokensList rest)
/-- The members of an object as numbers. -/
def tokensFields : List (String × Json) → List Nat
  | [] => [0]
  | (k, v) :: rest =>
    1 :: k.data.length :: (codes k ++ (tokens v ++ tokensFields rest))
end

/-- The integer of a sign and a magnitude. -/
def signed (s a : Nat) : Int := if s = 1 then -(a : Int) else (a : Int)

/-- Reading a string: its length, then its characters. -/
def readString (toks : List Nat) : Option (String × List Nat) :=
  match toks with
  | [] => none
  | n :: rest => if n ≤ rest.length then some (uncodes (rest.take n), rest.drop n) else none

mutual
/-- Reading a document from the numbers of `tokens`; the result is the document
and the numbers that follow it. The first argument bounds the depth. -/
def parse : Nat → List Nat → Option (Json × List Nat)
  | 0, _ => none
  | fuel + 1, toks =>
    match toks with
    | [] => none
    | tag :: rest =>
      if tag = 0 then some (Json.null, rest)
      else if tag = 1 then
        match rest with
        | b :: rest1 => some (Json.bool (decide (b = 1)), rest1)
        | _ => none
      else if tag = 2 then
        match rest with
        | s :: a :: rest1 => some (Json.num (signed s a), rest1)
        | _ => none
      else if tag = 3 then
        match rest with
        | s :: a :: d :: rest1 => some (Json.frac ((signed s a : ℚ) / (d : ℚ)), rest1)
        | _ => none
      else if tag = 4 then
        match readString rest with
        | some (s, rest1) => some (Json.str s, rest1)
        | none => none
      else if tag = 5 then
        match parseList fuel rest with
        | some (items, rest1) => some (Json.arr items, rest1)
        | none => none
      else if tag = 6 then
        match parseFields fuel rest with
        | some (fields, rest1) => some (Json.obj fields, rest1)
        | none => none
      else none
/-- Reading the members of a list. -/
def parseList : Nat → List Nat → Option (List Json × List Nat)
  | 0, _ => none
  | fuel + 1, toks =>
    match toks with
    | [] => none
    | tag :: rest =>
      if tag = 0 then some ([], rest)
      else
        match parse fuel rest with
        | none => none
        | some (j, rest1) =>
          match parseList fuel rest1 with
          | none => none
          | some (js, rest2) => some (j :: js, rest2)
/-- Reading the members of an object. -/
def parseFields : Nat → List Nat → Option (List (String × Json) × List Nat)
  | 0, _ => none
  | fuel + 1, toks =>
    match toks with
    | [] => none
    | tag :: rest =>
      if tag = 0 then some ([], rest)
      else
        match readString rest with
        | none => none
        | some (k, rest0) =>
          match parse fuel rest0 with
          | none => none
          | some (v, rest1) =>
            match parseFields fuel rest1 with
            | none => none
            | some (fs, rest2) => some ((k, v) :: fs, rest2)
end

/-- A natural number as bytes: that many ones, then a zero. -/
def unary (n : Nat) : Bytes := List.replicate n 1 ++ [0]

/-- Numbers as bytes. -/
def bytesOf : List Nat → Bytes
  | [] => []
  | n :: rest => unary n ++ bytesOf rest

/-- The numbers of bytes: `acc` counts the ones since the last zero. -/
def natsOf (acc : Nat) : Bytes → List Nat
  | [] => []
  | b :: rest => if b = 0 then acc :: natsOf 0 rest else natsOf (acc + 1) rest

/-- The JSON printer of the instance. -/
def jsonMarshal (doc : Json) : Option Bytes := some (bytesOf (tokens doc))

/-- The JSON reader of the instance. -/
def jsonUnmarshal (b : Bytes) : Option Json :=
  match parse (natsOf 0 b).length (natsOf 0 b) with
  | some (doc, []) => some doc
  | _ => none

/-- The instance: a MAC that appends the length of the text to the key, unary
segment encoding, a password hash that marks the password, and a JSON codec
that writes the numbers of `tokens` in unary. -/
def lib : Lib :=
  { hmac := fun _ key text => key ++ run text.length,
    EncodeSegment := fun b => String.mk (List.replicate (Encodable.encode b) 'x'),
    DecodeSegment := fun s =>
      if s.data.all (fun ch => ch = 'x') then Encodable.decode s.data.length else none,
    marshalHeader := fun alg => run (Encodable.encode (codes alg)),
    unmarshalHeader := fun b =>
      (Encodable.decode b.length : Option (List Nat)).map (fun l => some (uncodes l)),
    marshalClaims := fun cl => run (Encodable.encode (claimsTuple cl)),
    unmarshalClaims := fun b =>
      (Encodable.decode b.length :
        Option (Nat × List Nat × Option Int × Option Int × Option Int)).map tupleClaims,
    bcryptHash := fun p _ _ => some (String.mk ('#' :: p.data)),
    bcryptCompare := fun h q => decide (h = String.mk ('#' :: q.data)),
    parseTime := Atoi,
    formatTime := fun t => toString t,
    sqlInt := Atoi,
    sqlBool := fun s =>
      if s = "true" then some true else if s = "false" then some false else none,
    jsonMarshal := jsonMarshal,
    jsonUnmarshal := jsonUnmarshal }

/-- A signing secret. -/
def secret : Bytes := [1, 2, 3]

/-- A request with the given `Authorization` header and no body. -/
def request (authorization : String) : Request :=
  { Header := [("Authorization", authorization)], Body := none }

/-- A context of a request with the given `Authorization` header. -/
def context (authorization : String) : Context :=
  Context.reset (request authorization)

/-- A handler that answers with the success envelope. -/
def okHandler : Handler :=
  { name := "ok", fn := fun _ c => response.Success c none }

/-- A context of a request with the given JSON body and no header. -/
def bodyContext (body : Json) : Context :=
  Context.reset { Header := [], Body := some body }

/-- The body of a login request. -/
def loginBody (username password : String) : Json :=
  Json.obj [("username", Json.str username), ("password", Json.str password)]

/-- The body of a registration request with a name, an email and a password. -/
def registerBody (name email password : String) : Json :=
  Json.obj [("name", Json.str name), ("email", Json.str email),
    ("password", Json.str password)]

/-- A stored user whose password hash is the one of the password `secret`. -/
def alice : user.User :=
  { user.User.zero with ID := 1, Name := "alice", Email := "alice@example.com",
                        Password := "#secret", UserType := "user" }

/-- A users table with the one user `alice`. -/
def aliceStore : user.Store := { users := [alice], seq := 1 }

/-- The empty users table. -/
def emptyStore : user.Store := { users := [], seq := 0 }

/-- A context of a password request of the user with the given id. -/
def passwordContext (id : Nat) (old new : String) : Context :=
  (bodyContext (Json.obj [("old_password", Json.str old),
    ("new_password", Json.str new)])).Set "user_id" (Value.uint id)

/-- A stored supplier. -/
def acme : supplier.Supplier :=
  { supplier.Supplier.zero with ID := 1, CreatedAt := 3, UpdatedAt := 3, Name := "acme",
                                IsEnabled := true }

/-- A suppliers table with the one supplier `acme`. -/
def suppliers : gorm.Table supplier.Supplier := { rows := [acme], seq := 1 }

/-- A context of a request without header and body. -/
def plainContext : Context := Context.reset { Header := [], Body := none }

/-- The body of a request to create a product that is not enabled. -/
def widgetBody : Json :=
  Json.obj [("name", Json.str "widget"), ("sku", Json.str "W1"), ("supplier_id", Json.num 1),
    ("category_id", Json.num 1), ("is_enabled", Json.bool false)]

/-- The empty products table. -/
def products : gorm.Table product.Product := { rows := [], seq := 0 }

/-- The product the storage keeps of the request `widgetBody` made at the instant
5 on the empty table. -/
def widget : product.Product :=
  { product.Product.zero with ID := 1, CreatedAt := 5, UpdatedAt := 5, SupplierID := 1,
                              CategoryID := 1, Name := "widget", SKU := "W1",
                              IsEnabled := true }

/-- A category without parent. -/
def tools : category.Category :=
  { category.Category.zero with ID := 1, CreatedAt := 3, UpdatedAt := 3, Name := "tools",
                                IsEnabled := true }

/-- A category whose parent is `tools`. -/
def saws : category.Category :=
  { category.Category.zero with ID := 2, CreatedAt := 4, UpdatedAt := 4, Name := "saws",
                                ParentID := some 1, IsEnabled := true }

/-- A categories table with `tools` and its child `saws`. -/
def categories : gorm.Table category.Category := { rows := [Toy.tools, Toy.saws], seq := 2 }

/-- A category that is its own parent. -/
def loop : category.Category :=
  { category.Category.zero with ID := 1, CreatedAt := 3, UpdatedAt := 3, Name := "loop",
                                ParentID := some 1, IsEnabled := true }

/-- A product with the given id, category and SKU. -/
def item (id category : Nat) (sku : String) : product.Product :=
  { product.Product.zero with ID := id, CreatedAt := 3, UpdatedAt := 3, SupplierID := 1,
                              CategoryID := category, Name := "item", SKU := sku,
                              IsEnabled := true }

/-- A products table with three products, of the categories 1, 1 and 2. -/
def threeProducts : gorm.Table product.Product :=
  { rows := [Toy.item 1 1 "A", Toy.item 2 1 "B", Toy.item 3 2 "C"], seq := 3 }

/-- The body of an update that names another id and a new SKU. -/
def moveBody (id : Int) (sku : String) : Json :=
  Json.obj [("id", Json.num id), ("sku", Json.str sku)]

/-- A product with one dynamic attribute. -/
def gadget : product.Product :=
  { Toy.item 1 1 "A" with DynamicAttrs := some [("a", Json.num 1)] }

/-- The body of an update that gives one dynamic attribute. -/
def attrBody : Json := Json.obj [("dynamic_attrs", Json.obj [("b", Json.num 2)])]

/-- A second stored user, whose password hash is the one of `hunter2`. -/
def bob : user.User :=
  { user.User.zero with ID := 2, Name := "bob", Email := "bob@example.com",
                        Password := "#hunter2", UserType := "admin" }

/-- A users table with `alice` and `bob`. -/
def twoUsers : user.Store := { users := [Toy.alice, Toy.bob], seq := 2 }

/-- The body of an update that names the id 2 and a new name and email. -/
def takeoverBody : Json :=
  Json.obj [("id", Json.num 2), ("name", Json.str "carol"),
    ("email", Json.str "carol@example.com")]

/-- The user `alice` written over the row 2 under the name `carol`. -/
def carol : user.User :=
  { Toy.alice with ID := 2, Name := "carol", Email := "carol@example.com", UpdatedAt := 9 }

/-- The body of a request to create a supplier whose `deleted_at` is set. -/
def ghostBody : Json :=
  Json.obj [("name", Json.str "ghost"), ("deleted_at", Json.str "4")]

/-- The supplier the storage keeps of the request `ghostBody` made at the instant
5 on an empty table: its deletion time is set, it is not a live row. -/
def ghost : supplier.Supplier :=
  { supplier.Supplier.zero with ID := 1, CreatedAt := 5, UpdatedAt := 5, DeletedAt := some 4,
                                Name := "ghost", IsEnabled := true }

/-- The empty suppliers table. -/
def noSuppliers : gorm.Table supplier.Supplier := { rows := [], seq := 0 }

/-- The body of a request to create a product whose `deleted_at` is set. -/
def ghostItemBody : Json :=
  Json.obj [("name", Json.str "item"), ("sku", Json.str "A"), ("supplier_id", Json.num 1),
    ("category_id", Json.num 1), ("deleted_at", Json.str "4")]

/-- The product the storage keeps of the request `ghostItemBody` made at the
instant 3 on an empty table: its deletion time is set, it is not a live row. -/
def ghostItem : product.Product := { Toy.item 1 1 "A" with DeletedAt := some 4 }

/-- The body of a request to create a child of the category 1 whose `deleted_at`
is set. -/
def ghostChildBody : Json :=
  Json.obj [("name", Json.str "saws"), ("parent_id", Json.num 1), ("deleted_at", Json.str "4")]

/-- The category the storage keeps of the request `ghostChildBody` made at the
instant 4 on the table with `tools`: a child of `tools` that is not a live row. -/
def ghostChild : category.Category := { Toy.saws with DeletedAt := some 4 }

/-- The body of a request to create a user whose `deleted_at` is set. -/
def ghostUserBody : Json :=
  Json.obj [("name", Json.str "alice"), ("email", Json.str "alice@example.com"),
    ("deleted_at", Json.str "4")]

end Toy

/-! ## Statements

### Go string functions -/

theorem cutChars_append (sep : Char) (a b : List Char) (ha : sep ∉ a) :
    cutChars sep (a ++ sep :: b) = (a, some b) := by
  induction a with
  | nil => simp [cutChars]
  | cons x xs ih =>
    have hx : x ≠ sep := fun h => ha (by simp [h])
    have hxs : sep ∉ xs := fun h => ha (by simp [h])
    simp [cutChars, hx, ih hxs]

theorem cutChars_some (sep : Char) (s a b : List Char)
    (h : cutChars sep s = (a, some b)) : s = a ++ sep :: b ∧ sep ∉ a := by
  induction s generalizing a with
  | nil => simp [cutChars] at h
  | cons x xs ih =>
    by_cases hx : x = sep
    · simp [cutChars, hx] at h
      obtain ⟨rfl, rfl⟩ := h
      simp [hx]
    · simp only [cutChars, hx, if_false, Prod.mk.injEq] at h
      obtain ⟨h1, h2⟩ := h
      obtain ⟨e, hn⟩ := ih (cutChars sep xs).1 (by rw [← h2])
      subst h1
      refine ⟨by rw [List.cons_append, ← e], ?_⟩
      intro hm
      rcases List.mem_cons.1 hm with hm | hm
      · exact hx hm.symm
      · exact hn hm

theorem SplitN2_bearer (tok : String) :
    SplitN2 ("Bearer " ++ tok) ' ' = ["Bearer", tok] := by
  have h : ("Bearer " ++ tok).data = ['B', 'e', 'a', 'r', 'e', 'r'] ++ ' ' :: tok.data := by
    simp [String.data_append]
  have hc := cutChars_append ' ' ['B', 'e', 'a', 'r', 'e', 'r'] tok.data (by decide)
  simp only [SplitN2, h, hc]

theorem SplitN2_two (h p0 p1 : String) (hs : SplitN2 h ' ' = [p0, p1]) :
    h = p0 ++ " " ++ p1 := by
  unfold SplitN2 at hs
  cases hc : cutChars ' ' h.data with
  | mk a ob =>
    cases ob with
    | none => simp [hc] at hs
    | some b =>
      simp only [hc, List.cons.injEq, and_true] at hs
      obtain ⟨rfl, rfl⟩ := hs
      obtain ⟨e, -⟩ := cutChars_some ' ' h.data a b hc
      apply String.ext
      simp [String.data_append, e]

theorem SplitN2_length (h : String) :
    (∃ p0, SplitN2 h ' ' = [p0]) ∨ (∃ p0 p1, SplitN2 h ' ' = [p0, p1]) := by
  unfold SplitN2
  cases hc : cutChars ' ' h.data with
  | mk a ob =>
    cases ob with
    | none => exact Or.inl ⟨_, rfl⟩
    | some b => exact Or.inr ⟨_, _, rfl⟩

theorem splitChars_no_sep (sep : Char) (a : List Char) (ha : sep ∉ a) :
    splitChars sep a = [a] := by
  induction a with
  | nil => rfl
  | cons x xs ih =>
    have hx : x ≠ sep := fun h => ha (by simp [h])
    have hxs : sep ∉ xs := fun h => ha (by simp [h])
    simp [splitChars, hx, ih hxs]

theorem splitChars_append (sep : Char) (a rest : List Char) (ha : sep ∉ a) :
    splitChars sep (a ++ sep :: rest) = a :: splitChars sep rest := by
  induction a with
  | nil => simp [splitChars]
  | cons x xs ih =>
    have hx : x ≠ sep := fun h => ha (by simp [h])
    have hxs : sep ∉ xs := fun h => ha (by simp [h])
    simp [splitChars, hx, ih hxs]

theorem Split_three (a b c : String) (ha : '.' ∉ a.data) (hb : '.' ∉ b.data)
    (hc : '.' ∉ c.data) : Split (a ++ "." ++ b ++ "." ++ c) '.' = [a, b, c] := by
  have h : (a ++ "." ++ b ++ "." ++ c).data = a.data ++ '.' :: (b.data ++ '.' :: c.data) := by
    simp [String.data_append]
  simp only [Split, h, splitChars_append '.' _ _ ha, splitChars_append '.' _ _ hb,
    splitChars_no_sep '.' _ hc]
  rfl

/-! ### The token parser -/

theorem ParseWithClaims_valid (L : Lib) (now : Time) (tokenString : String)
    (keyFunc : jwt.Token → Except String Bytes) (token : jwt.Token)
    (h : jwt.ParseWithClaims L now tokenString keyFunc = .ok token) : token.Valid = true := by
  unfold jwt.ParseWithClaims at h
  split at h
  · simp at h
  · split at h
    · simp at h
    · split at h
      · simp at h
      · split at h
        · split at h
          · simp at h
          · simp only [Except.ok.injEq] at h
            rw [← h]
        · simp at h

theorem JWTAuth_conforming (L : Lib) (secret : Bytes) (now : Time) (next : Context → Context)
    (c : Context) (t : String) (h : c.GetHeader "Authorization" = "Bearer " ++ t) :
    middleware.JWTAuth L secret now next c =
      match jwt.ParseWithClaims L now t (middleware.keyFunc secret) with
      | .error _ =>
        { c with Written := c.Written ++ [(401, ⟨401, "无效的令牌", none⟩)],
                 index := abortIndex, Log := c.Log ++ [Event.parse t] }
      | .ok token =>
        next { c with
          Keys := ("user_type", Value.str token.Claims.UserType) ::
            (("user_id", Value.uint token.Claims.UserID) ::
              c.Keys.filter (fun kv => kv.1 ≠ "user_id")).filter (fun kv => kv.1 ≠ "user_type"),
          Log := c.Log ++ [Event.parse t] } := by
  have hne : ¬ ("Bearer " ++ t = "") := by
    intro h0
    have := congrArg String.data h0
    simp [String.data_append] at this
  unfold middleware.JWTAuth
  simp only [h, hne, if_false, SplitN2_bearer, if_true]
  cases hp : jwt.ParseWithClaims L now t (middleware.keyFunc secret) with
  | error e => rfl
  | ok token =>
    have hv := ParseWithClaims_valid L now t _ token hp
    simp [hv, Context.Set, Context.record]

theorem JWTAuth_nonconforming (L : Lib) (secret : Bytes) (now : Time)
    (next : Context → Context) (c : Context) (h0 : c.GetHeader "Authorization" ≠ "")
    (h : ∀ t, c.GetHeader "Authorization" ≠ "Bearer " ++ t) :
    middleware.JWTAuth L secret now next c =
      { c with Written := c.Written ++ [(401, ⟨401, "认证格式错误", none⟩)],
               index := abortIndex } := by
  unfold middleware.JWTAuth
  simp only [h0, if_false]
  rcases SplitN2_length (c.GetHeader "Authorization") with ⟨p0, hs⟩ | ⟨p0, p1, hs⟩
  · rw [hs]; rfl
  · rw [hs]
    by_cases hb : p0 = "Bearer"
    · exfalso
      have := SplitN2_two _ _ _ hs
      rw [hb] at this
      exact h p1 this
    · simp only [hb, if_false]; rfl

theorem JWTAuth_missing (L : Lib) (secret : Bytes) (now : Time)
    (next : Context → Context) (c : Context) (h0 : c.GetHeader "Authorization" = "") :
    middleware.JWTAuth L secret now next c =
      { c with Written := c.Written ++ [(401, ⟨401, "未提供认证信息", none⟩)],
               index := abortIndex } := by
  unfold middleware.JWTAuth
  simp only [h0, if_true]
  rfl

/-- C7. For every value of the `Authorization` header, `JWTAuth` hands a token to
the parser only when the value is `Bearer`, one space, and the token. A missing or
empty header is answered with 401, every other value that is not of that form
is answered with 401, and in both cases the event log is the one of the incoming
context: the parser was not called. For a value of that form the parser is
called on the text after the space, which the log records. -/
theorem JWTAuth_requires_bearer_form (L : Lib) (secret : Bytes) (now : Time)
    (next : Context → Context) (c : Context) :
    (c.GetHeader "Authorization" = "" →
      middleware.JWTAuth L secret now next c =
        { c with Written := c.Written ++ [(401, ⟨401, "未提供认证信息", none⟩)],
                 index := abortIndex, Log := c.Log }) ∧
    (c.GetHeader "Authorization" ≠ "" →
      (∀ t, c.GetHeader "Authorization" ≠ "Bearer " ++ t) →
      middleware.JWTAuth L secret now next c =
        { c with Written := c.Written ++ [(401, ⟨401, "认证格式错误", none⟩)],
                 index := abortIndex, Log := c.Log }) ∧
    (∀ t, c.GetHeader "Authorization" = "Bearer " ++ t →
      middleware.JWTAuth L secret now next c =
        match jwt.ParseWithClaims L now t (middleware.keyFunc secret) with
        | .error _ =>
          { c with Written := c.Written ++ [(401, ⟨401, "无效的令牌", none⟩)],
                   index := abortIndex, Log := c.Log ++ [Event.parse t] }
        | .ok token =>
          next { c with
            Keys := ("user_type", Value.str token.Claims.UserType) ::
              (("user_id", Value.uint token.Claims.UserID) ::
                c.Keys.filter (fun kv => kv.1 ≠ "user_id")).filter
                  (fun kv => kv.1 ≠ "user_type"),
            Log := c.Log ++ [Event.parse t] }) :=
  ⟨fun h0 => JWTAuth_missing L secret now next c h0,
   fun h0 h => JWTAuth_nonconforming L secret now next c h0 h,
   fun t h => JWTAuth_conforming L secret now next c t h⟩

/-! ### The role guard -/

theorem allowedLoop_eq (r : String) (allowed : List String) :
    middleware.allowedLoop r allowed = decide (r ∈ allowed) := by
  induction allowed with
  | nil => simp [middleware.allowedLoop]
  | cons t ts ih =>
    by_cases h : r = t
    · simp [middleware.allowedLoop, h]
    · simp [middleware.allowedLoop, h, ih]

/-- C9. For every allow-list and every context whose `user_type` is the role `r`:
when `r` is in the list, `RequireUserType` calls the next handler on the
unchanged context and writes nothing itself; when `r` is not in the list (always
so for the empty list) it writes the 403 envelope, aborts the chain and does not
call the next handler. With a next handler that does nothing, the 403 envelope
is written if and only if `r` is not in the list. -/
theorem RequireUserType_allow_list (allowed : List String) (r : String)
    (next : Context → Context) (c : Context)
    (hrole : c.Get "user_type" = some (Value.str r)) :
    (r ∈ allowed → middleware.RequireUserType allowed next c = next c) ∧
    (r ∉ allowed →
      middleware.RequireUserType allowed next c =
        { c with Written := c.Written ++ [(403, ⟨403, "权限不足", none⟩)],
                 index := abortIndex }) ∧
    (middleware.RequireUserType [] next c =
        { c with Written := c.Written ++ [(403, ⟨403, "权限不足", none⟩)],
                 index := abortIndex }) ∧
    ((middleware.RequireUserType allowed (fun x => x) c).Written =
        c.Written ++ [(403, ⟨403, "权限不足", none⟩)] ↔ r ∉ allowed) := by
  have hin : ∀ (l : List String) (nx : Context → Context), r ∈ l →
      middleware.RequireUserType l nx c = nx c := by
    intro l nx h
    simp [middleware.RequireUserType, hrole, allowedLoop_eq, h]
  have hout : ∀ (l : List String) (nx : Context → Context), r ∉ l →
      middleware.RequireUserType l nx c =
        { c with Written := c.Written ++ [(403, ⟨403, "权限不足", none⟩)],
                 index := abortIndex } := by
    intro l nx h
    simp [middleware.RequireUserType, hrole, allowedLoop_eq, h]
    rfl
  refine ⟨hin allowed next, hout allowed next, hout [] next (by simp), ?_⟩
  constructor
  · intro hw hmem
    rw [hin allowed _ hmem] at hw
    have := congrArg List.length hw
    simp at this
  · intro h
    rw [hout allowed _ h]

theorem RequireUserType_allow_list_witness :
    (middleware.RequireUserType ["admin"] (fun x => x)
        ((Toy.context "").Set "user_type" (Value.str "admin")) =
      (Toy.context "").Set "user_type" (Value.str "admin")) ∧
    (middleware.RequireUserType ["admin"] (fun x => x)
        ((Toy.context "").Set "user_type" (Value.str "staff"))).Written =
      [(403, ⟨403, "权限不足", none⟩)] := by
  have h1 := RequireUserType_allow_list ["admin"] "admin" (fun x => x)
    ((Toy.context "").Set "user_type" (Value.str "admin")) rfl
  have h2 := RequireUserType_allow_list ["admin"] "staff" (fun x => x)
    ((Toy.context "").Set "user_type" (Value.str "staff")) rfl
  refine ⟨h1.1 (by simp), ?_⟩
  rw [h2.2.1 (by decide)]
  rfl

/-! ### The claims of a new token -/

theorem newClaims_dates (t1 t2 t3 : Time) (u : Nat) (r : String) :
    (middleware.newClaims t1 t2 t3 u r).RegisteredClaims =
      { ExpiresAt := some (t1 / second + 86400), NotBefore := some (t3 / second),
        IssuedAt := some (t2 / second) } := by
  simp only [middleware.newClaims, jwt.NewNumericDate, day, second]
  congr 2
  omega

theorem seconds_monotone (t1 t2 t3 : Int) (h12 : t1 ≤ t2) (h23 : t2 ≤ t3) :
    t1 / second + 86400 ≤ t2 / second + 86400 ∧ t2 / second ≤ t3 / second ∧
    (t1 / second = t3 / second →
      t1 / second + 86400 = t2 / second + 86400 ∧ t3 / second = t2 / second) := by
  simp only [second]
  refine ⟨by omega, by omega, fun h => ⟨by omega, by omega⟩⟩

/-- C10, the code at the failing input. The clock is read once per claim. With the
first reading one nanosecond before a full second and the other two on it, the
token `GenerateToken` signs expires 86399 seconds after `issued_at`, not 86400. -/
theorem GenerateToken_expiry_not_exact :
    (middleware.newClaims 999999999 1000000000 1000000000 1 "user").RegisteredClaims.ExpiresAt
        = some 86400 ∧
    (middleware.newClaims 999999999 1000000000 1000000000 1 "user").RegisteredClaims.IssuedAt
        = some 1 ∧
    (86400 : Int) ≠ 1 + 86400 ∧
    ∀ (L : Lib) (secret : Bytes),
      middleware.GenerateToken L secret 999999999 1000000000 1000000000 1 "user" =
        (jwt.NewWithClaims jwt.SigningMethodHS256
          (middleware.newClaims 999999999 1000000000 1000000000 1 "user")).SignedString
            L secret := by
  refine ⟨by decide, by decide, by decide, fun _ _ => rfl⟩

/-- The dates of a new token in general. The token `GenerateToken` signs carries
the claims `newClaims`. With clock readings that do not go backwards,
`expires_at` is at most 86400 seconds after `issued_at` and `not_before` is not
before `issued_at`; when the three readings fall into the same second,
`expires_at` is exactly 86400 seconds after `issued_at` and `not_before` equals
`issued_at`. -/
theorem GenerateToken_claim_dates (L : Lib) (secret : Bytes) (t1 t2 t3 : Time) (u : Nat)
    (r : String) (h12 : t1 ≤ t2) (h23 : t2 ≤ t3) :
    middleware.GenerateToken L secret t1 t2 t3 u r =
      (jwt.NewWithClaims jwt.SigningMethodHS256
        (middleware.newClaims t1 t2 t3 u r)).SignedString L secret ∧
    ∃ exp iat nbf : Int,
      (middleware.newClaims t1 t2 t3 u r).RegisteredClaims =
        { ExpiresAt := some exp, NotBefore := some nbf, IssuedAt := some iat } ∧
      exp ≤ iat + 86400 ∧ iat ≤ nbf ∧
      (t1 / second = t3 / second → exp = iat + 86400 ∧ nbf = iat) := by
  refine ⟨rfl, t1 / second + 86400, t2 / second, t3 / second, newClaims_dates t1 t2 t3 u r, ?_⟩
  exact seconds_monotone t1 t2 t3 h12 h23

theorem GenerateToken_claim_dates_witness :
    ∃ exp iat nbf : Int,
      (middleware.newClaims 5000000000 5000000001 5000000002 7 "admin").RegisteredClaims =
        { ExpiresAt := some exp, NotBefore := some nbf, IssuedAt := some iat } ∧
      exp ≤ iat + 86400 ∧ iat ≤ nbf ∧
      ((5000000000 : Int) / second = 5000000002 / second → exp = iat + 86400 ∧ nbf = iat) :=
  (GenerateToken_claim_dates Toy.lib Toy.secret 5000000000 5000000001 5000000002 7 "admin"
    (by decide) (by decide)).2

/-! ### Tokens made by `GenerateToken` -/

theorem GenerateToken_ok (L : Lib) (secret : Bytes) (t1 t2 t3 : Time) (u : Nat) (r : String) :
    middleware.GenerateToken L secret t1 t2 t3 u r =
      .ok (L.EncodeSegment (L.marshalHeader "HS256") ++ "." ++
            L.EncodeSegment (L.marshalClaims (middleware.newClaims t1 t2 t3 u r)) ++ "." ++
            L.EncodeSegment (L.hmac Hash.SHA256 secret
              (L.EncodeSegment (L.marshalHeader "HS256") ++ "." ++
                L.EncodeSegment (L.marshalClaims (middleware.newClaims t1 t2 t3 u r))))) := rfl

theorem ParseUnverified_encoded (L : Lib) (hL : L.Lawful) (alg : String)
    (m : jwt.SigningMethod) (cl : Claims) (s3 : String) (hm : jwt.GetSigningMethod alg = some m)
    (h3 : '.' ∉ s3.data) (hcl : cl.Representable = true) :
    jwt.ParseUnverified L
        (L.EncodeSegment (L.marshalHeader alg) ++ "." ++ L.EncodeSegment (L.marshalClaims cl)
          ++ "." ++ s3) =
      .ok ({ Raw := L.EncodeSegment (L.marshalHeader alg) ++ "." ++
                      L.EncodeSegment (L.marshalClaims cl) ++ "." ++ s3,
             Method := m, Header := alg, Claims := cl, Signature := [], Valid := false },
           L.EncodeSegment (L.marshalHeader alg), L.EncodeSegment (L.marshalClaims cl), s3) := by
  unfold jwt.ParseUnverified
  rw [Split_three _ _ _ (hL.encode_no_dot _) (hL.encode_no_dot _) h3]
  simp only [hL.decode_encode, hL.header_roundtrip, hL.claims_roundtrip cl hcl, hm]

theorem ParseWithClaims_signed (L : Lib) (hL : L.Lawful) (secret : Bytes) (now : Time)
    (cl : Claims) (sig : Bytes) (hcl : cl.Representable = true) :
    jwt.ParseWithClaims L now
        (L.EncodeSegment (L.marshalHeader "HS256") ++ "." ++ L.EncodeSegment (L.marshalClaims cl)
          ++ "." ++ L.EncodeSegment sig) (middleware.keyFunc secret) =
      if sig = L.hmac Hash.SHA256 secret (L.EncodeSegment (L.marshalHeader "HS256") ++ "." ++
          L.EncodeSegment (L.marshalClaims cl)) then
        match jwt.Validate now cl with
        | .error e => .error e
        | .ok _ =>
          .ok { Raw := L.EncodeSegment (L.marshalHeader "HS256") ++ "." ++
                         L.EncodeSegment (L.marshalClaims cl) ++ "." ++ L.EncodeSegment sig,
                Method := jwt.SigningMethod.HMAC Hash.SHA256, Header := "HS256", Claims := cl,
                Signature := sig, Valid := true }
      else .error jwt.Error.TokenSignatureInvalid := by
  unfold jwt.ParseWithClaims
  rw [ParseUnverified_encoded L hL "HS256" (jwt.SigningMethod.HMAC Hash.SHA256) cl _
    (by decide) (hL.encode_no_dot _) hcl]
  simp only [hL.decode_encode, middleware.keyFunc, jwt.SigningMethod.isHMAC,
    jwt.SigningMethod.Verify]
  by_cases hs : sig = L.hmac Hash.SHA256 secret (L.EncodeSegment (L.marshalHeader "HS256") ++ "."
      ++ L.EncodeSegment (L.marshalClaims cl))
  · simp only [Bool.not_true, Bool.false_eq_true, if_false, hs, decide_True, if_true]
  · simp [hs]

theorem seconds_floor (t now : Int) (h : t ≤ now) : ¬ now < t / second * second := by
  simp only [second]
  omega

theorem Validate_fresh (t1 t2 t3 now : Time) (u : Nat) (r : String) (hnbf : t3 ≤ now)
    (hexp : now < jwt.NewNumericDate (t1 + day) * second) :
    jwt.Validate now (middleware.newClaims t1 t2 t3 u r) = .ok () := by
  have h2 : ¬ now < jwt.NewNumericDate t3 * second := seconds_floor t3 now hnbf
  simp [jwt.Validate, middleware.newClaims, hexp, h2]

theorem Validate_expired (t1 t2 t3 now : Time) (u : Nat) (r : String)
    (hexp : jwt.NewNumericDate (t1 + day) * second ≤ now) :
    ∃ e, jwt.Validate now (middleware.newClaims t1 t2 t3 u r) = .error e := by
  have h1 : ¬ now < jwt.NewNumericDate (t1 + day) * second := not_lt.mpr hexp
  simp [jwt.Validate, middleware.newClaims, h1]

theorem seconds_range (t : Int) (h0 : 0 ≤ t) (h1 : t ≤ 2 ^ 62) :
    (-(2 ^ 53) ≤ t / second ∧ t / second ≤ 2 ^ 53) ∧
    (-(2 ^ 53) ≤ (t + day) / second ∧ (t + day) / second ≤ 2 ^ 53) := by
  simp only [second, day]
  norm_num at h1 ⊢
  omega

theorem newClaims_representable (t1 t2 t3 : Time) (u : Nat) (r : String) (hu : u < 2 ^ 64)
    (h1 : validClock t1) (h2 : validClock t2) (h3 : validClock t3) :
    (middleware.newClaims t1 t2 t3 u r).Representable = true := by
  have a1 := (seconds_range t1 h1.1 h1.2).2
  have a2 := (seconds_range t2 h2.1 h2.2).1
  have a3 := (seconds_range t3 h3.1 h3.2).1
  simp only [Claims.Representable, middleware.newClaims, dateRepresentable, jwt.NewNumericDate,
    Bool.and_eq_true, decide_eq_true_eq]
  exact ⟨⟨⟨hu, a1⟩, a3⟩, a2⟩

/-- C1. For every user id and role, the token `GenerateToken` returns, sent as
`Bearer` token and checked by `JWTAuth` with the same secret, not before it was
issued and before it expires, is accepted: `JWTAuth` calls the next handler with
`user_id` and `user_type` set to the id and the role, and writes no response. -/
theorem GenerateToken_JWTAuth_round_trip (L : Lib) (hL : L.Lawful) (secret : Bytes)
    (t1 t2 t3 now : Time) (u : Nat) (r : String) (hu : u < 2 ^ 64)
    (h1 : validClock t1) (h2 : validClock t2) (h3 : validClock t3) (hnbf : t3 ≤ now)
    (hexp : now < jwt.NewNumericDate (t1 + day) * second) :
    ∃ tok, middleware.GenerateToken L secret t1 t2 t3 u r = .ok tok ∧
      ∀ (next : Context → Context) (c : Context),
        c.GetHeader "Authorization" = "Bearer " ++ tok →
        ∃ c1, middleware.JWTAuth L secret now next c = next c1 ∧
          c1.Get "user_id" = some (Value.uint u) ∧
          c1.Get "user_type" = some (Value.str r) ∧
          c1.Written = c.Written ∧ c1.index = c.index ∧ c1.Panicked = c.Panicked := by
  refine ⟨_, GenerateToken_ok L secret t1 t2 t3 u r, ?_⟩
  intro next c hc
  rw [JWTAuth_conforming L secret now next c _ hc,
    ParseWithClaims_signed L hL secret now _ _ (newClaims_representable t1 t2 t3 u r hu h1 h2 h3),
    if_pos rfl, Validate_fresh t1 t2 t3 now u r hnbf hexp]
  refine ⟨_, rfl, ?_, ?_, rfl, rfl, rfl⟩
  · simp [Context.Get, List.lookup, middleware.newClaims]
  · simp [Context.Get, List.lookup, middleware.newClaims]

/-- C6, the code at the failing input. A token of `GenerateToken` that is checked at
or after its `expires_at` is answered with the message of the invalid-token
error: the parser reports expiry as an error, so the branch with the message for
an expired token is never reached. -/
theorem JWTAuth_expired_token_message (L : Lib) (hL : L.Lawful) (secret : Bytes)
    (t1 t2 t3 now : Time) (u : Nat) (r : String) (hu : u < 2 ^ 64)
    (h1 : validClock t1) (h2 : validClock t2) (h3 : validClock t3)
    (hexp : jwt.NewNumericDate (t1 + day) * second ≤ now) :
    ∃ tok, middleware.GenerateToken L secret t1 t2 t3 u r = .ok tok ∧
      ∀ (next : Context → Context) (c : Context),
        c.GetHeader "Authorization" = "Bearer " ++ tok →
        middleware.JWTAuth L secret now next c =
          { c with Written := c.Written ++ [(401, ⟨401, "无效的令牌", none⟩)],
                   index := abortIndex, Log := c.Log ++ [Event.parse tok] } := by
  refine ⟨_, GenerateToken_ok L secret t1 t2 t3 u r, ?_⟩
  intro next c hc
  obtain ⟨e, he⟩ := Validate_expired t1 t2 t3 now u r hexp
  rw [JWTAuth_conforming L secret now next c _ hc,
    ParseWithClaims_signed L hL secret now _ _ (newClaims_representable t1 t2 t3 u r hu h1 h2 h3),
    if_pos rfl, he]

/-- No answer of `JWTAuth` carries the message for an expired token: it either
calls the next handler or answers 401 with one of three other messages. -/
theorem JWTAuth_messages (L : Lib) (secret : Bytes) (now : Time) (next : Context → Context)
    (c : Context) :
    (∃ c1, middleware.JWTAuth L secret now next c = next c1) ∨
    ∃ (c1 : Context) (msg : String), msg ∈ ["未提供认证信息", "认证格式错误", "无效的令牌"] ∧
      middleware.JWTAuth L secret now next c =
        { c1 with Written := c1.Written ++ [(401, ⟨401, msg, none⟩)], index := abortIndex } := by
  by_cases h0 : c.GetHeader "Authorization" = ""
  · exact Or.inr ⟨c, "未提供认证信息", by simp, JWTAuth_missing L secret now next c h0⟩
  · by_cases h1 : ∃ t, c.GetHeader "Authorization" = "Bearer " ++ t
    · obtain ⟨t, ht⟩ := h1
      rw [JWTAuth_conforming L secret now next c t ht]
      cases jwt.ParseWithClaims L now t (middleware.keyFunc secret) with
      | error e =>
        exact Or.inr ⟨{ c with Log := c.Log ++ [Event.parse t] }, "无效的令牌", by simp, rfl⟩
      | ok token => exact Or.inl ⟨_, rfl⟩
    · exact Or.inr ⟨c, "认证格式错误", by simp,
        JWTAuth_nonconforming L secret now next c h0 (fun t ht => h1 ⟨t, ht⟩)⟩

/-- C8. For every token whose signing method is not of the HMAC family, whatever
its claims and signature, the key function returns an error instead of the
secret, and `JWTAuth` answers with the 401 envelope and aborts. The method `none`
is one of them. -/
theorem JWTAuth_rejects_non_HMAC (L : Lib) (secret : Bytes) (now : Time)
    (next : Context → Context) (c : Context) (tok : String) (token : jwt.Token)
    (p0 p1 p2 : String) (hc : c.GetHeader "Authorization" = "Bearer " ++ tok)
    (hparse : jwt.ParseUnverified L tok = .ok (token, p0, p1, p2))
    (hm : token.Method.isHMAC = false) :
    middleware.keyFunc secret token = .error "无效的签名方法" ∧
    middleware.JWTAuth L secret now next c =
      { c with Written := c.Written ++ [(401, ⟨401, "无效的令牌", none⟩)],
               index := abortIndex, Log := c.Log ++ [Event.parse tok] } ∧
    jwt.SigningMethod.none.isHMAC = false := by
  have hk : middleware.keyFunc secret token = .error "无效的签名方法" := by
    simp [middleware.keyFunc, hm]
  refine ⟨hk, ?_, rfl⟩
  rw [JWTAuth_conforming L secret now next c tok hc]
  have : ∃ e, jwt.ParseWithClaims L now tok (middleware.keyFunc secret) = .error e := by
    unfold jwt.ParseWithClaims
    rw [hparse]
    simp only [hk]
    cases L.DecodeSegment p2 with
    | none => exact ⟨_, rfl⟩
    | some sig => exact ⟨_, rfl⟩
  obtain ⟨e, he⟩ := this
  rw [he]

/-! ### Rejection stops the chain -/

theorem runLoop_stop (len : Int) (rest : List Handler) (c : Context) (h : ¬ c.index < len) :
    runLoop len rest c = c := by
  cases rest with
  | nil => rfl
  | cons x xs =>
    unfold runLoop
    by_cases hp : c.Panicked = true
    · simp [hp]
    · simp [hp, h]

theorem JWTAuth_reject_shape (L : Lib) (secret : Bytes) (now : Time) (next : Context → Context)
    (c : Context)
    (hrej : c.GetHeader "Authorization" = "" ∨
      (∀ t, c.GetHeader "Authorization" ≠ "Bearer " ++ t) ∨
      ∃ t e, c.GetHeader "Authorization" = "Bearer " ++ t ∧
        jwt.ParseWithClaims L now t (middleware.keyFunc secret) = .error e) :
    ∃ (msg : String) (events : List Event),
      middleware.JWTAuth L secret now next c =
        { c with Written := c.Written ++ [(401, ⟨401, msg, none⟩)], index := abortIndex,
                 Log := c.Log ++ events } ∧
      (events = [] ∨ ∃ tok, events = [Event.parse tok]) := by
  by_cases h0 : c.GetHeader "Authorization" = ""
  · refine ⟨"未提供认证信息", [], ?_, Or.inl rfl⟩
    rw [JWTAuth_missing L secret now next c h0]
    simp
  · rcases hrej with h | h | ⟨t, e, ht, he⟩
    · exact absurd h h0
    · refine ⟨"认证格式错误", [], ?_, Or.inl rfl⟩
      rw [JWTAuth_nonconforming L secret now next c h0 h]
      simp
    · refine ⟨"无效的令牌", [Event.parse t], ?_, Or.inr ⟨t, rfl⟩⟩
      rw [JWTAuth_conforming L secret now next c t ht, he]

theorem runLoop_cons (len : Int) (h : Handler) (rest : List Handler) (c : Context) :
    runLoop len (h :: rest) c =
      if c.Panicked then c
      else if c.index < len then
        if (h.fn (fun c2 => runLoop len rest { c2 with index := c2.index + 1 })
            (c.record (Event.handler h.name))).Panicked then
          h.fn (fun c2 => runLoop len rest { c2 with index := c2.index + 1 })
            (c.record (Event.handler h.name))
        else
          runLoop len rest
            { h.fn (fun c2 => runLoop len rest { c2 with index := c2.index + 1 })
                (c.record (Event.handler h.name)) with
              index := (h.fn (fun c2 => runLoop len rest { c2 with index := c2.index + 1 })
                (c.record (Event.handler h.name))).index + 1 }
      else c := by
  rw [runLoop]

theorem serve_first_aborts (h : Handler) (rest : List Handler) (req : Request) (out : Context)
    (hlen : ((rest.length + 1 : Nat) : Int) < abortIndex)
    (hout : h.fn
        (fun c2 => runLoop ((rest.length + 1 : Nat) : Int) rest { c2 with index := c2.index + 1 })
        { Header := req.Header, Body := req.Body, Keys := [], Written := [], index := 0,
          Panicked := false, Log := [Event.handler h.name] } = out)
    (hp : out.Panicked = false) (hi : out.index = abortIndex) :
    serve (h :: rest) req = { out with index := abortIndex + 1 } := by
  have e0 : ((-1 : Int) + 1) = 0 := by norm_num
  have hpos : ((0 : Int) < ((rest.length + 1 : Nat) : Int)) := by omega
  have hstop : ¬ (abortIndex + 1 < ((rest.length + 1 : Nat) : Int)) := by
    simp only [abortIndex] at hlen ⊢
    omega
  unfold serve Context.Next
  rw [runLoop_cons]
  simp only [Context.reset, Context.record, List.length_cons, List.nil_append, e0,
    Bool.false_eq_true, if_false, hpos, if_true, hout, hp, hi]
  rw [runLoop_stop _ _ _ hstop]

/-- C2. For every request that `JWTAuth` rejects (no `Authorization` header, a
value that is not `Bearer` and a token, or a token the parser returns an error
for, such as a failed signature check), served by a chain that starts with
`JWTAuth`: the only response is the 401 envelope, the chain is aborted, the one
handler that started is `JWTAuth`, and neither `user_id` nor `user_type` is in the
context. -/
theorem JWTAuth_rejection_aborts_chain (L : Lib) (secret : Bytes) (now : Time)
    (req : Request) (rest : List Handler)
    (hlen : ((rest.length + 1 : Nat) : Int) < abortIndex)
    (hrej : (Context.reset req).GetHeader "Authorization" = "" ∨
      (∀ t, (Context.reset req).GetHeader "Authorization" ≠ "Bearer " ++ t) ∨
      ∃ t e, (Context.reset req).GetHeader "Authorization" = "Bearer " ++ t ∧
        jwt.ParseWithClaims L now t (middleware.keyFunc secret) = .error e) :
    ∃ msg : String,
      (serve (middleware.JWTAuthHandler L secret now :: rest) req).Written =
        [(401, ⟨401, msg, none⟩)] ∧
      (serve (middleware.JWTAuthHandler L secret now :: rest) req).IsAborted = true ∧
      (serve (middleware.JWTAuthHandler L secret now :: rest) req).Get "user_id" = none ∧
      (serve (middleware.JWTAuthHandler L secret now :: rest) req).Get "user_type" = none ∧
      ((serve (middleware.JWTAuthHandler L secret now :: rest) req).Log =
          [Event.handler "middleware.JWTAuth"] ∨
        ∃ tok, (serve (middleware.JWTAuthHandler L secret now :: rest) req).Log =
          [Event.handler "middleware.JWTAuth", Event.parse tok]) := by
  obtain ⟨msg, events, hj, hev⟩ := JWTAuth_reject_shape L secret now
    (fun c2 => runLoop ((rest.length + 1 : Nat) : Int) rest { c2 with index := c2.index + 1 })
    { Header := req.Header, Body := req.Body, Keys := [], Written := [], index := 0,
      Panicked := false, Log := [Event.handler "middleware.JWTAuth"] } hrej
  have hs := serve_first_aborts (middleware.JWTAuthHandler L secret now) rest req _ hlen hj
    rfl rfl
  refine ⟨msg, ?_⟩
  rw [hs]
  refine ⟨rfl, by simp [Context.IsAborted, abortIndex], rfl, rfl, ?_⟩
  rcases hev with rfl | ⟨tok, rfl⟩
  · exact Or.inl rfl
  · exact Or.inr ⟨tok, rfl⟩

/-- A token signed with another key, when the MAC of the two keys differ on its
signing string, is returned by the parser with a signature error. -/
theorem ParseWithClaims_other_key (L : Lib) (hL : L.Lawful) (secret other : Bytes)
    (t1 t2 t3 now : Time) (u : Nat) (r : String) (hu : u < 2 ^ 64)
    (h1 : validClock t1) (h2 : validClock t2) (h3 : validClock t3)
    (hne : L.hmac Hash.SHA256 other (L.EncodeSegment (L.marshalHeader "HS256") ++ "." ++
        L.EncodeSegment (L.marshalClaims (middleware.newClaims t1 t2 t3 u r))) ≠
      L.hmac Hash.SHA256 secret (L.EncodeSegment (L.marshalHeader "HS256") ++ "." ++
        L.EncodeSegment (L.marshalClaims (middleware.newClaims t1 t2 t3 u r)))) :
    ∃ tok, middleware.GenerateToken L other t1 t2 t3 u r = .ok tok ∧
      jwt.ParseWithClaims L now tok (middleware.keyFunc secret) =
        .error jwt.Error.TokenSignatureInvalid := by
  refine ⟨_, GenerateToken_ok L other t1 t2 t3 u r, ?_⟩
  rw [ParseWithClaims_signed L hL secret now _ _
    (newClaims_representable t1 t2 t3 u r hu h1 h2 h3), if_neg hne]

/-! ### The concrete instance -/

theorem Toy.uncodes_codes (s : String) : Toy.uncodes (Toy.codes s) = s := by
  unfold Toy.uncodes Toy.codes
  rw [List.map_map]
  have : (Char.ofNat ∘ Char.toNat) = id := by
    funext ch
    simp [Char.ofNat_toNat]
  rw [this, List.map_id]

theorem Toy.tuple_roundtrip (cl : Claims) : Toy.tupleClaims (Toy.claimsTuple cl) = cl := by
  simp [Toy.tupleClaims, Toy.claimsTuple, Toy.uncodes_codes]

theorem Toy.lawful : Toy.lib.Lawful where
  decode_encode := by
    intro b
    simp [Toy.lib]
  encode_no_dot := by
    intro b h
    simp only [Toy.lib] at h
    have := List.eq_of_mem_replicate h
    exact absurd this (by decide)
  header_roundtrip := by
    intro alg
    simp only [Toy.lib, Toy.run, List.length_replicate, Encodable.encodek, Option.map_some',
      Toy.uncodes_codes]
  claims_roundtrip := by
    intro cl _
    simp only [Toy.lib, Toy.run, List.length_replicate, Encodable.encodek, Option.map_some',
      Toy.tuple_roundtrip]

theorem Toy.context_header (s : String) : (Toy.context s).GetHeader "Authorization" = s := by
  simp [Toy.context, Toy.request, Context.reset, Context.GetHeader, List.lookup]

theorem JWTAuth_requires_bearer_form_witness :
    middleware.JWTAuth Toy.lib Toy.secret 0 (fun x => x) (Toy.context "bearer abc") =
      { Toy.context "bearer abc" with
        Written := [(401, ⟨401, "认证格式错误", none⟩)], index := abortIndex, Log := [] } ∧
    middleware.JWTAuth Toy.lib Toy.secret 0 (fun x => x) (Toy.context "") =
      { Toy.context "" with
        Written := [(401, ⟨401, "未提供认证信息", none⟩)], index := abortIndex, Log := [] } := by
  have h := JWTAuth_requires_bearer_form Toy.lib Toy.secret 0 (fun x => x)
    (Toy.context "bearer abc")
  have h0 := JWTAuth_requires_bearer_form Toy.lib Toy.secret 0 (fun x => x) (Toy.context "")
  refine ⟨?_, ?_⟩
  · rw [h.2.1 (by rw [Toy.context_header]; decide) (by
      intro t ht
      rw [Toy.context_header] at ht
      have := congrArg String.data ht
      simp [String.data_append] at this)]
    rfl
  · rw [h0.1 (Toy.context_header "")]
    rfl

theorem GenerateToken_JWTAuth_round_trip_witness :
    ∃ tok, middleware.GenerateToken Toy.lib Toy.secret 0 0 0 7 "admin" = .ok tok ∧
      ∃ c1, middleware.JWTAuth Toy.lib Toy.secret 5 (fun x => x)
            (Toy.context ("Bearer " ++ tok)) = c1 ∧
        c1.Get "user_id" = some (Value.uint 7) ∧
        c1.Get "user_type" = some (Value.str "admin") ∧
        c1.Written = [] := by
  obtain ⟨tok, hg, h⟩ := GenerateToken_JWTAuth_round_trip Toy.lib Toy.lawful Toy.secret 0 0 0 5 7
    "admin" (by decide) (by decide) (by decide) (by decide) (by decide) (by decide)
  obtain ⟨c1, h1, h2, h3, h4, -⟩ := h (fun x => x) (Toy.context ("Bearer " ++ tok))
    (Toy.context_header _)
  exact ⟨tok, hg, c1, h1, h2, h3, h4⟩

theorem JWTAuth_expired_token_message_witness :
    ∃ tok, middleware.GenerateToken Toy.lib Toy.secret 0 0 0 7 "admin" = .ok tok ∧
      (middleware.JWTAuth Toy.lib Toy.secret (day + 5 * second) (fun x => x)
        (Toy.context ("Bearer " ++ tok))).Written = [(401, ⟨401, "无效的令牌", none⟩)] := by
  obtain ⟨tok, hg, h⟩ := JWTAuth_expired_token_message Toy.lib Toy.lawful Toy.secret 0 0 0
    (day + 5 * second) 7 "admin" (by decide) (by decide) (by decide) (by decide) (by decide)
  refine ⟨tok, hg, ?_⟩
  rw [h (fun x => x) (Toy.context ("Bearer " ++ tok)) (Toy.context_header _)]
  rfl

theorem JWTAuth_rejection_aborts_chain_witness :
    ∃ msg : String,
      (serve (middleware.JWTAuthHandler Toy.lib Toy.secret 0 :: [Toy.okHandler])
        (Toy.request "Basic abc")).Written = [(401, ⟨401, msg, none⟩)] ∧
      (serve (middleware.JWTAuthHandler Toy.lib Toy.secret 0 :: [Toy.okHandler])
        (Toy.request "Basic abc")).IsAborted = true ∧
      (serve (middleware.JWTAuthHandler Toy.lib Toy.secret 0 :: [Toy.okHandler])
        (Toy.request "Basic abc")).Get "user_id" = none ∧
      (serve (middleware.JWTAuthHandler Toy.lib Toy.secret 0 :: [Toy.okHandler])
        (Toy.request "Basic abc")).Get "user_type" = none ∧
      ((serve (middleware.JWTAuthHandler Toy.lib Toy.secret 0 :: [Toy.okHandler])
          (Toy.request "Basic abc")).Log = [Event.handler "middleware.JWTAuth"] ∨
        ∃ tok, (serve (middleware.JWTAuthHandler Toy.lib Toy.secret 0 :: [Toy.okHandler])
          (Toy.request "Basic abc")).Log =
            [Event.handler "middleware.JWTAuth", Event.parse tok]) :=
  JWTAuth_rejection_aborts_chain Toy.lib Toy.secret 0 (Toy.request "Basic abc") [Toy.okHandler]
    (by decide)
    (Or.inr (Or.inl (by
      intro t h
      have h1 : (Context.reset (Toy.request "Basic abc")).GetHeader "Authorization" =
          "Basic abc" := Toy.context_header "Basic abc"
      rw [h1] at h
      have := congrArg String.data h
      simp [String.data_append] at this)))

theorem JWTAuth_rejects_non_HMAC_witness :
    (middleware.JWTAuth Toy.lib Toy.secret 0 (fun x => x)
      (Toy.context ("Bearer " ++
        (Toy.lib.EncodeSegment (Toy.lib.marshalHeader "none") ++ "." ++
          Toy.lib.EncodeSegment (Toy.lib.marshalClaims (middleware.newClaims 0 0 0 1 "admin"))
          ++ "." ++ "")))).Written = [(401, ⟨401, "无效的令牌", none⟩)] := by
  have h := JWTAuth_rejects_non_HMAC Toy.lib Toy.secret 0 (fun x => x)
    (Toy.context ("Bearer " ++
        (Toy.lib.EncodeSegment (Toy.lib.marshalHeader "none") ++ "." ++
          Toy.lib.EncodeSegment (Toy.lib.marshalClaims (middleware.newClaims 0 0 0 1 "admin"))
          ++ "." ++ ""))) _ _ _ _ _ (Toy.context_header _)
    (ParseUnverified_encoded Toy.lib Toy.lawful "none" jwt.SigningMethod.none
      (middleware.newClaims 0 0 0 1 "admin") "" (by decide) (by simp) (by decide)) rfl
  rw [h.2.1]
  rfl

/-! ### The route table -/

/-- C3, the code at the failing input. No route that `main` registers has `JWTAuth`
in its handler chain. The 51 routes of the groups that require a token run the
three handlers of the engine and then the handler of the route; the chain of
`GET /api/v1/users` is one of them. Served without an `Authorization` header, the
handler of that route runs and answers 200 with the success envelope. -/
theorem routes_without_JWTAuth :
    (∀ rt ∈ main.routes, "middleware.JWTAuth" ∉ rt.Handlers) ∧
    (main.routes.filter main.requiresToken).length = 51 ∧
    (∀ rt ∈ main.routes, main.requiresToken rt = true →
      rt.Handlers.dropLast = ["gin.Logger", "gin.Recovery", "middleware.CORSMiddleware"]) ∧
    main.routes.find? (fun rt => decide (rt.Method = "GET" ∧ rt.Path = "/api/v1/users")) =
      some { Method := "GET", Path := "/api/v1/users",
             Handlers := ["gin.Logger", "gin.Recovery", "middleware.CORSMiddleware",
                          "user.Handler.List"] } ∧
    (serve [{ name := "user.Handler.List",
              fn := fun _ c => user.Handler.List Toy.lib Toy.aliceStore none c }]
        { Header := [], Body := none }).Written.map
          (fun w => (w.1, w.2.Code, w.2.Message)) = [(200, 0, "success")] := by
  refine ⟨by decide, by decide, by decide, by decide, by rfl⟩

/-! ### Registration and login -/

theorem setField_password (L : Lib) (u u1 : user.User) (key : String) (v : Json)
    (h : user.User.setField L u key v = some u1) : u1.Password = u.Password := by
  unfold user.User.setField at h
  split_ifs at h <;>
    first
    | (simp only [Option.map_eq_some'] at h
       obtain ⟨x, -, rfl⟩ := h
       rfl)
    | (simp only [Option.some.injEq] at h
       rw [← h])

theorem decodeFields_password (L : Lib) (fields : List (String × Json)) (u u1 : user.User)
    (h : user.decodeFields (user.User.setField L) fields u = some u1) :
    u1.Password = u.Password := by
  induction fields generalizing u with
  | nil =>
    simp only [user.decodeFields, Option.some.injEq] at h
    rw [← h]
  | cons kv rest ih =>
    obtain ⟨k, v⟩ := kv
    simp only [user.decodeFields] at h
    cases hs : user.User.setField L u k v with
    | none => simp [hs] at h
    | some u2 =>
      simp only [hs] at h
      rw [ih u2 h, setField_password L u u2 k v hs]

/-- Binding a JSON body never changes the `Password` field of a `User`: the field
has the json tag `-`. -/
theorem bindUser_password (L : Lib) (body : Option Json) (u u1 : user.User)
    (h : user.bindUser L body u = some u1) : u1.Password = u.Password := by
  unfold user.bindUser at h
  cases body with
  | none => simp at h
  | some doc =>
    simp only [user.decodeStruct] at h
    cases doc with
    | obj fields => exact decodeFields_password L fields u u1 h
    | null =>
      simp only [Option.some.injEq] at h
      rw [← h]
    | bool b => simp at h
    | num n => simp at h
    | str t => simp at h
    | arr items => simp at h
    | frac q => simp at h

theorem bindLoginRequest_body (username password : String) :
    user.bindLoginRequest (some (Json.obj [("username", Json.str username),
        ("password", Json.str password)])) =
      if username = "" ∨ password = "" then none
      else some { Username := username, Password := password } := by
  simp [user.bindLoginRequest, user.decodeStruct, user.decodeFields,
    user.LoginRequest.setField, user.decodeString]

theorem Error_ne_success (c : Context) (code : Nat) (msg : String) (resp : Response)
    (hcode : code ≠ 200) :
    (response.Error c code msg).Written ≠ c.Written ++ [(200, resp)] := by
  intro h
  simp only [response.Error, Context.JSON] at h
  have h1 := List.append_cancel_left h
  simp only [List.cons.injEq, Prod.mk.injEq, and_true] at h1
  exact hcode h1.1

theorem Login_empty_field (L : Lib) (secret : Bytes) (t1 t2 t3 : Time) (db : user.Store)
    (c : Context) (username password : String)
    (hbody : c.Body = some (Json.obj [("username", Json.str username),
      ("password", Json.str password)]))
    (h : username = "" ∨ password = "") :
    user.Handler.Login L secret t1 t2 t3 db none c = response.Error c 400 "无效的请求参数" := by
  have hb := bindLoginRequest_body username password
  simp only [h, if_true] at hb
  simp only [user.Handler.Login, hbody, hb]

theorem Login_no_user (L : Lib) (secret : Bytes) (t1 t2 t3 : Time) (db : user.Store)
    (c : Context) (username password : String)
    (hbody : c.Body = some (Json.obj [("username", Json.str username),
      ("password", Json.str password)]))
    (hu : username ≠ "") (hp : password ≠ "") (hfirst : db.FirstByName username = none) :
    user.Handler.Login L secret t1 t2 t3 db none c = response.Error c 401 "用户名或密码错误" := by
  have hb := bindLoginRequest_body username password
  simp only [hu, hp, or_self, if_false] at hb
  simp only [user.Handler.Login, hbody, hb, hfirst, gorm.call]

theorem Login_wrong_password (L : Lib) (secret : Bytes) (t1 t2 t3 : Time) (db : user.Store)
    (c : Context) (username password : String) (row : user.User)
    (hbody : c.Body = some (Json.obj [("username", Json.str username),
      ("password", Json.str password)]))
    (hu : username ≠ "") (hp : password ≠ "") (hfirst : db.FirstByName username = some row)
    (hcmp : L.bcryptCompare row.Password password = false) :
    user.Handler.Login L secret t1 t2 t3 db none c = response.Error c 401 "用户名或密码错误" := by
  have hb := bindLoginRequest_body username password
  simp only [hu, hp, or_self, if_false] at hb
  simp only [user.Handler.Login, hbody, hb, hfirst, gorm.call, hcmp, Bool.not_false, if_true]

theorem Create_some (db db1 : user.Store) (now : Time) (u row : user.User)
    (h : db.Create now u = (db1, some row)) :
    db1.users = db.users ++ [row] ∧ row.Password = u.Password ∧ row.Name = u.Name := by
  unfold user.Store.Create at h
  by_cases hv : db.refuses (db.newRow now u) = true
  · rw [if_pos hv] at h
    simp at h
  · rw [if_neg hv] at h
    simp only [Prod.mk.injEq, Option.some.injEq] at h
    obtain ⟨rfl, rfl⟩ := h
    exact ⟨rfl, rfl, rfl⟩

theorem withDefaultUserType_keeps (u : user.User) :
    (user.withDefaultUserType u).Password = u.Password ∧
    (user.withDefaultUserType u).Name = u.Name := by
  unfold user.withDefaultUserType
  split_ifs <;> exact ⟨rfl, rfl⟩

theorem FirstByName_appended (db : user.Store) (row : user.User) (seq : Nat)
    (h : db.CountByName row.Name = 0) :
    user.Store.FirstByName { users := db.users ++ [row], seq := seq } row.Name = some row := by
  unfold user.Store.CountByName at h
  have h0 : db.users.filter (fun u => decide (u.Name = row.Name)) = [] :=
    List.eq_nil_of_length_eq_zero h
  simp [user.Store.FirstByName, List.filter_append, h0, user.leastID]

/-- C4, the code at the failing input. Whatever the body of a registration request
says, when `Register` accepts it the stored password is the bcrypt hash of the
empty string: the body is bound to a `User`, whose `Password` has the json tag
`-`, so the password of the request never reaches the hash. A following `Login`
with the name of the new user and a password that this hash does not verify is
not answered with 200. -/
theorem Register_hashes_empty_password (L : Lib) (salt : Bytes) (now : Time)
    (db db1 : user.Store) (c c1 : Context)
    (hreg : user.Handler.Register L salt now db none none c = (db1, c1))
    (hacc : ∃ resp, c1.Written = c.Written ++ [(200, resp)]) :
    ∃ row : user.User, db1.users = db.users ++ [row] ∧
      L.bcryptHash "" user.bcryptDefaultCost salt = some row.Password ∧
      ∀ (secret : Bytes) (t1 t2 t3 : Time) (c2 : Context) (p : String),
        L.bcryptCompare row.Password p = false →
        c2.Body = some (Json.obj [("username", Json.str row.Name), ("password", Json.str p)]) →
        ∃ (code : Nat) (msg : String), code ≠ 200 ∧
          user.Handler.Login L secret t1 t2 t3 db1 none c2 = response.Error c2 code msg := by
  obtain ⟨resp, hw⟩ := hacc
  unfold user.Handler.Register at hreg
  cases hb : user.bindUser L c.Body user.User.zero with
  | none =>
    simp only [hb, Prod.mk.injEq] at hreg
    obtain ⟨-, rfl⟩ := hreg
    exact absurd hw (Error_ne_success c 400 _ resp (by decide))
  | some usr =>
    have hpw : usr.Password = "" := bindUser_password L c.Body user.User.zero usr hb
    simp only [hb, user.registerCount, gorm.call] at hreg
    by_cases hcount : db.CountByName usr.Name > 0
    · rw [if_pos hcount] at hreg
      simp only [Prod.mk.injEq] at hreg
      obtain ⟨-, rfl⟩ := hreg
      exact absurd hw (Error_ne_success c 400 _ resp (by decide))
    · rw [if_neg hcount, hpw] at hreg
      cases hh : L.bcryptHash "" user.bcryptDefaultCost salt with
      | none =>
        simp only [hh, Prod.mk.injEq] at hreg
        obtain ⟨-, rfl⟩ := hreg
        exact absurd hw (Error_ne_success c 500 _ resp (by decide))
      | some hashed =>
        simp only [hh] at hreg
        cases hcr : db.Create now
            (user.withDefaultUserType { usr with Password := hashed }) with
        | mk db2 created =>
          cases created with
          | none =>
            simp only [hcr, Prod.mk.injEq] at hreg
            obtain ⟨-, rfl⟩ := hreg
            exact absurd hw (Error_ne_success c 500 _ resp (by decide))
          | some row =>
            simp only [hcr, Prod.mk.injEq] at hreg
            obtain ⟨rfl, -⟩ := hreg
            obtain ⟨husers, hrp, hrn⟩ := Create_some db db2 now _ row hcr
            rw [(withDefaultUserType_keeps _).1] at hrp
            rw [(withDefaultUserType_keeps _).2] at hrn
            simp only at hrp hrn
            refine ⟨row, husers, by rw [hrp], ?_⟩
            intro secret t1 t2 t3 c2 p hcmp hbody
            by_cases he : row.Name = "" ∨ p = ""
            · exact ⟨400, _, by decide,
                Login_empty_field L secret t1 t2 t3 db2 c2 row.Name p hbody he⟩
            · have hn : row.Name ≠ "" := fun h => he (Or.inl h)
              have hp : p ≠ "" := fun h => he (Or.inr h)
              have hzero : db.CountByName row.Name = 0 := by
                rw [hrn]
                omega
              have hfirst : db2.FirstByName row.Name = some row := by
                have := FirstByName_appended db row db2.seq hzero
                rw [← husers] at this
                exact this
              exact ⟨401, _, by decide,
                Login_wrong_password L secret t1 t2 t3 db2 c2 row.Name p row hbody hn hp hfirst
                  hcmp⟩

theorem Register_hashes_empty_password_witness :
    (∃ row : user.User,
      (user.Handler.Register Toy.lib [] 0 Toy.emptyStore none none
        (Toy.bodyContext (Toy.registerBody "alice" "alice@example.com" "secret1"))).1.users =
          Toy.emptyStore.users ++ [row] ∧
      Toy.lib.bcryptHash "" user.bcryptDefaultCost [] = some row.Password ∧
      Toy.lib.bcryptCompare row.Password "secret1" = false) ∧
    (user.Handler.Login Toy.lib Toy.secret 0 0 0
      (user.Handler.Register Toy.lib [] 0 Toy.emptyStore none none
        (Toy.bodyContext (Toy.registerBody "alice" "alice@example.com" "secret1"))).1 none
      (Toy.bodyContext (Toy.loginBody "alice" "secret1"))).Written.map
        (fun w => (w.1, w.2.Code, w.2.Message)) = [(401, 401, "用户名或密码错误")] := by
  constructor
  · obtain ⟨row, h1, h2, -⟩ := Register_hashes_empty_password Toy.lib [] 0
      Toy.emptyStore _ (Toy.bodyContext (Toy.registerBody "alice" "alice@example.com" "secret1"))
      _ rfl ⟨_, rfl⟩
    refine ⟨row, h1, h2, ?_⟩
    simp only [Toy.lib, Option.some.injEq] at h2
    rw [← h2]
    decide
  · rfl

/-- C5, counterexample. With an empty password the request does not pass the
`required` check of the binding: both for the existing user `alice`, whose hash
does not verify the empty password, and for a table without that name, `Login`
answers 400 and not 401. -/
theorem Login_empty_password_is_bad_request :
    Toy.aliceStore.FirstByName "alice" = some Toy.alice ∧
    Toy.lib.bcryptCompare Toy.alice.Password "" = false ∧
    Toy.emptyStore.FirstByName "alice" = none ∧
    (user.Handler.Login Toy.lib Toy.secret 0 0 0 Toy.aliceStore none
      (Toy.bodyContext (Toy.loginBody "alice" ""))).Written.map
        (fun w => (w.1, w.2.Code, w.2.Message)) = [(400, 400, "无效的请求参数")] ∧
    (user.Handler.Login Toy.lib Toy.secret 0 0 0 Toy.emptyStore none
      (Toy.bodyContext (Toy.loginBody "alice" ""))).Written.map
        (fun w => (w.1, w.2.Code, w.2.Message)) = [(400, 400, "无效的请求参数")] ∧
    ¬ ((user.Handler.Login Toy.lib Toy.secret 0 0 0 Toy.aliceStore none
      (Toy.bodyContext (Toy.loginBody "alice" ""))).Written.map Prod.fst = [401]) := by
  refine ⟨by rfl, by rfl, by rfl, by rfl, by rfl, by decide⟩

/-- C5, amended. `Login` does not reveal whether an account exists: for every
username and password, the answer for a table in which the name matches no user
and the answer for a table in which the user exists but the password does not
verify are the same context. When username and password are both non-empty the
answer is HTTP 401 with code 401 and the message for a wrong name or password;
when one of them is empty it is HTTP 400 in both cases. -/
theorem Login_no_user_enumeration (L : Lib) (secret : Bytes) (t1 t2 t3 : Time)
    (db1 db2 : user.Store) (c : Context) (username password : String)
    (hbody : c.Body = some (Json.obj [("username", Json.str username),
      ("password", Json.str password)]))
    (h1 : db1.FirstByName username = none)
    (h2 : ∃ u, db2.FirstByName username = some u ∧ L.bcryptCompare u.Password password = false) :
    user.Handler.Login L secret t1 t2 t3 db1 none c = user.Handler.Login L secret t1 t2 t3 db2 none c ∧
    (username ≠ "" → password ≠ "" →
      user.Handler.Login L secret t1 t2 t3 db1 none c =
        { c with Written := c.Written ++ [(401, ⟨401, "用户名或密码错误", none⟩)] }) ∧
    (username = "" ∨ password = "" →
      user.Handler.Login L secret t1 t2 t3 db1 none c =
        { c with Written := c.Written ++ [(400, ⟨400, "无效的请求参数", none⟩)] }) := by
  obtain ⟨u, hu, hcmp⟩ := h2
  refine ⟨?_, ?_, ?_⟩
  · by_cases he : username = "" ∨ password = ""
    · rw [Login_empty_field L secret t1 t2 t3 db1 c username password hbody he,
        Login_empty_field L secret t1 t2 t3 db2 c username password hbody he]
    · have hn : username ≠ "" := fun h => he (Or.inl h)
      have hp : password ≠ "" := fun h => he (Or.inr h)
      rw [Login_no_user L secret t1 t2 t3 db1 c username password hbody hn hp h1,
        Login_wrong_password L secret t1 t2 t3 db2 c username password u hbody hn hp hu hcmp]
  · intro hn hp
    rw [Login_no_user L secret t1 t2 t3 db1 c username password hbody hn hp h1]
    rfl
  · intro he
    rw [Login_empty_field L secret t1 t2 t3 db1 c username password hbody he]
    rfl

theorem Login_no_user_enumeration_witness :
    user.Handler.Login Toy.lib Toy.secret 0 0 0 Toy.emptyStore none
        (Toy.bodyContext (Toy.loginBody "alice" "wrong")) =
      user.Handler.Login Toy.lib Toy.secret 0 0 0 Toy.aliceStore none
        (Toy.bodyContext (Toy.loginBody "alice" "wrong")) ∧
    (user.Handler.Login Toy.lib Toy.secret 0 0 0 Toy.emptyStore none
        (Toy.bodyContext (Toy.loginBody "alice" "wrong"))).Written =
      [(401, ⟨401, "用户名或密码错误", none⟩)] := by
  have h := Login_no_user_enumeration Toy.lib Toy.secret 0 0 0 Toy.emptyStore Toy.aliceStore
    (Toy.bodyContext (Toy.loginBody "alice" "wrong")) "alice" "wrong" rfl rfl
    ⟨Toy.alice, rfl, rfl⟩
  refine ⟨h.1, ?_⟩
  rw [h.2.1 (by decide) (by decide)]
  rfl

/-! ### The response envelope -/

/-- C15. For every data value `d`, `Success` makes one more call of `c.JSON`, with
status 200 and the envelope of code 0, message `success` and data `d`, and
changes nothing else of the context. The JSON of that envelope has the members
`code` (0) and `message` (`success`) and, exactly when `d` is not nil, the member
`data` with the value `d`. -/
theorem Success_envelope (c : Context) (d : Option Json) :
    (response.Success c d).Written =
        c.Written ++ [(200, { Code := 0, Message := "success", Data := d })] ∧
    response.Success c d = { c with Written := (response.Success c d).Written } ∧
    (response.Success c d).sent =
        c.sent ++ [(200, Response.toJson { Code := 0, Message := "success", Data := d })] ∧
    (Response.toJson { Code := 0, Message := "success", Data := d }).get? "code" =
        some (Json.num 0) ∧
    (Response.toJson { Code := 0, Message := "success", Data := d }).get? "message" =
        some (Json.str "success") ∧
    (Response.toJson { Code := 0, Message := "success", Data := d }).get? "data" = d ∧
    ("data" ∈ (Response.toJson { Code := 0, Message := "success", Data := d }).keys ↔
        d ≠ none) ∧
    (Response.toJson { Code := 0, Message := "success", Data := d }).keys =
        if d.isNone then ["code", "message"] else ["code", "message", "data"] := by
  refine ⟨rfl, rfl, ?_, ?_, ?_, ?_, ?_, ?_⟩
  · simp [Context.sent, response.Success, Context.JSON]
  · cases d <;> simp [Response.toJson, Json.get?, List.lookup]
  · cases d <;> simp [Response.toJson, Json.get?, List.lookup]
  · cases d <;> simp [Response.toJson, Json.get?, List.lookup]
  · cases d <;> simp [Response.toJson, Json.keys]
  · cases d <;> simp [Response.toJson, Json.keys]

/-- C16. For every status code and message, `Error` makes one more call of
`c.JSON`, with that status and the envelope whose code is the status, whose
message is the message and which has no data; the JSON of the envelope has the
two members `code` and `message` only. The five named responses are `Error` at
400, 401, 403, 404 and 500, so their body code is their status. -/
theorem Error_envelope (c : Context) (code : Nat) (m : String) :
    (response.Error c code m).Written =
        c.Written ++ [(code, { Code := code, Message := m, Data := none })] ∧
    response.Error c code m = { c with Written := (response.Error c code m).Written } ∧
    (response.Error c code m).sent =
        c.sent ++ [(code, Json.obj [("code", Json.num code), ("message", Json.str m)])] ∧
    (Response.toJson { Code := code, Message := m, Data := none }).keys =
        ["code", "message"] ∧
    (Response.toJson { Code := code, Message := m, Data := none }).get? "data" = none ∧
    (response.BadRequestResponse c m).sent =
        c.sent ++ [(400, Json.obj [("code", Json.num 400), ("message", Json.str m)])] ∧
    (response.UnauthorizedResponse c m).sent =
        c.sent ++ [(401, Json.obj [("code", Json.num 401), ("message", Json.str m)])] ∧
    (response.ForbiddenResponse c m).sent =
        c.sent ++ [(403, Json.obj [("code", Json.num 403), ("message", Json.str m)])] ∧
    (response.NotFoundResponse c m).sent =
        c.sent ++ [(404, Json.obj [("code", Json.num 404), ("message", Json.str m)])] ∧
    (response.InternalServerErrorResponse c m).sent =
        c.sent ++ [(500, Json.obj [("code", Json.num 500), ("message", Json.str m)])] := by
  have key : ∀ k : Nat, (response.Error c k m).sent =
      c.sent ++ [(k, Json.obj [("code", Json.num k), ("message", Json.str m)])] := by
    intro k
    simp [Context.sent, response.Error, Context.JSON, Response.toJson]
  refine ⟨rfl, rfl, key code, ?_, ?_, key 400, key 401, key 403, key 404, key 500⟩
  · simp [Response.toJson, Json.keys]
  · simp [Response.toJson, Json.get?, List.lookup]

/-! ### The public view of a user -/

/-- C13. The output for a user does not depend on the password: replacing the
`Password` of a `User` by any other text changes neither `ToResponse` nor the
JSON of the `User`, which has no member for the password. `ToResponse` copies
`ID`, `Name`, `UserType`, `Email`, `Phone`, `IsDelete`, `CreatedAt` and
`UpdatedAt`, and the JSON of a `UserResponse` has exactly the members `id`,
`name`, `user_type`, `email`, `phone`, `is_delete`, `created_at`, `updated_at`
with these values. -/
theorem User_output_without_password (L : Lib) (u : user.User) (p : String) :
    user.User.ToResponse { u with Password := p } = u.ToResponse ∧
    user.User.toJson L { u with Password := p } = u.toJson L ∧
    "password" ∉ (u.toJson L).keys ∧
    u.ToResponse =
      { ID := u.ID, Name := u.Name, UserType := u.UserType, Email := u.Email,
        Phone := u.Phone, IsDelete := u.IsDelete, CreatedAt := u.CreatedAt,
        UpdatedAt := u.UpdatedAt } ∧
    (u.ToResponse.toJson L).keys =
      ["id", "name", "user_type", "email", "phone", "is_delete", "created_at",
       "updated_at"] ∧
    u.ToResponse.toJson L =
      Json.obj
        [("id", Json.num u.ID), ("name", Json.str u.Name),
         ("user_type", Json.str u.UserType), ("email", Json.str u.Email),
         ("phone", Json.str u.Phone), ("is_delete", Json.bool u.IsDelete),
         ("created_at", Json.str (L.formatTime u.CreatedAt)),
         ("updated_at", Json.str (L.formatTime u.UpdatedAt))] := by
  refine ⟨rfl, rfl, ?_, rfl, ?_, rfl⟩
  · simp [user.User.toJson, Json.keys]
  · simp [user.UserResponse.toJson, Json.keys]

/-! ### Registration: names and user types -/

theorem Create_row (db db1 : user.Store) (now : Time) (u : user.User) (r : Option user.User)
    (h : db.Create now u = (db1, r)) :
    (r = none ∧ db1.users = db.users) ∨
    (r = some (db.newRow now u) ∧ db1.users = db.users ++ [db.newRow now u]) := by
  unfold user.Store.Create at h
  by_cases hv : db.refuses (db.newRow now u) = true
  · rw [if_pos hv] at h
    simp only [Prod.mk.injEq] at h
    obtain ⟨rfl, rfl⟩ := h
    exact Or.inl ⟨rfl, rfl⟩
  · rw [if_neg hv] at h
    simp only [Prod.mk.injEq] at h
    obtain ⟨rfl, rfl⟩ := h
    exact Or.inr ⟨rfl, rfl⟩

theorem Register_cases (L : Lib) (salt : Bytes) (now : Time) (db : user.Store) (c : Context) :
    ((user.Handler.Register L salt now db none none c).1.users = db.users ∧
      ∃ (code : Nat) (msg : String), code ≠ 200 ∧
        (user.Handler.Register L salt now db none none c).2 = response.Error c code msg) ∨
    (∃ (usr : user.User) (hashed : String),
      user.bindUser L c.Body user.User.zero = some usr ∧
      db.CountByName usr.Name = 0 ∧
      L.bcryptHash usr.Password user.bcryptDefaultCost salt = some hashed ∧
      (user.Handler.Register L salt now db none none c).1.users = db.users ++
        [db.newRow now (user.withDefaultUserType { usr with Password := hashed })] ∧
      (user.Handler.Register L salt now db none none c).2 = response.Success c
        (some (user.User.toJson L
          (db.newRow now (user.withDefaultUserType { usr with Password := hashed }))))) := by
  unfold user.Handler.Register
  cases hb : user.bindUser L c.Body user.User.zero with
  | none => exact Or.inl ⟨rfl, 400, _, by decide, rfl⟩
  | some usr =>
    simp only [user.registerCount, gorm.call]
    by_cases hcount : db.CountByName usr.Name > 0
    · rw [if_pos hcount]
      exact Or.inl ⟨rfl, 400, _, by decide, rfl⟩
    · rw [if_neg hcount]
      cases hh : L.bcryptHash usr.Password user.bcryptDefaultCost salt with
      | none => exact Or.inl ⟨rfl, 500, _, by decide, rfl⟩
      | some hashed =>
        simp only
        cases hcr : db.Create now
            (user.withDefaultUserType { usr with Password := hashed }) with
        | mk db2 created =>
          rcases Create_row db db2 now _ created hcr with ⟨rfl, hu⟩ | ⟨rfl, hu⟩
          · exact Or.inl ⟨hu, 500, _, by decide, rfl⟩
          · exact Or.inr ⟨usr, hashed, rfl, by omega, hh, hu, rfl⟩

theorem newRow_name (db : user.Store) (now : Time) (usr : user.User) (hashed : String) :
    (db.newRow now (user.withDefaultUserType { usr with Password := hashed })).Name =
      usr.Name := by
  unfold user.withDefaultUserType
  split_ifs <;> rfl

theorem CountByName_users (db db1 : user.Store) (row : user.User) (n : String)
    (h : db1.users = db.users ++ [row]) :
    db1.CountByName n = db.CountByName n + if row.Name = n then 1 else 0 := by
  unfold user.Store.CountByName
  rw [h, List.filter_append, List.length_append]
  by_cases hn : row.Name = n <;> simp [hn]

theorem CountByName_same (db db1 : user.Store) (n : String) (h : db1.users = db.users) :
    db1.CountByName n = db.CountByName n := by
  unfold user.Store.CountByName
  rw [h]

theorem Register_named (L : Lib) (salt : Bytes) (now : Time) (db : user.Store) (c : Context)
    (usr : user.User) (hb : user.bindUser L c.Body user.User.zero = some usr)
    (hex : db.CountByName usr.Name > 0) :
    user.Handler.Register L salt now db none none c = (db, response.Error c 400 "用户名已存在") := by
  unfold user.Handler.Register
  simp only [hb, user.registerCount, gorm.call]
  rw [if_pos hex]

/-- C11. Let two registration requests carry the same name. Whenever a row with
that name is in the table, `Register` answers 400 with the message `用户名已存在`
and returns the table as it was. So when the first of two calls in a row is
accepted, the second is refused in this way and the table then holds exactly
one row with the name; and two calls in a row never leave more than one row
with the name in a table that had at most one. -/
theorem Register_existing_name (L : Lib) (salt0 salt : Bytes) (now0 now : Time)
    (db0 : user.Store) (c0 c : Context) (usr0 usr : user.User)
    (hb0 : user.bindUser L c0.Body user.User.zero = some usr0)
    (hb : user.bindUser L c.Body user.User.zero = some usr)
    (hname : usr0.Name = usr.Name) :
    (∀ db : user.Store, (∃ u ∈ db.users, u.Name = usr.Name) →
      user.Handler.Register L salt now db none none c = (db, response.Error c 400 "用户名已存在")) ∧
    ((∃ resp, (user.Handler.Register L salt0 now0 db0 none none c0).2.Written =
        c0.Written ++ [(200, resp)]) →
      user.Handler.Register L salt now (user.Handler.Register L salt0 now0 db0 none none c0).1 none none c =
        ((user.Handler.Register L salt0 now0 db0 none none c0).1,
          response.Error c 400 "用户名已存在") ∧
      (user.Handler.Register L salt now
        (user.Handler.Register L salt0 now0 db0 none none c0).1 none none c).1.CountByName usr.Name = 1) ∧
    (db0.CountByName usr.Name ≤ 1 →
      (user.Handler.Register L salt now
        (user.Handler.Register L salt0 now0 db0 none none c0).1 none none c).1.CountByName usr.Name ≤ 1) := by
  have hfirst : ∀ db : user.Store, (∃ u ∈ db.users, u.Name = usr.Name) →
      db.CountByName usr.Name > 0 := by
    intro db hex
    obtain ⟨u, hu, hn⟩ := hex
    unfold user.Store.CountByName
    have hmem : u ∈ db.users.filter (fun v => decide (v.Name = usr.Name)) := by
      simp [List.mem_filter, hu, hn]
    exact List.length_pos_of_mem hmem
  have hsecond : ∀ db : user.Store, db.CountByName usr.Name ≤ 1 →
      (user.Handler.Register L salt now db none none c).1.CountByName usr.Name ≤ 1 := by
    intro db hle
    rcases Register_cases L salt now db c with ⟨hu, -⟩ | ⟨usr1, hashed, hb1, hz, -, hu, -⟩
    · rw [CountByName_same _ _ _ hu]
      exact hle
    · rw [hb] at hb1
      obtain rfl := Option.some.inj hb1
      rw [CountByName_users _ _ _ _ hu, hz]
      split_ifs <;> omega
  refine ⟨fun db hex => Register_named L salt now db c usr hb (hfirst db hex), ?_, ?_⟩
  · intro hacc
    obtain ⟨resp, hw⟩ := hacc
    rcases Register_cases L salt0 now0 db0 c0 with
      ⟨-, code, msg, hcode, he⟩ | ⟨usr1, hashed, hb1, hz, -, hu, -⟩
    · rw [he] at hw
      exact absurd hw (Error_ne_success c0 code msg resp hcode)
    · rw [hb0] at hb1
      obtain rfl := Option.some.inj hb1
      have hone : (user.Handler.Register L salt0 now0 db0 none none c0).1.CountByName usr.Name = 1 := by
        rw [CountByName_users _ _ _ _ hu, newRow_name, ← hname, hz]
        simp
      have hreg := Register_named L salt now _ c usr hb (by omega :
        (user.Handler.Register L salt0 now0 db0 none none c0).1.CountByName usr.Name > 0)
      exact ⟨hreg, by rw [hreg]; exact hone⟩
  · intro hle
    apply hsecond
    rcases Register_cases L salt0 now0 db0 c0 with ⟨hu, -⟩ | ⟨usr1, hashed, hb1, hz, -, hu, -⟩
    · rw [CountByName_same _ _ _ hu]
      exact hle
    · rw [hb0] at hb1
      obtain rfl := Option.some.inj hb1
      rw [CountByName_users _ _ _ _ hu, newRow_name, ← hname, hz]
      simp

theorem Register_existing_name_witness :
    (∀ db : user.Store, (∃ u ∈ db.users, u.Name = "alice") →
      user.Handler.Register Toy.lib [] 5 db none none
          (Toy.bodyContext (Toy.registerBody "alice" "a2@example.com" "secret2")) =
        (db, response.Error
          (Toy.bodyContext (Toy.registerBody "alice" "a2@example.com" "secret2")) 400
          "用户名已存在")) ∧
    (user.Handler.Register Toy.lib [] 5
      (user.Handler.Register Toy.lib [] 0 Toy.emptyStore none none
        (Toy.bodyContext (Toy.registerBody "alice" "alice@example.com" "secret1"))).1 none none
      (Toy.bodyContext (Toy.registerBody "alice" "a2@example.com" "secret2"))).1.CountByName
        "alice" = 1 :=
  have h := Register_existing_name Toy.lib [] [] 0 5 Toy.emptyStore
    (Toy.bodyContext (Toy.registerBody "alice" "alice@example.com" "secret1"))
    (Toy.bodyContext (Toy.registerBody "alice" "a2@example.com" "secret2"))
    { user.User.zero with Name := "alice", Email := "alice@example.com" }
    { user.User.zero with Name := "alice", Email := "a2@example.com" }
    (by rfl) (by rfl) rfl
  ⟨h.1, (h.2.1 ⟨_, by rfl⟩).2⟩

theorem decodeFields_append {α : Type} (set : α → String → Json → Option α)
    (a b : List (String × Json)) (x : α) :
    user.decodeFields set (a ++ b) x = (user.decodeFields set a x).bind (user.decodeFields set b) := by
  induction a generalizing x with
  | nil => rfl
  | cons kv rest ih =>
    obtain ⟨k, v⟩ := kv
    simp only [List.cons_append, user.decodeFields]
    cases set x k v with
    | none => rfl
    | some x1 => exact ih x1

theorem setField_userType_other (L : Lib) (u u1 : user.User) (key : String) (v : Json)
    (hk : key ≠ "user_type") (h : user.User.setField L u key v = some u1) :
    u1.UserType = u.UserType := by
  unfold user.User.setField at h
  rw [if_neg hk] at h
  split_ifs at h <;>
    first
    | (simp only [Option.map_eq_some'] at h
       obtain ⟨_, -, rfl⟩ := h
       rfl)
    | (obtain rfl := Option.some.inj h
       rfl)

theorem decodeFields_userType_absent (L : Lib) (fields : List (String × Json))
    (u u1 : user.User) (hk : ∀ kv ∈ fields, kv.1 ≠ "user_type")
    (h : user.decodeFields (user.User.setField L) fields u = some u1) :
    u1.UserType = u.UserType := by
  induction fields generalizing u with
  | nil =>
    simp only [user.decodeFields, Option.some.injEq] at h
    rw [h]
  | cons kv rest ih =>
    obtain ⟨k, v⟩ := kv
    simp only [user.decodeFields] at h
    cases hs : user.User.setField L u k v with
    | none => simp [hs] at h
    | some u2 =>
      simp only [hs] at h
      rw [ih u2 (fun kv hkv => hk kv (List.mem_cons_of_mem _ hkv)) h]
      exact setField_userType_other L u u2 k v (hk (k, v) (List.mem_cons_self _ _)) hs

theorem decodeFields_userType_given (L : Lib) (pre post : List (String × Json)) (t : String)
    (u u1 : user.User) (hk : ∀ kv ∈ post, kv.1 ≠ "user_type")
    (h : user.decodeFields (user.User.setField L)
      (pre ++ ("user_type", Json.str t) :: post) u = some u1) :
    u1.UserType = t := by
  rw [decodeFields_append] at h
  cases hp : user.decodeFields (user.User.setField L) pre u with
  | none => simp [hp] at h
  | some u2 =>
    simp only [hp, Option.some_bind, user.decodeFields] at h
    have hs : user.User.setField L u2 "user_type" (Json.str t) =
        some { u2 with UserType := t } := by
      simp [user.User.setField, user.decodeString]
    simp only [hs] at h
    exact decodeFields_userType_absent L post _ u1 hk h

theorem newRow_userType (db : user.Store) (now : Time) (usr : user.User) (hashed : String) :
    (db.newRow now (user.withDefaultUserType { usr with Password := hashed })).UserType =
      if usr.UserType = "" then "user" else usr.UserType := by
  unfold user.withDefaultUserType user.Store.newRow
  by_cases h : usr.UserType = "" <;> simp [h]

/-- C12. When `Register` accepts a request (it answers 200), it has added one
row, the one of the answer, and the `UserType` of that row is `user` when the
bound `UserType` is empty and the bound `UserType` otherwise. In terms of the
body: a body without the key `user_type` stores `user`, and a body whose last
member with the key `user_type` is the text `t` stores `user` when `t` is empty
and `t` otherwise. -/
theorem Register_user_type (L : Lib) (salt : Bytes) (now : Time) (db : user.Store)
    (c : Context)
    (hacc : ∃ resp, (user.Handler.Register L salt now db none none c).2.Written =
      c.Written ++ [(200, resp)]) :
    ∃ (usr row : user.User),
      user.bindUser L c.Body user.User.zero = some usr ∧
      (user.Handler.Register L salt now db none none c).1.users = db.users ++ [row] ∧
      (user.Handler.Register L salt now db none none c).2 =
        response.Success c (some (row.toJson L)) ∧
      row.UserType = (if usr.UserType = "" then "user" else usr.UserType) ∧
      (∀ fields : List (String × Json), c.Body = some (Json.obj fields) →
        (∀ kv ∈ fields, kv.1 ≠ "user_type") → row.UserType = "user") ∧
      (∀ (pre post : List (String × Json)) (t : String),
        c.Body = some (Json.obj (pre ++ ("user_type", Json.str t) :: post)) →
        (∀ kv ∈ post, kv.1 ≠ "user_type") →
        row.UserType = if t = "" then "user" else t) := by
  obtain ⟨resp, hw⟩ := hacc
  rcases Register_cases L salt now db c with
    ⟨-, code, msg, hcode, he⟩ | ⟨usr, hashed, hb, -, -, hu, hr⟩
  · rw [he] at hw
    exact absurd hw (Error_ne_success c code msg resp hcode)
  · refine ⟨usr, _, hb, hu, hr, newRow_userType db now usr hashed, ?_, ?_⟩
    · intro fields hbody hk
      rw [hbody] at hb
      simp only [user.bindUser, user.decodeStruct] at hb
      have := decodeFields_userType_absent L fields _ usr hk hb
      rw [newRow_userType, this]
      rfl
    · intro pre post t hbody hk
      rw [hbody] at hb
      simp only [user.bindUser, user.decodeStruct] at hb
      have := decodeFields_userType_given L pre post t _ usr hk hb
      rw [newRow_userType, this]

theorem Register_user_type_witness :
    ∃ (usr row : user.User),
      user.bindUser Toy.lib
        (Toy.bodyContext (Json.obj [("name", Json.str "bob"), ("user_type", Json.str "admin"),
          ("email", Json.str "bob@example.com")])).Body user.User.zero = some usr ∧
      (user.Handler.Register Toy.lib [] 7 Toy.aliceStore none none
        (Toy.bodyContext (Json.obj [("name", Json.str "bob"), ("user_type", Json.str "admin"),
          ("email", Json.str "bob@example.com")]))).1.users = Toy.aliceStore.users ++ [row] ∧
      row.UserType = "admin" := by
  obtain ⟨usr, row, hb, hu, -, -, -, ht⟩ := Register_user_type Toy.lib [] 7 Toy.aliceStore
    (Toy.bodyContext (Json.obj [("name", Json.str "bob"), ("user_type", Json.str "admin"),
      ("email", Json.str "bob@example.com")])) ⟨_, by rfl⟩
  exact ⟨usr, row, hb, hu,
    ht [("name", Json.str "bob")] [("email", Json.str "bob@example.com")] "admin" rfl
      (by simp)⟩

/-! ### Changing the password -/

theorem FirstByID_some (db : user.Store) (id : Nat) (u : user.User)
    (h : db.FirstByID id = some u) : u ∈ db.users ∧ u.ID = id := by
  unfold user.Store.FirstByID at h
  refine ⟨List.mem_of_find?_eq_some h, ?_⟩
  have := List.find?_some h
  simp only [decide_eq_true_eq] at this
  exact_mod_cast this

theorem find_replaced (l : List user.User) (id : Nat) (row : user.User) (hrow : row.ID = id)
    (hex : ∃ v ∈ l, v.ID = id) :
    (l.map (fun v => if v.ID = id then row else v)).find?
      (fun v => decide ((v.ID : Int) = (id : Int))) = some row := by
  induction l with
  | nil => simp at hex
  | cons a rest ih =>
    by_cases ha : a.ID = id
    · simp [List.find?, ha, hrow]
    · have hex1 : ∃ v ∈ rest, v.ID = id := by
        obtain ⟨v, hv, hvid⟩ := hex
        rcases List.mem_cons.mp hv with rfl | hv1
        · exact absurd hvid ha
        · exact ⟨v, hv1, hvid⟩
      have ha1 : ¬ ((a.ID : Int) = (id : Int)) := by exact_mod_cast ha
      simp only [List.map_cons, if_neg ha, List.find?, ha1, decide_False]
      exact ih hex1

theorem Save_existing (db : user.Store) (now : Time) (u : user.User) (id : Nat)
    (hpos : id ≠ 0) (hid : u.ID = id) (hex : ∃ v ∈ db.users, v.ID = id)
    (hfit : db.refusesUpdate { u with UpdatedAt := now } = false) :
    (db.Save now u).2 = some { u with UpdatedAt := now } ∧
    (db.Save now u).1.FirstByID id = some { u with UpdatedAt := now } := by
  subst hid
  have hall : ¬ (db.users.all (fun v => decide (v.ID ≠ u.ID)) = true) := by
    obtain ⟨v, hv, hvid⟩ := hex
    simp only [List.all_eq_true, decide_eq_true_eq, not_forall]
    exact ⟨v, hv, fun h => h hvid⟩
  unfold user.Store.Save
  rw [if_neg hpos, if_neg hall, hfit]
  refine ⟨rfl, ?_⟩
  simp only [Bool.false_eq_true, if_false, user.Store.FirstByID]
  exact find_replaced db.users u.ID { u with UpdatedAt := now } rfl hex

theorem Save_shape (db : user.Store) (now : Time) (u : user.User) (id : Nat)
    (hpos : id ≠ 0) (hid : u.ID = id) (hex : ∃ v ∈ db.users, v.ID = id) :
    (db.refusesUpdate { u with UpdatedAt := now } = true ∧ db.Save now u = (db, none)) ∨
    (db.refusesUpdate { u with UpdatedAt := now } = false ∧
      (db.Save now u).2 = some { u with UpdatedAt := now } ∧
      (db.Save now u).1.FirstByID id = some { u with UpdatedAt := now }) := by
  cases hfit : db.refusesUpdate { u with UpdatedAt := now } with
  | false => exact Or.inr ⟨rfl, Save_existing db now u id hpos hid hex hfit⟩
  | true =>
    subst hid
    have hall : ¬ (db.users.all (fun v => decide (v.ID ≠ u.ID)) = true) := by
      obtain ⟨v, hv, hvid⟩ := hex
      simp only [List.all_eq_true, decide_eq_true_eq, not_forall]
      exact ⟨v, hv, fun h => h hvid⟩
    refine Or.inl ⟨rfl, ?_⟩
    unfold user.Store.Save
    rw [if_neg hpos, if_neg hall, hfit]
    rfl

theorem UpdatePassword_unfold (L : Lib) (salt : Bytes) (now : Time) (db : user.Store)
    (c : Context) (id : Nat) (u : user.User) (old new : String)
    (hid : c.Get "user_id" = some (Value.uint id))
    (hbody : user.bindPasswordData c.Body = some { OldPassword := old, NewPassword := new })
    (hu : db.FirstByID id = some u) :
    user.Handler.UpdatePassword L salt now db none none c =
      if !L.bcryptCompare u.Password old then (db, response.Error c 400 "原密码错误")
      else
        match L.bcryptHash new user.bcryptDefaultCost salt with
        | none => (db, response.Error c 500 "密码加密失败")
        | some hashedPassword =>
          match db.Save now { u with Password := hashedPassword } with
          | (db1, none) => (db1, response.Error c 500 "更新密码失败")
          | (db1, some _) => (db1, response.Success c (some user.passwordUpdated)) := by
  simp only [user.Handler.UpdatePassword, hid, hbody, user.Store.First, hu, gorm.call]
  by_cases hc : (!L.bcryptCompare u.Password old) = true
  · rw [if_pos hc, if_pos hc]
  · rw [if_neg hc, if_neg hc]
    cases hh : L.bcryptHash new user.bcryptDefaultCost salt with
    | none => rfl
    | some hashed =>
      simp only
      cases hs : db.Save now { u with Password := hashed } with
      | mk db1 r => cases r <;> rfl

/-- C14, amended. Let the context hold the id of a stored user under `user_id`
and let the body bind, which needs both passwords to be given and not empty.
If the old password does not verify against the stored hash, `UpdatePassword`
answers 400 with `原密码错误` and returns the table as it was. If it verifies,
bcrypt makes a hash of the new password and the storage takes the row, the
answer is the success envelope and the stored password is that hash; and
whenever the answer is 200, the stored password is the hash bcrypt made of the
new password, which verifies the new password as bcrypt hashes verify their
password (`hbc`). Without `user_id` in the context the answer is 401 with
`未认证` and the table is returned as it was. -/
theorem UpdatePassword_checks_old_password (L : Lib) (salt : Bytes) (now : Time)
    (db : user.Store) (c : Context) (id : Nat) (u : user.User) (old new : String)
    (hpos : id ≠ 0)
    (hid : c.Get "user_id" = some (Value.uint id))
    (hbody : user.bindPasswordData c.Body = some { OldPassword := old, NewPassword := new })
    (hu : db.FirstByID id = some u)
    (hbc : ∀ h, L.bcryptHash new user.bcryptDefaultCost salt = some h →
      L.bcryptCompare h new = true) :
    (L.bcryptCompare u.Password old = false →
      user.Handler.UpdatePassword L salt now db none none c =
        (db, response.Error c 400 "原密码错误")) ∧
    (L.bcryptCompare u.Password old = true →
      ∀ hashed, L.bcryptHash new user.bcryptDefaultCost salt = some hashed →
        db.refusesUpdate { u with Password := hashed, UpdatedAt := now } = false →
        (user.Handler.UpdatePassword L salt now db none none c).2 =
          response.Success c (some user.passwordUpdated) ∧
        (user.Handler.UpdatePassword L salt now db none none c).1.FirstByID id =
          some { u with Password := hashed, UpdatedAt := now }) ∧
    (L.bcryptCompare u.Password old = true →
      (∃ resp, (user.Handler.UpdatePassword L salt now db none none c).2.Written =
        c.Written ++ [(200, resp)]) →
      ∃ u1, (user.Handler.UpdatePassword L salt now db none none c).1.FirstByID id = some u1 ∧
        L.bcryptHash new user.bcryptDefaultCost salt = some u1.Password ∧
        L.bcryptCompare u1.Password new = true) ∧
    (∀ c0 : Context, c0.Get "user_id" = none →
      user.Handler.UpdatePassword L salt now db none none c0 =
        (db, response.Error c0 401 "未认证")) := by
  have hunf := UpdatePassword_unfold L salt now db c id u old new hid hbody hu
  obtain ⟨hmem, huid⟩ := FirstByID_some db id u hu
  refine ⟨?_, ?_, ?_, ?_⟩
  · intro hcmp
    rw [hunf, hcmp]
    rfl
  · intro hcmp hashed hh hfit
    rw [hunf, hcmp, hh]
    simp only [Bool.not_true, Bool.false_eq_true, if_false]
    obtain ⟨h2, h1⟩ := Save_existing db now { u with Password := hashed } id hpos huid
      ⟨u, hmem, huid⟩ hfit
    cases hs : db.Save now { u with Password := hashed } with
    | mk db1 r =>
      rw [hs] at h1 h2
      simp only at h1 h2
      subst h2
      exact ⟨rfl, h1⟩
  · intro hcmp hacc
    obtain ⟨resp, hw⟩ := hacc
    rw [hunf, hcmp] at hw ⊢
    simp only [Bool.not_true, Bool.false_eq_true, if_false] at hw ⊢
    cases hh : L.bcryptHash new user.bcryptDefaultCost salt with
    | none =>
      rw [hh] at hw
      exact absurd hw (Error_ne_success c 500 _ resp (by decide))
    | some hashed =>
      rw [hh] at hw
      simp only at hw ⊢
      rcases Save_shape db now { u with Password := hashed } id hpos huid ⟨u, hmem, huid⟩ with
        ⟨-, hs⟩ | ⟨-, h2, h1⟩
      · rw [hs] at hw
        exact absurd hw (Error_ne_success c 500 _ resp (by decide))
      · cases hs : db.Save now { u with Password := hashed } with
        | mk db1 r =>
          rw [hs] at h1 h2
          simp only at h1 h2
          subst h2
          exact ⟨_, h1, rfl, hbc hashed hh⟩
  · intro c0 h0
    simp only [user.Handler.UpdatePassword, h0]

theorem UpdatePassword_checks_old_password_witness :
    user.Handler.UpdatePassword Toy.lib [] 9 Toy.aliceStore none none
        (Toy.passwordContext 1 "wrong" "fresh") =
      (Toy.aliceStore,
        response.Error (Toy.passwordContext 1 "wrong" "fresh") 400 "原密码错误") ∧
    (user.Handler.UpdatePassword Toy.lib [] 9 Toy.aliceStore none none
        (Toy.passwordContext 1 "secret" "fresh")).1.FirstByID 1 =
      some { Toy.alice with Password := "#fresh", UpdatedAt := 9 } :=
  have h (old : String) (hold : old ≠ "") :=
    UpdatePassword_checks_old_password Toy.lib [] 9 Toy.aliceStore
      (Toy.passwordContext 1 old "fresh") 1 Toy.alice old "fresh" (by decide) (by rfl)
      (by simp [Toy.passwordContext, Toy.bodyContext, Context.Set, Context.reset,
            user.bindPasswordData, user.decodeStruct, user.decodeFields,
            user.PasswordData.setField, user.decodeString, hold])
      (by rfl)
      (by simp [Toy.lib])
  ⟨(h "wrong" (by decide)).1 (by decide),
   ((h "secret" (by decide)).2.1 (by decide) "#fresh" (by rfl) (by decide)).2⟩

/-- C14, the claim at an empty new password. The user with id 1 has the hash of
`secret`, and the request gives `secret` as the old password, which verifies,
and the empty string as the new one. The binding refuses the empty string: the
answer is 400 with `无效的请求参数`, the table is as it was, and the stored hash
does not verify the new password. -/
theorem UpdatePassword_empty_new_password :
    Toy.lib.bcryptCompare Toy.alice.Password "secret" = true ∧
    user.Handler.UpdatePassword Toy.lib [] 9 Toy.aliceStore none none
        (Toy.passwordContext 1 "secret" "") =
      (Toy.aliceStore,
        response.Error (Toy.passwordContext 1 "secret" "") 400 "无效的请求参数") ∧
    (user.Handler.UpdatePassword Toy.lib [] 9 Toy.aliceStore none none
        (Toy.passwordContext 1 "secret" "")).1.FirstByID 1 = some Toy.alice ∧
    Toy.lib.bcryptCompare Toy.alice.Password "" = false := by
  refine ⟨by decide, by rfl, by rfl, by decide⟩

/-! ### Deleting a row -/

theorem Delete_rows {α : Type} (M : gorm.Model α) (t : gorm.Table α) (id : Int) (r : α)
    (h : r ∈ (t.Delete M id).rows) : r ∈ t.rows ∧ (M.ID r : Int) ≠ id := by
  simp only [gorm.Table.Delete, List.mem_filter, Bool.not_eq_true', decide_eq_false_iff_not] at h
  exact h

/-- C19, the code at the failing input. `Delete` of the supplier module on a table
with the one supplier of id 1 answers with the success envelope and returns the
empty table: the row is gone, not kept with a deletion time. That is so for
every table and model: after `db.Delete` no row of the table has the id, the
rows with another id are the ones that were there, and the categories, whose
handler counts the children first, lose the row in the same way. -/
theorem Delete_is_physical_removal :
    Toy.suppliers.rows = [Toy.acme] ∧
    supplier.Handler.Delete Toy.suppliers none "1" Toy.plainContext =
      ({ rows := [], seq := 1 }, response.Success Toy.plainContext (some crud.deleted)) ∧
    (∀ (α : Type) (M : gorm.Model α) (t : gorm.Table α) (id : Int),
      (∀ r ∈ (t.Delete M id).rows, (M.ID r : Int) ≠ id) ∧
      (t.Delete M id).rows = t.rows.filter (fun r => !decide ((M.ID r : Int) = id))) ∧
    (category.Handler.Delete
        { rows := [{ category.Category.zero with ID := 1, Name := "tools" }], seq := 1 }
        none none "1" Toy.plainContext).1.rows = [] := by
  refine ⟨rfl, by rfl, ?_, by rfl⟩
  intro α M t id
  exact ⟨fun r hr => (Delete_rows M t id r hr).2, rfl⟩

/-! ### Creating a row -/

theorem roundCents_zero : product.roundCents 0 = 0 := by
  have h : ⌊(2 : ℚ)⁻¹⌋ = 0 := by
    rw [Int.floor_eq_iff]
    norm_num
  simp [product.roundCents, h]

theorem Create_widget : product.Handler.Create Toy.lib Toy.products none 5
        (Toy.bodyContext Toy.widgetBody) =
      ({ rows := [Toy.widget], seq := 1 },
       response.Success (Toy.bodyContext Toy.widgetBody)
         (some (product.Product.toJson Toy.lib Toy.widget))) := by
  have hlen : "widget".length ≤ 200 ∧ "W1".length ≤ 50 := by decide
  simp [product.Handler.Create, crud.Create, Toy.bodyContext, Context.reset, Toy.widgetBody,
    user.decodeStruct, user.decodeFields, product.resource, product.Product.setField,
    user.decodeString, user.decodeUint, user.decodeBool, gorm.call, gorm.Table.Create,
    product.model, Toy.products, product.Product.zero, roundCents_zero, hlen, Toy.widget]

theorem Get_widget (c : Context) :
    product.Handler.Get Toy.lib { rows := [Toy.widget], seq := 1 } none "1" c =
      response.Success c (some (product.Product.toJson Toy.lib Toy.widget)) := by
  have ha : Atoi "1" = some 1 := by rfl
  simp [product.Handler.Get, crud.Get, ha, gorm.call, gorm.Table.First, product.resource,
    product.model, Toy.widget]

/-- C20, the code at the failing input. A request to create a product gives
`is_enabled` as `false`. `Create` accepts it, and the row it stores, which `Get`
returns for the new id, has `is_enabled` true: the field has the gorm tag
`default:true`, and gorm writes the default over a zero value, which `false`
is. The same holds for every module with the field: whatever the struct, the
row `db.Create` makes is enabled. -/
theorem Create_stores_enabled_for_false :
    Toy.widgetBody.get? "is_enabled" = some (Json.bool false) ∧
    product.Handler.Create Toy.lib Toy.products none 5 (Toy.bodyContext Toy.widgetBody) =
      ({ rows := [Toy.widget], seq := 1 },
       response.Success (Toy.bodyContext Toy.widgetBody)
         (some (product.Product.toJson Toy.lib Toy.widget))) ∧
    (∀ c : Context,
      product.Handler.Get Toy.lib
          (product.Handler.Create Toy.lib Toy.products none 5
            (Toy.bodyContext Toy.widgetBody)).1 none "1" c =
        response.Success c (some (product.Product.toJson Toy.lib Toy.widget))) ∧
    (product.Product.toJson Toy.lib Toy.widget).get? "is_enabled" = some (Json.bool true) ∧
    (∀ (seq : Nat) (now : Time),
      (∀ x, (supplier.model.newRow seq now x).IsEnabled = true) ∧
      (∀ x, (shop.model.newRow seq now x).IsEnabled = true) ∧
      (∀ x, (product.model.newRow seq now x).IsEnabled = true) ∧
      (∀ x, (category.model.newRow seq now x).IsEnabled = true) ∧
      (∀ x, (link.model.newRow seq now x).IsEnabled = true) ∧
      (∀ x, (attribute.model.newRow seq now x).IsEnabled = true)) := by
  refine ⟨by rfl, Create_widget, ?_, by rfl, ?_⟩
  · intro c
    rw [Create_widget]
    exact Get_widget c
  · intro seq now
    refine ⟨?_, ?_, ?_, ?_, ?_, ?_⟩
    · intro x
      cases h : x.IsEnabled <;> simp [supplier.model, h]
    · intro x
      cases h : x.IsEnabled <;> simp [shop.model, h]
    · intro x
      cases h : x.IsEnabled <;> simp [product.model, h]
    · intro x
      cases h : x.IsEnabled <;> simp [category.model, h]
    · intro x
      cases h : x.IsEnabled <;> simp [link.model, h]
    · intro x
      cases h : x.IsEnabled <;> simp [attribute.model, h]

/-! ### The system routes -/

/-- C17, the code at the failing input. The routes `GET /api/v1/health` and
`GET /api/v1/info` end in the two function literals of `system.RegisterRoutes`;
no route uses `HealthCheck` or `SystemInfo`. The literals answer 200 with a
document whose members are `status` and `time`, or `env`, `name` and `version`:
there is no `code` and no `message`. `HealthCheck` and `SystemInfo`, and the
handler of `GET /`, answer with the same documents as the data of the success
envelope. -/
theorem health_and_info_without_envelope (L : Lib) (now : Time) (mode : String) :
    main.routes.find? (fun rt => decide (rt.Path = "/api/v1/health")) =
      some { Method := "GET", Path := "/api/v1/health",
             Handlers := ["gin.Logger", "gin.Recovery", "middleware.CORSMiddleware",
                          "system.RegisterRoutes.func1"] } ∧
    main.routes.find? (fun rt => decide (rt.Path = "/api/v1/info")) =
      some { Method := "GET", Path := "/api/v1/info",
             Handlers := ["gin.Logger", "gin.Recovery", "middleware.CORSMiddleware",
                          "system.RegisterRoutes.func2"] } ∧
    (∀ rt ∈ main.routes,
      "system.HealthCheck" ∉ rt.Handlers ∧ "system.SystemInfo" ∉ rt.Handlers) ∧
    (system.RegisterRoutes.func1 L now).1 = 200 ∧
    (system.RegisterRoutes.func1 L now).2.keys = ["status", "time"] ∧
    (system.RegisterRoutes.func1 L now).2.get? "code" = none ∧
    (system.RegisterRoutes.func1 L now).2.get? "message" = none ∧
    (system.RegisterRoutes.func2 mode).1 = 200 ∧
    (system.RegisterRoutes.func2 mode).2.keys = ["env", "name", "version"] ∧
    (system.RegisterRoutes.func2 mode).2.get? "code" = none ∧
    (system.RegisterRoutes.func2 mode).2.get? "message" = none ∧
    (∀ c : Context, (system.HealthCheck L now c).sent = c.sent ++
      [(200, Json.obj [("code", Json.num 0), ("message", Json.str "success"),
        ("data", (system.RegisterRoutes.func1 L now).2)])]) ∧
    (∀ c : Context, (system.SystemInfo mode c).sent = c.sent ++
      [(200, Json.obj [("code", Json.num 0), ("message", Json.str "success"),
        ("data", (system.RegisterRoutes.func2 mode).2)])]) ∧
    (∀ c : Context, ∃ d, (main.setupRoutes.func1 c).sent = c.sent ++
      [(200, Json.obj [("code", Json.num 0), ("message", Json.str "success"),
        ("data", d)])]) := by
  refine ⟨by decide, by decide, by decide, rfl, rfl, ?_, ?_, rfl, rfl, ?_, ?_, ?_, ?_, ?_⟩
  · simp [system.RegisterRoutes.func1, Json.get?, List.lookup]
  · simp [system.RegisterRoutes.func1, Json.get?, List.lookup]
  · simp [system.RegisterRoutes.func2, Json.get?, List.lookup]
  · simp [system.RegisterRoutes.func2, Json.get?, List.lookup]
  · intro c
    simp [system.HealthCheck, system.RegisterRoutes.func1, Context.sent, response.Success,
      Context.JSON, Response.toJson]
  · intro c
    simp [system.SystemInfo, system.RegisterRoutes.func2, Context.sent, response.Success,
      Context.JSON, Response.toJson]
  · intro c
    refine ⟨Json.obj [("message", Json.str "ERP后端服务运行正常"),
      ("version", Json.str "1.0.0")], ?_⟩
    simp [main.setupRoutes.func1, Context.sent, response.Success, Context.JSON,
      Response.toJson]

/-! ### Deleting a category -/

theorem countChildren_pos (t : gorm.Table category.Category) (id : Int) :
    category.countChildren t id > 0 ↔
      ∃ r ∈ t.rows, ∃ p : Nat, r.ParentID = some p ∧ (p : Int) = id := by
  unfold category.countChildren
  rw [gt_iff_lt, List.length_pos_iff_exists_mem]
  constructor
  · rintro ⟨r, hr⟩
    rw [List.mem_filter] at hr
    refine ⟨r, hr.1, ?_⟩
    cases hp : r.ParentID with
    | none => simp [hp] at hr
    | some p =>
      simp only [hp, decide_eq_true_eq] at hr
      exact ⟨p, rfl, hr.2⟩
  · rintro ⟨r, hr, p, hp, hid⟩
    refine ⟨r, ?_⟩
    rw [List.mem_filter]
    refine ⟨hr, ?_⟩
    simp [hp, hid]

/-- The category `Delete` and its count of the children. Let the path id be the
number `id` and the storage work.
`Delete` of the category module answers 400 with `该分类下存在子分类，无法删除`
and returns the table as it was exactly when some row of the table, the
category itself included, has `parent_id = id`; the count query fixes this
whatever the delete statement would do. When no row has, the answer is the
success envelope and the table is the one without the rows of that id, every
other row as it was. -/
theorem category_Delete_refused_iff (t : gorm.Table category.Category) (idParam : String)
    (id : Int) (c : Context) (ha : Atoi idParam = some id) :
    ((∃ r ∈ t.rows, ∃ p : Nat, r.ParentID = some p ∧ (p : Int) = id) →
      ∀ e2 : Option String, category.Handler.Delete t none e2 idParam c =
        (t, response.Error c 400 "该分类下存在子分类，无法删除")) ∧
    ((¬ ∃ r ∈ t.rows, ∃ p : Nat, r.ParentID = some p ∧ (p : Int) = id) →
      category.Handler.Delete t none none idParam c =
        (t.Delete category.model id, response.Success c (some crud.deleted)) ∧
      (∀ r ∈ (category.Handler.Delete t none none idParam c).1.rows, (r.ID : Int) ≠ id) ∧
      (∀ r ∈ t.rows, (r.ID : Int) ≠ id →
        r ∈ (category.Handler.Delete t none none idParam c).1.rows)) ∧
    ((category.Handler.Delete t none none idParam c).2 =
        response.Error c 400 "该分类下存在子分类，无法删除" ↔
      ∃ r ∈ t.rows, ∃ p : Nat, r.ParentID = some p ∧ (p : Int) = id) := by
  have hyes : (∃ r ∈ t.rows, ∃ p : Nat, r.ParentID = some p ∧ (p : Int) = id) →
      ∀ e2 : Option String, category.Handler.Delete t none e2 idParam c =
        (t, response.Error c 400 "该分类下存在子分类，无法删除") := by
    intro hex e2
    have hpos := (countChildren_pos t id).mpr hex
    simp only [category.Handler.Delete, ha, gorm.call, if_pos hpos]
  have hno : (¬ ∃ r ∈ t.rows, ∃ p : Nat, r.ParentID = some p ∧ (p : Int) = id) →
      category.Handler.Delete t none none idParam c =
        (t.Delete category.model id, response.Success c (some crud.deleted)) := by
    intro hex
    have hpos : ¬ category.countChildren t id > 0 := fun h => hex ((countChildren_pos t id).mp h)
    simp only [category.Handler.Delete, ha, gorm.call, if_neg hpos]
  refine ⟨hyes, ?_, ?_⟩
  · intro hex
    rw [hno hex]
    refine ⟨rfl, fun r hr => (Delete_rows category.model t id r hr).2, ?_⟩
    intro r hr hid
    simp only [gorm.Table.Delete, List.mem_filter, Bool.not_eq_true', decide_eq_false_iff_not]
    exact ⟨hr, hid⟩
  · constructor
    · intro h
      by_contra hex
      rw [hno hex] at h
      have hw := congrArg Context.Written h
      exact Error_ne_success c 400 _ _ (by decide) hw.symm
    · intro hex
      rw [hyes hex none]

theorem category_Delete_refused_iff_witness :
    category.Handler.Delete Toy.categories none none "1" Toy.plainContext =
      (Toy.categories,
        response.Error Toy.plainContext 400 "该分类下存在子分类，无法删除") ∧
    (category.Handler.Delete Toy.categories none none "2" Toy.plainContext).1.rows =
      [Toy.tools] ∧
    (category.Handler.Delete
      (category.Handler.Delete Toy.categories none none "2" Toy.plainContext).1
      none none "1" Toy.plainContext).1.rows = [] :=
  ⟨(category_Delete_refused_iff Toy.categories "1" 1 Toy.plainContext (by rfl)).1
      ⟨Toy.saws, by simp [Toy.categories], 1, rfl, rfl⟩ none,
    by rfl, by rfl⟩

/-- A category that is its own parent. The table holds one
category, of id 1 and with `parent_id` 1, so no other row has `parent_id = 1`.
`Delete` for the id 1 is refused with 400 and the conflict message, and the
table is as it was. -/
theorem category_Delete_own_parent :
    (∀ r ∈ [Toy.loop], r.ID ≠ 1 → r.ParentID ≠ some 1) ∧
    category.Handler.Delete { rows := [Toy.loop], seq := 1 } none none "1" Toy.plainContext =
      ({ rows := [Toy.loop], seq := 1 },
        response.Error Toy.plainContext 400 "该分类下存在子分类，无法删除") := by
  refine ⟨by decide, by rfl⟩

/-! ### Listing with filters -/

theorem conditions_spec {α : Type} (L : Lib) (query : List (String × String))
    (filters : List (crud.Filter α)) :
    ((∀ f ∈ filters, crud.Query query f.key = "" ∨
        (f.cond L (crud.Query query f.key)).isSome = true) →
      ∃ conds, crud.conditions L query filters = some conds ∧
        ∀ r, conds.all (fun cond => cond r) =
          filters.all (fun f => decide (crud.Query query f.key = "") ||
            match f.cond L (crud.Query query f.key) with
            | some cond => cond r
            | none => false)) ∧
    ((∃ f ∈ filters, crud.Query query f.key ≠ "" ∧
        f.cond L (crud.Query query f.key) = none) →
      crud.conditions L query filters = none) := by
  induction filters with
  | nil =>
    refine ⟨fun _ => ⟨[], rfl, fun r => rfl⟩, ?_⟩
    rintro ⟨f, hf, -⟩
    simp at hf
  | cons f rest ih =>
    constructor
    · intro hacc
      obtain ⟨conds, hc, hall⟩ := ih.1 (fun g hg => hacc g (List.mem_cons_of_mem _ hg))
      by_cases hq : crud.Query query f.key = ""
      · refine ⟨conds, ?_, ?_⟩
        · simp only [crud.conditions, hq, if_true]
          exact hc
        · intro r
          simp only [List.all_cons, hq, decide_True, Bool.true_or, Bool.true_and]
          exact hall r
      · rcases hacc f (List.mem_cons_self _ _) with h | h
        · exact absurd h hq
        · cases hcond : f.cond L (crud.Query query f.key) with
          | none => simp [hcond] at h
          | some cond =>
            refine ⟨cond :: conds, ?_, ?_⟩
            · simp only [crud.conditions, if_neg hq, hcond, hc]
            · intro r
              simp only [List.all_cons, hq, decide_False, Bool.false_or, hall r]
              rw [hcond]
    · rintro ⟨g, hg, hgq, hgc⟩
      rcases List.mem_cons.mp hg with rfl | hrest
      · simp only [crud.conditions, if_neg hgq, hgc]
      · have hnone := ih.2 ⟨g, hrest, hgq, hgc⟩
        by_cases hq : crud.Query query f.key = ""
        · simp only [crud.conditions, hq, if_true]
          exact hnone
        · simp only [crud.conditions, if_neg hq, hnone]
          cases f.cond L (crud.Query query f.key) <;> rfl

theorem uintCond_matches {α : Type} (column : α → Nat) (L : Lib) (s : String) (r : α) :
    (decide (s = "") ||
      match bind.uintCond column L s with
      | some cond => cond r
      | none => false) = decide (s = "" ∨ L.sqlInt s = some (column r : Int)) := by
  unfold bind.uintCond
  by_cases hs : s = "" <;> cases h : L.sqlInt s <;> simp [hs, h, eq_comm]

theorem intCond_matches {α : Type} (column : α → Int) (L : Lib) (s : String) (r : α) :
    (decide (s = "") ||
      match bind.intCond column L s with
      | some cond => cond r
      | none => false) = decide (s = "" ∨ L.sqlInt s = some (column r)) := by
  unfold bind.intCond
  by_cases hs : s = "" <;> cases h : L.sqlInt s <;> simp [hs, h, eq_comm]

theorem boolCond_matches {α : Type} (column : α → Bool) (L : Lib) (s : String) (r : α) :
    (decide (s = "") ||
      match bind.boolCond column L s with
      | some cond => cond r
      | none => false) = decide (s = "" ∨ L.sqlBool s = some (column r)) := by
  unfold bind.boolCond
  by_cases hs : s = ""
  · simp [hs]
  · cases h : L.sqlBool s with
    | none => simp [hs]
    | some b => cases b <;> cases hc : column r <;> simp [hs, hc]

theorem conditions_congr {α : Type} (L : Lib) (q1 q2 : List (String × String))
    (filters : List (crud.Filter α))
    (h : ∀ f ∈ filters, crud.Query q1 f.key = crud.Query q2 f.key) :
    crud.conditions L q1 filters = crud.conditions L q2 filters := by
  induction filters with
  | nil => rfl
  | cons f rest ih =>
    simp only [crud.conditions, h f (List.mem_cons_self _ _),
      ih (fun g hg => h g (List.mem_cons_of_mem _ hg))]

/-- The list of the products under its filters. Let the storage work. If it accepts the text of every filter
that the query string gives with a value that is not empty (a number for
`supplier_id`, `category_id` and `type`, a boolean for `is_enabled`), the list
handler of the products answers with the success envelope over exactly the rows
that agree with every such filter, in the order of the table; a filter that is
absent or empty constrains nothing. If the storage refuses the text of one of
these filters, the answer is 500 with `获取商品列表失败`. Two query strings that
agree on the four filters get the same answer. -/
theorem product_List_filters (L : Lib) (t : gorm.Table product.Product)
    (query : List (String × String)) (c : Context) :
    ((crud.Query query "supplier_id" = "" ∨
        (L.sqlInt (crud.Query query "supplier_id")).isSome = true) →
      (crud.Query query "category_id" = "" ∨
        (L.sqlInt (crud.Query query "category_id")).isSome = true) →
      (crud.Query query "type" = "" ∨ (L.sqlInt (crud.Query query "type")).isSome = true) →
      (crud.Query query "is_enabled" = "" ∨
        (L.sqlBool (crud.Query query "is_enabled")).isSome = true) →
      product.Handler.List L t none query c =
        response.Success c (some (Json.arr ((t.rows.filter (fun r => decide (
          (crud.Query query "supplier_id" = "" ∨
            L.sqlInt (crud.Query query "supplier_id") = some (r.SupplierID : Int)) ∧
          (crud.Query query "category_id" = "" ∨
            L.sqlInt (crud.Query query "category_id") = some (r.CategoryID : Int)) ∧
          (crud.Query query "type" = "" ∨
            L.sqlInt (crud.Query query "type") = some r.Type_) ∧
          (crud.Query query "is_enabled" = "" ∨
            L.sqlBool (crud.Query query "is_enabled") = some r.IsEnabled)))).map
          (product.Product.toJson L))))) ∧
    (((crud.Query query "supplier_id" ≠ "" ∧
        L.sqlInt (crud.Query query "supplier_id") = none) ∨
      (crud.Query query "category_id" ≠ "" ∧
        L.sqlInt (crud.Query query "category_id") = none) ∨
      (crud.Query query "type" ≠ "" ∧ L.sqlInt (crud.Query query "type") = none) ∨
      (crud.Query query "is_enabled" ≠ "" ∧
        L.sqlBool (crud.Query query "is_enabled") = none)) →
      ∀ e : Option String,
        product.Handler.List L t e query c = response.Error c 500 "获取商品列表失败") ∧
    (∀ (e : Option String) (other : List (String × String)),
      (∀ k ∈ ["supplier_id", "category_id", "type", "is_enabled"],
        crud.Query other k = crud.Query query k) →
      product.Handler.List L t e other c = product.Handler.List L t e query c) := by
  refine ⟨?_, ?_, ?_⟩
  · intro h1 h2 h3 h4
    have hacc : ∀ f ∈ product.resource.filters, crud.Query query f.key = "" ∨
        (f.cond L (crud.Query query f.key)).isSome = true := by
      intro f hf
      simp only [product.resource, List.mem_cons, List.mem_singleton, List.not_mem_nil,
        or_false] at hf
      rcases hf with rfl | rfl | rfl | rfl
      · simpa [bind.uintCond] using h1
      · simpa [bind.uintCond] using h2
      · simpa [bind.intCond] using h3
      · simpa [bind.boolCond] using h4
    obtain ⟨conds, hc, hall⟩ := (conditions_spec L query product.resource.filters).1 hacc
    simp only [product.Handler.List, crud.List, crud.selected, hc, gorm.call, gorm.Table.Find]
    congr 4
    apply List.filter_congr
    intro r _
    rw [hall r]
    simp only [product.resource, List.all_cons, List.all_nil, Bool.and_true,
      uintCond_matches, intCond_matches, boolCond_matches, Bool.decide_and]
  · intro href e
    have hnone : crud.conditions L query product.resource.filters = none := by
      apply (conditions_spec L query product.resource.filters).2
      rcases href with h | h | h | h
      · exact ⟨_, by simp [product.resource]; exact Or.inl rfl, h.1,
          by simp [bind.uintCond, h.2]⟩
      · exact ⟨_, by simp [product.resource]; exact Or.inr (Or.inl rfl), h.1,
          by simp [bind.uintCond, h.2]⟩
      · exact ⟨_, by simp [product.resource]; exact Or.inr (Or.inr (Or.inl rfl)), h.1,
          by simp [bind.intCond, h.2]⟩
      · exact ⟨_, by simp [product.resource]; exact Or.inr (Or.inr (Or.inr rfl)), h.1,
          by simp [bind.boolCond, h.2]⟩
    simp only [product.Handler.List, crud.List, crud.selected, hnone]
    rfl
  · intro e other hk
    have hcongr : crud.conditions L other product.resource.filters =
        crud.conditions L query product.resource.filters := by
      apply conditions_congr
      intro f hf
      simp only [product.resource, List.mem_cons, List.mem_singleton, List.not_mem_nil,
        or_false] at hf
      rcases hf with rfl | rfl | rfl | rfl
      · exact hk "supplier_id" (by simp)
      · exact hk "category_id" (by simp)
      · exact hk "type" (by simp)
      · exact hk "is_enabled" (by simp)
    simp only [product.Handler.List, crud.List, crud.selected, hcongr]

theorem product_List_filters_witness :
    product.Handler.List Toy.lib Toy.threeProducts none
        [("category_id", "1"), ("page", "2")] Toy.plainContext =
      response.Success Toy.plainContext (some (Json.arr
        ([Toy.item 1 1 "A", Toy.item 2 1 "B"].map (product.Product.toJson Toy.lib)))) :=
  ((product_List_filters Toy.lib Toy.threeProducts [("category_id", "1"), ("page", "2")]
    Toy.plainContext).1 (Or.inl rfl) (Or.inr (by rfl)) (Or.inl rfl) (Or.inl rfl)).trans
    (by rfl)

/-- A filter value that is no number. The query string gives
`supplier_id=abc`. No product has that supplier, so the rows that match are
none, but the answer is not the empty list: the storage refuses to compare the
column with the text and the handler answers 500 with `获取商品列表失败`. -/
theorem product_List_refused_filter :
    product.Handler.List Toy.lib Toy.threeProducts none [("supplier_id", "abc")]
        Toy.plainContext =
      response.Error Toy.plainContext 500 "获取商品列表失败" ∧
    Toy.lib.sqlInt "abc" = none := by
  refine ⟨by rfl, by rfl⟩

/-! ### Stock and price -/

theorem map_unmatched {α : Type} (rows : List α) (p : α → Prop) [DecidablePred p]
    (f : α → α) (h : ∀ r ∈ rows, ¬ p r) :
    rows.map (fun r => if p r then f r else r) = rows := by
  induction rows with
  | nil => rfl
  | cons a rest ih =>
    simp only [List.map_cons, if_neg (h a (List.mem_cons_self _ _))]
    rw [ih (fun r hr => h r (List.mem_cons_of_mem _ hr))]

theorem updateStock_no_row (t : gorm.Table product.Product) (now : Time) (id : Int)
    (stock : Int) (h : ∀ r ∈ t.rows, (r.ID : Int) ≠ id) :
    product.updateStock t now id stock = t := by
  unfold product.updateStock
  rw [map_unmatched t.rows (fun r => (r.ID : Int) = id) _ h]

theorem updatePrice_no_row (t : gorm.Table product.Product) (now : Time) (id : Int)
    (price : ℚ) (h : ∀ r ∈ t.rows, (r.ID : Int) ≠ id) :
    product.updatePrice t now id price = some t := by
  unfold product.updatePrice
  have hany : ¬ (t.rows.any (fun r => decide ((r.ID : Int) = id)) = true) := by
    simp only [List.any_eq_true, decide_eq_true_eq, not_exists, not_and]
    exact h
  rw [if_neg (fun hc => hany hc.1), map_unmatched t.rows (fun r => (r.ID : Int) = id) _ h]

/-- C29. Let the path id be a number that is the id of no product. For a body
that binds, `UpdateStock` and `UpdatePrice` answer with the success envelope
when the storage works, and return the table as it was: the update statement
matches no row, which is no error. Whatever the storage does, the table is
returned as it was and the answer is the success envelope or the 500 of the
handler, never 404. -/
theorem UpdateStock_no_row_is_success (t : gorm.Table product.Product) (now : Time)
    (idParam : String) (id : Int) (c : Context) (ha : Atoi idParam = some id)
    (hrow : ∀ r ∈ t.rows, (r.ID : Int) ≠ id) :
    (∀ stock, product.bindStockUpdate c.Body = some stock →
      product.Handler.UpdateStock t none now idParam c =
        (t, response.Success c (some product.stockUpdated)) ∧
      ∀ e : Option String,
        (product.Handler.UpdateStock t e now idParam c).1 = t ∧
        ((product.Handler.UpdateStock t e now idParam c).2 =
            response.Success c (some product.stockUpdated) ∨
          (product.Handler.UpdateStock t e now idParam c).2 =
            response.Error c 500 "更新库存失败")) ∧
    (∀ price, product.bindPriceUpdate c.Body = some price →
      product.Handler.UpdatePrice t none now idParam c =
        (t, response.Success c (some product.priceUpdated)) ∧
      ∀ e : Option String,
        (product.Handler.UpdatePrice t e now idParam c).1 = t ∧
        ((product.Handler.UpdatePrice t e now idParam c).2 =
            response.Success c (some product.priceUpdated) ∨
          (product.Handler.UpdatePrice t e now idParam c).2 =
            response.Error c 500 "更新价格失败")) := by
  constructor
  · intro stock hb
    have hs : ∀ e : Option String, product.Handler.UpdateStock t e now idParam c =
        match e with
        | none => (t, response.Success c (some product.stockUpdated))
        | some _ => (t, response.Error c 500 "更新库存失败") := by
      intro e
      cases e <;>
        simp only [product.Handler.UpdateStock, ha, hb, gorm.call,
          updateStock_no_row t now id stock hrow]
    refine ⟨hs none, fun e => ?_⟩
    rw [hs e]
    cases e
    · exact ⟨rfl, Or.inl rfl⟩
    · exact ⟨rfl, Or.inr rfl⟩
  · intro price hb
    have hs : ∀ e : Option String, product.Handler.UpdatePrice t e now idParam c =
        match e with
        | none => (t, response.Success c (some product.priceUpdated))
        | some _ => (t, response.Error c 500 "更新价格失败") := by
      intro e
      cases e <;>
        simp only [product.Handler.UpdatePrice, ha, hb, gorm.call,
          updatePrice_no_row t now id price hrow]
    refine ⟨hs none, fun e => ?_⟩
    rw [hs e]
    cases e
    · exact ⟨rfl, Or.inl rfl⟩
    · exact ⟨rfl, Or.inr rfl⟩

theorem UpdateStock_no_row_is_success_witness :
    product.Handler.UpdateStock Toy.threeProducts none 9 "7"
        (Toy.bodyContext (Json.obj [("stock", Json.num 5)])) =
      (Toy.threeProducts,
        response.Success (Toy.bodyContext (Json.obj [("stock", Json.num 5)]))
          (some product.stockUpdated)) :=
  ((UpdateStock_no_row_is_success Toy.threeProducts 9 "7" 7
    (Toy.bodyContext (Json.obj [("stock", Json.num 5)])) (by rfl) (by decide)).1 5
    (by rfl)).1

/-- C27, the code at the failing input. A request sets the stock of the product
1 to zero, another its price to zero. Both are answered with 400 and
`无效的请求参数` and the table is as it was: the field of the bound struct has
the tag `binding:"required"`, which refuses the zero value, so no body binds to
a stock or a price of zero. A stock of -5 is accepted and written to the row
of the product, the other rows and fields as they were. -/
theorem UpdateStock_rejects_zero :
    product.Handler.UpdateStock Toy.threeProducts none 9 "1"
        (Toy.bodyContext (Json.obj [("stock", Json.num 0)])) =
      (Toy.threeProducts,
        response.Error (Toy.bodyContext (Json.obj [("stock", Json.num 0)])) 400
          "无效的请求参数") ∧
    product.Handler.UpdatePrice Toy.threeProducts none 9 "1"
        (Toy.bodyContext (Json.obj [("price", Json.num 0)])) =
      (Toy.threeProducts,
        response.Error (Toy.bodyContext (Json.obj [("price", Json.num 0)])) 400
          "无效的请求参数") ∧
    (∀ body, product.bindStockUpdate body ≠ some 0) ∧
    (∀ body, product.bindPriceUpdate body ≠ some 0) ∧
    (product.Handler.UpdateStock Toy.threeProducts none 9 "1"
        (Toy.bodyContext (Json.obj [("stock", Json.num (-5))]))).1.rows =
      [{ Toy.item 1 1 "A" with Stock := -5, UpdatedAt := 9 }, Toy.item 2 1 "B", Toy.item 3 2 "C"] := by
  refine ⟨by rfl, ?_, ?_, ?_, by rfl⟩
  · simp [product.Handler.UpdatePrice, product.bindPriceUpdate, Toy.bodyContext,
      Context.reset, user.decodeStruct, user.decodeFields, product.priceSetField,
      bind.decodeFloat]
    rfl
  · intro body
    unfold product.bindStockUpdate
    cases body with
    | none => simp
    | some doc =>
      cases hd : user.decodeStruct product.stockSetField doc 0 with
      | none => simp [hd]
      | some stock =>
        by_cases h : stock = 0 <;> simp [hd, h]
  · intro body
    unfold product.bindPriceUpdate
    cases body with
    | none => simp
    | some doc =>
      cases hd : user.decodeStruct product.priceSetField doc 0 with
      | none => simp [hd]
      | some price =>
        by_cases h : price = 0 <;> simp [hd, h]

/-! ### Toggling the status -/

theorem First_some {α : Type} (M : gorm.Model α) (t : gorm.Table α) (id : Nat) (x : α)
    (h : t.First M id = some x) : x ∈ t.rows ∧ M.ID x = id := by
  unfold gorm.Table.First at h
  refine ⟨List.mem_of_find?_eq_some h, ?_⟩
  have := List.find?_some h
  simp only [decide_eq_true_eq] at this
  exact_mod_cast this

theorem First_replaced {α : Type} (M : gorm.Model α) (rows : List α) (id : Nat) (row : α)
    (hrow : M.ID row = id) (hex : ∃ v ∈ rows, M.ID v = id) :
    (rows.map (fun v => if M.ID v = id then row else v)).find?
      (fun r => decide ((M.ID r : Int) = (id : Int))) = some row := by
  induction rows with
  | nil => simp at hex
  | cons a rest ih =>
    by_cases ha : M.ID a = id
    · simp [List.find?, ha, hrow]
    · have hex1 : ∃ v ∈ rest, M.ID v = id := by
        obtain ⟨v, hv, hvid⟩ := hex
        rcases List.mem_cons.mp hv with rfl | hv1
        · exact absurd hvid ha
        · exact ⟨v, hv1, hvid⟩
      have ha1 : ¬ ((M.ID a : Int) = (id : Int)) := by exact_mod_cast ha
      simp only [List.map_cons, if_neg ha, List.find?, ha1, decide_False]
      exact ih hex1

theorem Save_update {α : Type} (M : gorm.Model α) (t : gorm.Table α) (now : Time) (x row : α)
    (hid : M.ID x ≠ 0) (hex : ∃ v ∈ t.rows, M.ID v = M.ID x)
    (hcol : M.column (M.touch now x) = some row)
    (hfree : ∀ v ∈ t.rows, M.ID v ≠ M.ID x → M.collides v row = false) :
    t.Save M now x =
      ({ rows := t.rows.map (fun v => if M.ID v = M.ID x then row else v), seq := t.seq },
        some (M.touch now x)) := by
  have hall : ¬ (t.rows.all (fun v => decide (M.ID v ≠ M.ID x)) = true) := by
    obtain ⟨v, hv, hvid⟩ := hex
    simp only [List.all_eq_true, decide_eq_true_eq, not_forall]
    exact ⟨v, hv, fun h => h hvid⟩
  have hany : ¬ (t.rows.any (fun v => decide (M.ID v ≠ M.ID x) && M.collides v row) = true) := by
    simp only [List.any_eq_true, Bool.and_eq_true, decide_eq_true_eq, not_exists, not_and]
    intro v hv hne
    rw [hfree v hv hne]
    simp
  unfold gorm.Table.Save
  rw [if_neg hid, if_neg hall]
  simp only [hcol, if_neg hany]

theorem ToggleStatus_saves {α : Type} (L : Lib) (R : crud.Resource α) (negate : α → α)
    (t : gorm.Table α) (now : Time) (idParam : String) (id : Nat) (x : α) (c : Context)
    (ha : Atoi idParam = some (id : Int)) (h0 : id ≠ 0)
    (hx : t.First R.model id = some x)
    (hneg : R.model.ID (negate x) = R.model.ID x)
    (hcol : R.model.column (R.model.touch now (negate x)) =
      some (R.model.touch now (negate x)))
    (hfree : ∀ v ∈ t.rows, R.model.ID v ≠ id →
      R.model.collides v (R.model.touch now (negate x)) = false) :
    crud.ToggleStatus L R negate t none none now idParam c =
      ({ rows := t.rows.map (fun v =>
           if R.model.ID v = id then R.model.touch now (negate x) else v),
         seq := t.seq },
        response.Success c (some (R.toJson L (R.model.touch now (negate x))))) := by
  obtain ⟨hmem, hxid⟩ := First_some R.model t id x hx
  have hsave := Save_update R.model t now (negate x) _ (by rw [hneg, hxid]; exact h0)
    ⟨x, hmem, hneg.symm⟩ hcol (by
      intro v hv hne
      rw [hneg, hxid] at hne
      exact hfree v hv hne)
  rw [hneg, hxid] at hsave
  simp only [crud.ToggleStatus, ha, hx, gorm.call, hsave]

theorem ToggleStatus_absent {α : Type} (L : Lib) (R : crud.Resource α) (negate : α → α)
    (t : gorm.Table α) (e1 e2 : Option String) (now : Time) (idParam : String) (id : Int)
    (c : Context) (ha : Atoi idParam = some id) (hx : t.First R.model id = none) :
    crud.ToggleStatus L R negate t e1 e2 now idParam c =
      (t, response.Error c 404 R.notFound) := by
  cases e1 <;> simp only [crud.ToggleStatus, ha, hx, gorm.call]

theorem replaced_twice {α : Type} (M : gorm.Model α) (rows : List α) (id : Nat) (row1 row2 : α)
    (h1 : M.ID row1 = id) :
    (rows.map (fun v => if M.ID v = id then row1 else v)).map
        (fun v => if M.ID v = id then row2 else v) =
      rows.map (fun v => if M.ID v = id then row2 else v) := by
  rw [List.map_map]
  apply List.map_congr_left
  intro v _
  by_cases hv : M.ID v = id
  · simp [hv, h1]
  · simp [hv]

/-- The shared `ToggleStatus` on a stored row. Let the path id be the id, not
zero, of a row `x` of the table, the
storage work, and the toggled row fit its columns and break no unique index.
One `ToggleStatus` answers with the success envelope and replaces the row by
`x` with `IsEnabled` negated and `UpdatedAt` set to the time of the call; every
other row is as it was. A second call replaces it by `x` with `IsEnabled` as at
the start and `UpdatedAt` set to the time of the second call. When no row has
the id, the answer is 404 with the message of the module and the table is
returned as it was, whatever the storage does. The handler is the same for the
six modules with the field; for each of them the last six parts say what the
toggled and the twice toggled struct are. -/
theorem ToggleStatus_negates_is_enabled {α : Type} (L : Lib) (R : crud.Resource α)
    (negate : α → α) (t : gorm.Table α) (now1 now2 : Time) (idParam : String) (id : Nat)
    (x : α) (c : Context)
    (ha : Atoi idParam = some (id : Int)) (h0 : id ≠ 0)
    (hx : t.First R.model id = some x)
    (hneg : ∀ y, R.model.ID (negate y) = R.model.ID y)
    (htouch : ∀ now y, R.model.ID (R.model.touch now y) = R.model.ID y)
    (hcol1 : R.model.column (R.model.touch now1 (negate x)) =
      some (R.model.touch now1 (negate x)))
    (hcol2 : R.model.column (R.model.touch now2 (negate (R.model.touch now1 (negate x)))) =
      some (R.model.touch now2 (negate (R.model.touch now1 (negate x)))))
    (hfree1 : ∀ v ∈ t.rows, R.model.ID v ≠ id →
      R.model.collides v (R.model.touch now1 (negate x)) = false)
    (hfree2 : ∀ v ∈ t.rows, R.model.ID v ≠ id →
      R.model.collides v
        (R.model.touch now2 (negate (R.model.touch now1 (negate x)))) = false) :
    crud.ToggleStatus L R negate t none none now1 idParam c =
      ({ rows := t.rows.map (fun v =>
           if R.model.ID v = id then R.model.touch now1 (negate x) else v),
         seq := t.seq },
        response.Success c (some (R.toJson L (R.model.touch now1 (negate x))))) ∧
    (∀ v ∈ t.rows, R.model.ID v ≠ id →
      v ∈ (crud.ToggleStatus L R negate t none none now1 idParam c).1.rows) ∧
    (crud.ToggleStatus L R negate t none none now1 idParam c).1.rows.length =
      t.rows.length ∧
    crud.ToggleStatus L R negate
        (crud.ToggleStatus L R negate t none none now1 idParam c).1 none none now2 idParam c =
      ({ rows := t.rows.map (fun v =>
           if R.model.ID v = id then
             R.model.touch now2 (negate (R.model.touch now1 (negate x)))
           else v),
         seq := t.seq },
        response.Success c (some (R.toJson L
          (R.model.touch now2 (negate (R.model.touch now1 (negate x))))))) ∧
    (∀ (t0 : gorm.Table α) (e1 e2 : Option String) (other : String) (id0 : Int),
      Atoi other = some id0 → t0.First R.model id0 = none →
      crud.ToggleStatus L R negate t0 e1 e2 now1 other c =
        (t0, response.Error c 404 R.notFound)) ∧
    (∀ (y : supplier.Supplier) (n1 n2 : Time),
      supplier.model.touch n1 { y with IsEnabled := !y.IsEnabled } =
        { y with IsEnabled := !y.IsEnabled, UpdatedAt := n1 } ∧
      supplier.model.touch n2 { supplier.model.touch n1 { y with IsEnabled := !y.IsEnabled }
          with IsEnabled := !(!y.IsEnabled) } = { y with UpdatedAt := n2 }) ∧
    (∀ (y : shop.Shop) (n1 n2 : Time),
      shop.model.touch n1 { y with IsEnabled := !y.IsEnabled } =
        { y with IsEnabled := !y.IsEnabled, UpdatedAt := n1 } ∧
      shop.model.touch n2 { shop.model.touch n1 { y with IsEnabled := !y.IsEnabled }
          with IsEnabled := !(!y.IsEnabled) } = { y with UpdatedAt := n2 }) ∧
    (∀ (y : product.Product) (n1 n2 : Time),
      product.model.touch n1 { y with IsEnabled := !y.IsEnabled } =
        { y with IsEnabled := !y.IsEnabled, UpdatedAt := n1 } ∧
      product.model.touch n2 { product.model.touch n1 { y with IsEnabled := !y.IsEnabled }
          with IsEnabled := !(!y.IsEnabled) } = { y with UpdatedAt := n2 }) ∧
    (∀ (y : category.Category) (n1 n2 : Time),
      category.model.touch n1 { y with IsEnabled := !y.IsEnabled } =
        { y with IsEnabled := !y.IsEnabled, UpdatedAt := n1 } ∧
      category.model.touch n2 { category.model.touch n1 { y with IsEnabled := !y.IsEnabled }
          with IsEnabled := !(!y.IsEnabled) } = { y with UpdatedAt := n2 }) ∧
    (∀ (y : link.Link) (n1 n2 : Time),
      link.model.touch n1 { y with IsEnabled := !y.IsEnabled } =
        { y with IsEnabled := !y.IsEnabled, UpdatedAt := n1 } ∧
      link.model.touch n2 { link.model.touch n1 { y with IsEnabled := !y.IsEnabled }
          with IsEnabled := !(!y.IsEnabled) } = { y with UpdatedAt := n2 }) ∧
    (∀ (y : attribute.Attribute) (n1 n2 : Time),
      attribute.model.touch n1 { y with IsEnabled := !y.IsEnabled } =
        { y with IsEnabled := !y.IsEnabled, UpdatedAt := n1 } ∧
      attribute.model.touch n2 { attribute.model.touch n1 { y with IsEnabled := !y.IsEnabled }
          with IsEnabled := !(!y.IsEnabled) } = { y with UpdatedAt := n2 }) := by
  obtain ⟨hmem, hxid⟩ := First_some R.model t id x hx
  have hrow1 : R.model.ID (R.model.touch now1 (negate x)) = id := by
    rw [htouch, hneg, hxid]
  have hfirst := ToggleStatus_saves L R negate t now1 idParam id x c ha h0 hx (hneg x) hcol1
    hfree1
  have hx1 : gorm.Table.First R.model
      { rows := t.rows.map (fun v =>
          if R.model.ID v = id then R.model.touch now1 (negate x) else v),
        seq := t.seq } id = some (R.model.touch now1 (negate x)) :=
    First_replaced R.model t.rows id _ hrow1 ⟨x, hmem, hxid⟩
  have hkeep : ∀ v ∈ t.rows, R.model.ID v ≠ id →
      v ∈ t.rows.map (fun v => if R.model.ID v = id then R.model.touch now1 (negate x)
        else v) := by
    intro v hv hne
    rw [List.mem_map]
    exact ⟨v, hv, by rw [if_neg hne]⟩
  refine ⟨hfirst, ?_, ?_, ?_, ?_, ?_, ?_, ?_, ?_, ?_, ?_⟩
  · rw [hfirst]
    exact hkeep
  · rw [hfirst]
    simp
  · rw [hfirst]
    have hsecond := ToggleStatus_saves L R negate _ now2 idParam id _ c ha h0 hx1
      (hneg _) hcol2 (by
        intro v hv hne
        rw [List.mem_map] at hv
        obtain ⟨w, hw, hwv⟩ := hv
        by_cases hwid : R.model.ID w = id
        · rw [if_pos hwid] at hwv
          rw [← hwv] at hne
          exact absurd hrow1 hne
        · rw [if_neg hwid] at hwv
          rw [← hwv]
          exact hfree2 w hw hwid)
    rw [hsecond, replaced_twice R.model t.rows id _ _ hrow1]
  · intro t0 e1 e2 other id0 ha0 hx0
    exact ToggleStatus_absent L R negate t0 e1 e2 now1 other id0 c ha0 hx0
  all_goals
    intro y n1 n2
    cases y
    simp [supplier.model, shop.model, product.model, category.model, link.model,
      attribute.model]

theorem ToggleStatus_negates_is_enabled_witness :
    (supplier.Handler.ToggleStatus Toy.lib Toy.suppliers none none 5 "1"
        Toy.plainContext).1.rows = [{ Toy.acme with IsEnabled := false, UpdatedAt := 5 }] ∧
    (supplier.Handler.ToggleStatus Toy.lib
        (supplier.Handler.ToggleStatus Toy.lib Toy.suppliers none none 5 "1"
          Toy.plainContext).1 none none 8 "1" Toy.plainContext).1.rows =
      [{ Toy.acme with UpdatedAt := 8 }] := by
  have h := ToggleStatus_negates_is_enabled Toy.lib supplier.resource
    (fun x => { x with IsEnabled := !x.IsEnabled }) Toy.suppliers 5 8 "1" 1 Toy.acme
    Toy.plainContext (by rfl) (by decide) (by rfl) (fun _ => rfl) (fun _ _ => rfl) (by rfl)
    (by rfl) (fun _ _ _ => rfl) (fun _ _ _ => rfl)
  constructor
  · unfold supplier.Handler.ToggleStatus
    rw [h.1]
    rfl
  · unfold supplier.Handler.ToggleStatus
    rw [h.2.2.2.1]
    rfl

/-! ### Updating a row -/

theorem Update_moved :
    product.Handler.Update Toy.lib Toy.threeProducts none none 9 "1"
        (Toy.bodyContext (Toy.moveBody 2 "Z")) =
      ({ rows := [Toy.item 1 1 "A", { Toy.item 1 1 "Z" with ID := 2, UpdatedAt := 9 },
          Toy.item 3 2 "C"], seq := 3 },
        response.Success (Toy.bodyContext (Toy.moveBody 2 "Z"))
          (some (product.Product.toJson Toy.lib
            { Toy.item 1 1 "Z" with ID := 2, UpdatedAt := 9 }))) := by
  have ha : Atoi "1" = some 1 := by rfl
  have hl : "item".length ≤ 200 ∧ "Z".length ≤ 50 := by decide
  simp [product.Handler.Update, crud.Update, ha, gorm.call, gorm.Table.First,
    gorm.Table.Save, gorm.Table.Create, product.resource, product.model, Toy.threeProducts,
    Toy.item, Toy.bodyContext, Context.reset, Toy.moveBody, user.decodeStruct,
    user.decodeFields, product.Product.setField, user.decodeUint, user.decodeString,
    product.Product.zero, roundCents_zero, hl]

theorem Update_copied :
    product.Handler.Update Toy.lib Toy.threeProducts none none 9 "1"
        (Toy.bodyContext (Toy.moveBody 7 "Y")) =
      ({ rows := [Toy.item 1 1 "A", Toy.item 2 1 "B", Toy.item 3 2 "C",
          { Toy.item 1 1 "Y" with ID := 7, UpdatedAt := 9 }], seq := 3 },
        response.Success (Toy.bodyContext (Toy.moveBody 7 "Y"))
          (some (product.Product.toJson Toy.lib
            { Toy.item 1 1 "Y" with ID := 7, UpdatedAt := 9 }))) := by
  have ha : Atoi "1" = some 1 := by rfl
  have hl : "item".length ≤ 200 ∧ "Y".length ≤ 50 := by decide
  have ht : ¬ ((3 : Int) = -(62135596800 * second)) := by decide
  simp [product.Handler.Update, crud.Update, ha, gorm.call, gorm.Table.First,
    gorm.Table.Save, gorm.Table.Create, product.resource, product.model, Toy.threeProducts,
    Toy.item, Toy.bodyContext, Context.reset, Toy.moveBody, user.decodeStruct,
    user.decodeFields, product.Product.setField, user.decodeUint, user.decodeString,
    product.Product.zero, roundCents_zero, hl, user.zeroTime, ht]

/-- C25, the code at the failing input. The table holds the products 1, 2 and 3.
An update of the product 1 whose body names the id 2 (and a free SKU) answers
with the success envelope, leaves the row 1 as it was and overwrites the row 2
with the fields of the product 1: the body is decoded over the loaded struct,
`id` included, and `db.Save` writes the row of the id the struct then has. When
the body names an id that no row has, here 7, `db.Save` inserts a fourth row
and the row 1 is again as it was. -/
theorem Update_writes_row_of_body_id :
    product.Handler.Update Toy.lib Toy.threeProducts none none 9 "1"
        (Toy.bodyContext (Toy.moveBody 2 "Z")) =
      ({ rows := [Toy.item 1 1 "A", { Toy.item 1 1 "Z" with ID := 2, UpdatedAt := 9 },
          Toy.item 3 2 "C"], seq := 3 },
        response.Success (Toy.bodyContext (Toy.moveBody 2 "Z"))
          (some (product.Product.toJson Toy.lib
            { Toy.item 1 1 "Z" with ID := 2, UpdatedAt := 9 }))) ∧
    product.Handler.Update Toy.lib Toy.threeProducts none none 9 "1"
        (Toy.bodyContext (Toy.moveBody 7 "Y")) =
      ({ rows := [Toy.item 1 1 "A", Toy.item 2 1 "B", Toy.item 3 2 "C",
          { Toy.item 1 1 "Y" with ID := 7, UpdatedAt := 9 }], seq := 3 },
        response.Success (Toy.bodyContext (Toy.moveBody 7 "Y"))
          (some (product.Product.toJson Toy.lib
            { Toy.item 1 1 "Y" with ID := 7, UpdatedAt := 9 }))) :=
  ⟨Update_moved, Update_copied⟩

theorem decodeFields_keep {α β : Type} (set : α → String → Json → Option α) (f : α → β)
    (key : String)
    (hset : ∀ (x x1 : α) (k : String) (v : Json), set x k v = some x1 → k ≠ key → f x1 = f x)
    (fields : List (String × Json)) (x y : α)
    (h : user.decodeFields set fields x = some y) (hk : ∀ kv ∈ fields, kv.1 ≠ key) :
    f y = f x := by
  induction fields generalizing x with
  | nil =>
    simp only [user.decodeFields, Option.some.injEq] at h
    rw [h]
  | cons kv rest ih =>
    obtain ⟨k, v⟩ := kv
    simp only [user.decodeFields] at h
    cases hs : set x k v with
    | none => simp [hs] at h
    | some x2 =>
      simp only [hs] at h
      rw [ih x2 h (fun kv hkv => hk kv (List.mem_cons_of_mem _ hkv))]
      exact hset x x2 k v hs (hk (k, v) (List.mem_cons_self _ _))

theorem Product_setField_frame (L : Lib) (x x1 : product.Product) (k : String) (v : Json)
    (h : product.Product.setField L x k v = some x1) :
    (k ≠ "id" → x1.ID = x.ID) ∧ (k ≠ "created_at" → x1.CreatedAt = x.CreatedAt) ∧
    (k ≠ "updated_at" → x1.UpdatedAt = x.UpdatedAt) ∧
    (k ≠ "deleted_at" → x1.DeletedAt = x.DeletedAt) ∧
    (k ≠ "supplier_id" → x1.SupplierID = x.SupplierID) ∧
    (k ≠ "category_id" → x1.CategoryID = x.CategoryID) ∧
    (k ≠ "name" → x1.Name = x.Name) ∧ (k ≠ "sku" → x1.SKU = x.SKU) ∧
    (k ≠ "type" → x1.Type_ = x.Type_) ∧ (k ≠ "price" → x1.Price = x.Price) ∧
    (k ≠ "stock" → x1.Stock = x.Stock) ∧
    (k ≠ "dynamic_attrs" → x1.DynamicAttrs = x.DynamicAttrs) ∧
    (k ≠ "remark" → x1.Remark = x.Remark) ∧
    (k ≠ "is_enabled" → x1.IsEnabled = x.IsEnabled) := by
  by_cases h1 : k = "id"; swap
  by_cases h2 : k = "created_at"; swap
  by_cases h3 : k = "updated_at"; swap
  by_cases h4 : k = "deleted_at"; swap
  by_cases h5 : k = "supplier_id"; swap
  by_cases h6 : k = "category_id"; swap
  by_cases h7 : k = "name"; swap
  by_cases h8 : k = "sku"; swap
  by_cases h9 : k = "type"; swap
  by_cases h10 : k = "price"; swap
  by_cases h11 : k = "stock"; swap
  by_cases h12 : k = "dynamic_attrs"; swap
  by_cases h13 : k = "remark"; swap
  by_cases h14 : k = "is_enabled"; swap
  · simp only [product.Product.setField, if_neg h1, if_neg h2, if_neg h3, if_neg h4, if_neg h5,
      if_neg h6, if_neg h7, if_neg h8, if_neg h9, if_neg h10, if_neg h11, if_neg h12,
      if_neg h13, if_neg h14, Option.some.injEq] at h
    subst h
    simp
  all_goals
    subst_vars
    simp only [product.Product.setField, String.reduceEq, if_false, if_true,
      Option.map_eq_some'] at h
    obtain ⟨a, -, rfl⟩ := h
    simp

theorem Update_absent {α : Type} (L : Lib) (R : crud.Resource α) (t : gorm.Table α)
    (e1 e2 : Option String) (now : Time) (idParam : String) (id : Int) (c : Context)
    (ha : Atoi idParam = some id) (hx : t.First R.model id = none) :
    crud.Update L R t e1 e2 now idParam c = (t, response.Error c 404 R.notFound) := by
  cases e1 <;> simp only [crud.Update, ha, hx, gorm.call]

theorem Update_saves {α : Type} (L : Lib) (R : crud.Resource α) (t : gorm.Table α)
    (now : Time) (idParam : String) (id : Nat) (x y row : α) (doc : Json) (c : Context)
    (ha : Atoi idParam = some (id : Int)) (h0 : id ≠ 0)
    (hx : t.First R.model id = some x) (hbody : c.Body = some doc)
    (hy : user.decodeStruct (R.setField L) doc x = some y)
    (hid : R.model.ID y = id)
    (hcol : R.model.column (R.model.touch now y) = some row)
    (hfree : ∀ v ∈ t.rows, R.model.ID v ≠ id → R.model.collides v row = false) :
    crud.Update L R t none none now idParam c =
      ({ rows := t.rows.map (fun v => if R.model.ID v = id then row else v), seq := t.seq },
        response.Success c (some (R.toJson L (R.model.touch now y)))) := by
  obtain ⟨hmem, hxid⟩ := First_some R.model t id x hx
  have hsave := Save_update R.model t now y row (by rw [hid]; exact h0)
    ⟨x, hmem, by rw [hid, hxid]⟩ hcol (by
      intro v hv hne
      rw [hid] at hne
      exact hfree v hv hne)
  rw [hid] at hsave
  simp only [crud.Update, ha, hx, gorm.call, hbody, hy, hsave]

/-- The shared `Update` on a stored row. `Update` of an entity module answers 404
with the message of
the module and returns the table as it was when no row has the path id,
whatever the storage does. Otherwise it decodes the body over the row it loaded
and saves the result: when the decoded struct still has the path id (not zero),
fits its columns and breaks no unique index, the answer is the success envelope
and the row of that id is replaced by what the columns keep of the struct with
`UpdatedAt` set to the time of the update, every other row as it was. For the
products the decoding is spelled out: a field whose key is absent from the body
keeps the loaded value; a string, number or boolean under a key sets its field;
`null` leaves such a field as it is; an object under `dynamic_attrs` sets its
members in the map that was loaded and keeps the other members, `null` clears
the map. -/
theorem Update_overlays_body {α : Type} (L : Lib) (R : crud.Resource α) (t : gorm.Table α)
    (now : Time) (idParam : String) (id : Nat) (x y row : α) (doc : Json) (c : Context)
    (ha : Atoi idParam = some (id : Int)) (h0 : id ≠ 0)
    (hx : t.First R.model id = some x) (hbody : c.Body = some doc)
    (hy : user.decodeStruct (R.setField L) doc x = some y)
    (hid : R.model.ID y = id)
    (hcol : R.model.column (R.model.touch now y) = some row)
    (hfree : ∀ v ∈ t.rows, R.model.ID v ≠ id → R.model.collides v row = false) :
    crud.Update L R t none none now idParam c =
      ({ rows := t.rows.map (fun v => if R.model.ID v = id then row else v), seq := t.seq },
        response.Success c (some (R.toJson L (R.model.touch now y)))) ∧
    (∀ v ∈ t.rows, R.model.ID v ≠ id →
      v ∈ (crud.Update L R t none none now idParam c).1.rows) ∧
    (∀ (t0 : gorm.Table α) (e1 e2 : Option String) (other : String) (id0 : Int),
      Atoi other = some id0 → t0.First R.model id0 = none →
      crud.Update L R t0 e1 e2 now other c = (t0, response.Error c 404 R.notFound)) ∧
    (∀ (fields : List (String × Json)) (p q : product.Product),
      user.decodeFields (product.Product.setField L) fields p = some q →
      ((∀ kv ∈ fields, kv.1 ≠ "id") → q.ID = p.ID) ∧
      ((∀ kv ∈ fields, kv.1 ≠ "created_at") → q.CreatedAt = p.CreatedAt) ∧
      ((∀ kv ∈ fields, kv.1 ≠ "deleted_at") → q.DeletedAt = p.DeletedAt) ∧
      ((∀ kv ∈ fields, kv.1 ≠ "supplier_id") → q.SupplierID = p.SupplierID) ∧
      ((∀ kv ∈ fields, kv.1 ≠ "category_id") → q.CategoryID = p.CategoryID) ∧
      ((∀ kv ∈ fields, kv.1 ≠ "name") → q.Name = p.Name) ∧
      ((∀ kv ∈ fields, kv.1 ≠ "sku") → q.SKU = p.SKU) ∧
      ((∀ kv ∈ fields, kv.1 ≠ "type") → q.Type_ = p.Type_) ∧
      ((∀ kv ∈ fields, kv.1 ≠ "price") → q.Price = p.Price) ∧
      ((∀ kv ∈ fields, kv.1 ≠ "stock") → q.Stock = p.Stock) ∧
      ((∀ kv ∈ fields, kv.1 ≠ "dynamic_attrs") → q.DynamicAttrs = p.DynamicAttrs) ∧
      ((∀ kv ∈ fields, kv.1 ≠ "remark") → q.Remark = p.Remark) ∧
      ((∀ kv ∈ fields, kv.1 ≠ "is_enabled") → q.IsEnabled = p.IsEnabled)) ∧
    (∀ (p : product.Product) (s : String),
      product.Product.setField L p "name" (Json.str s) = some { p with Name := s } ∧
      product.Product.setField L p "sku" (Json.str s) = some { p with SKU := s } ∧
      product.Product.setField L p "remark" (Json.str s) = some { p with Remark := s }) ∧
    (∀ (p : product.Product) (n : Int), -(2 ^ 63) ≤ n → n < 2 ^ 63 →
      product.Product.setField L p "type" (Json.num n) = some { p with Type_ := n } ∧
      product.Product.setField L p "stock" (Json.num n) = some { p with Stock := n }) ∧
    (∀ (p : product.Product) (n : Nat), n < 2 ^ 64 →
      product.Product.setField L p "supplier_id" (Json.num n) =
        some { p with SupplierID := n } ∧
      product.Product.setField L p "category_id" (Json.num n) =
        some { p with CategoryID := n }) ∧
    (∀ (p : product.Product) (n : Int) (q : ℚ) (b : Bool),
      product.Product.setField L p "price" (Json.num n) = some { p with Price := n } ∧
      product.Product.setField L p "price" (Json.frac q) = some { p with Price := q } ∧
      product.Product.setField L p "is_enabled" (Json.bool b) =
        some { p with IsEnabled := b }) ∧
    (∀ (p : product.Product) (k : String),
      k ∈ ["id", "supplier_id", "category_id", "name", "sku", "type", "price", "stock",
        "remark", "is_enabled"] →
      product.Product.setField L p k Json.null = some p) ∧
    (∀ (p : product.Product) (members : List (String × Json)),
      product.Product.setField L p "dynamic_attrs" (Json.obj members) =
        some { p with
          DynamicAttrs := some (members.foldl (fun m kv => bind.setKey m kv.1 kv.2)
                                  (p.DynamicAttrs.getD [])) } ∧
      product.Product.setField L p "dynamic_attrs" Json.null =
        some { p with DynamicAttrs := none }) := by
  have hupd := Update_saves L R t now idParam id x y row doc c ha h0 hx hbody hy hid hcol hfree
  refine ⟨hupd, ?_, ?_, ?_, ?_, ?_, ?_, ?_, ?_, ?_⟩
  · intro v hv hne
    rw [hupd, List.mem_map]
    exact ⟨v, hv, by rw [if_neg hne]⟩
  · intro t0 e1 e2 other id0 ha0 hx0
    exact Update_absent L R t0 e1 e2 now other id0 c ha0 hx0
  · intro fields p q hq
    refine ⟨?_, ?_, ?_, ?_, ?_, ?_, ?_, ?_, ?_, ?_, ?_, ?_, ?_⟩
    · exact decodeFields_keep _ (fun z => z.ID) "id"
        (fun a b k v h => (Product_setField_frame L a b k v h).1) fields p q hq
    · exact decodeFields_keep _ (fun z => z.CreatedAt) "created_at"
        (fun a b k v h => (Product_setField_frame L a b k v h).2.1) fields p q hq
    · exact decodeFields_keep _ (fun z => z.DeletedAt) "deleted_at"
        (fun a b k v h => (Product_setField_frame L a b k v h).2.2.2.1) fields p q hq
    · exact decodeFields_keep _ (fun z => z.SupplierID) "supplier_id"
        (fun a b k v h => (Product_setField_frame L a b k v h).2.2.2.2.1) fields p q hq
    · exact decodeFields_keep _ (fun z => z.CategoryID) "category_id"
        (fun a b k v h => (Product_setField_frame L a b k v h).2.2.2.2.2.1) fields p q hq
    · exact decodeFields_keep _ (fun z => z.Name) "name"
        (fun a b k v h => (Product_setField_frame L a b k v h).2.2.2.2.2.2.1) fields p q hq
    · exact decodeFields_keep _ (fun z => z.SKU) "sku"
        (fun a b k v h => (Product_setField_frame L a b k v h).2.2.2.2.2.2.2.1) fields p q hq
    · exact decodeFields_keep _ (fun z => z.Type_) "type"
        (fun a b k v h => (Product_setField_frame L a b k v h).2.2.2.2.2.2.2.2.1) fields p q hq
    · exact decodeFields_keep _ (fun z => z.Price) "price"
        (fun a b k v h => (Product_setField_frame L a b k v h).2.2.2.2.2.2.2.2.2.1) fields p q
        hq
    · exact decodeFields_keep _ (fun z => z.Stock) "stock"
        (fun a b k v h => (Product_setField_frame L a b k v h).2.2.2.2.2.2.2.2.2.2.1) fields p
        q hq
    · exact decodeFields_keep _ (fun z => z.DynamicAttrs) "dynamic_attrs"
        (fun a b k v h => (Product_setField_frame L a b k v h).2.2.2.2.2.2.2.2.2.2.2.1) fields
        p q hq
    · exact decodeFields_keep _ (fun z => z.Remark) "remark"
        (fun a b k v h => (Product_setField_frame L a b k v h).2.2.2.2.2.2.2.2.2.2.2.2.1)
        fields p q hq
    · exact decodeFields_keep _ (fun z => z.IsEnabled) "is_enabled"
        (fun a b k v h => (Product_setField_frame L a b k v h).2.2.2.2.2.2.2.2.2.2.2.2.2)
        fields p q hq
  · intro p s
    simp [product.Product.setField, user.decodeString]
  · intro p n h1 h2
    simp only [product.Product.setField, String.reduceEq, if_false, if_true, bind.decodeInt,
      if_pos (And.intro h1 h2), Option.map_some', and_self]
  · intro p n hn
    have h1 : (0 : Int) ≤ (n : Int) := Int.natCast_nonneg n
    have h2 : (n : Int) < 2 ^ 64 := by exact_mod_cast hn
    simp only [product.Product.setField, String.reduceEq, if_false, if_true, user.decodeUint,
      if_pos (And.intro h1 h2), Option.map_some', Int.toNat_ofNat, and_self]
  · intro p n q b
    simp [product.Product.setField, bind.decodeFloat, user.decodeBool]
  · intro p k hk
    simp only [List.mem_cons, List.mem_singleton, List.not_mem_nil, or_false] at hk
    rcases hk with rfl | rfl | rfl | rfl | rfl | rfl | rfl | rfl | rfl | rfl <;>
      simp [product.Product.setField, user.decodeUint, user.decodeString, bind.decodeInt,
        bind.decodeFloat, user.decodeBool]
  · intro p members
    simp [product.Product.setField, bind.decodeMap]

theorem Update_overlays_body_witness :
    supplier.Handler.Update Toy.lib Toy.suppliers none none 9 "1"
        (Toy.bodyContext (Json.obj [("remark", Json.str "new")])) =
      ({ rows := [{ Toy.acme with Remark := "new", UpdatedAt := 9 }], seq := 1 },
        response.Success (Toy.bodyContext (Json.obj [("remark", Json.str "new")]))
          (some (supplier.Supplier.toJson Toy.lib
            { Toy.acme with Remark := "new", UpdatedAt := 9 }))) :=
  (Update_overlays_body Toy.lib supplier.resource Toy.suppliers 9 "1" 1 Toy.acme
    { Toy.acme with Remark := "new" } { Toy.acme with Remark := "new", UpdatedAt := 9 }
    (Json.obj [("remark", Json.str "new")])
    (Toy.bodyContext (Json.obj [("remark", Json.str "new")])) (by rfl) (by decide) (by rfl)
    rfl (by rfl) rfl (by rfl) (fun _ _ _ => rfl)).1

/-- An update at a key that is present. The product 1 is stored with the
dynamic attribute `a`. An update whose body gives `dynamic_attrs` as the object
with the one member `b` is answered with the success envelope, and the stored
map then has both `a` and `b`: the field did not take the value of the body. An
update of the supplier 1 whose body gives `name` as `null` is answered with the
success envelope and the stored name is still `acme`. -/
theorem Update_keeps_under_present_key :
    Toy.gadget.DynamicAttrs = some [("a", Json.num 1)] ∧
    Toy.attrBody.get? "dynamic_attrs" = some (Json.obj [("b", Json.num 2)]) ∧
    product.Handler.Update Toy.lib { rows := [Toy.gadget], seq := 1 } none none 9 "1"
        (Toy.bodyContext Toy.attrBody) =
      ({ rows := [{ Toy.gadget with
            DynamicAttrs := some [("a", Json.num 1), ("b", Json.num 2)], UpdatedAt := 9 }],
         seq := 1 },
        response.Success (Toy.bodyContext Toy.attrBody)
          (some (product.Product.toJson Toy.lib { Toy.gadget with
            DynamicAttrs := some [("a", Json.num 1), ("b", Json.num 2)],
            UpdatedAt := 9 }))) ∧
    supplier.Handler.Update Toy.lib Toy.suppliers none none 9 "1"
        (Toy.bodyContext (Json.obj [("name", Json.null)])) =
      ({ rows := [{ Toy.acme with UpdatedAt := 9 }], seq := 1 },
        response.Success (Toy.bodyContext (Json.obj [("name", Json.null)]))
          (some (supplier.Supplier.toJson Toy.lib { Toy.acme with UpdatedAt := 9 }))) := by
  refine ⟨rfl, by rfl, ?_, by rfl⟩
  have ha : Atoi "1" = some 1 := by rfl
  have hl : "item".length ≤ 200 ∧ "A".length ≤ 50 := by decide
  simp [product.Handler.Update, crud.Update, ha, gorm.call, gorm.Table.First,
    gorm.Table.Save, gorm.Table.Create, product.resource, product.model, Toy.gadget,
    Toy.item, Toy.bodyContext, Context.reset, Toy.attrBody, user.decodeStruct,
    user.decodeFields, product.Product.setField, bind.decodeMap, bind.setKey,
    product.Product.zero, roundCents_zero, hl]

/-! ### Dynamic attributes -/

/-- C28. No handler lets a storage error into its answer. At every call of the
storage in a handler, any two errors give the same table and the same context;
and under an error at that call the answer is one of the constant error
envelopes of the handler (the last part is about the first of two calls). This
covers the shared handlers of the entity modules
(`Create`, `List`, `Get`, `Update`, `Delete`, `ToggleStatus`), the category
handlers `Delete` and `GetChildren`, `UpdateStock` and `UpdatePrice`, and the
user handlers `Get`, `Create`, `Update`, `Delete`, `GetProfile` and
`UpdateProfile`, and `Login`, `Register`, `UpdatePassword` and the user `List`.
`Register` does not look at the error of its count: under any error there it
goes on as for a count of zero. -/
theorem handlers_hide_storage_errors {α : Type} (L : Lib) (R : crud.Resource α)
    (negate : α → α) (t : gorm.Table α) (tc : gorm.Table category.Category)
    (tp : gorm.Table product.Product) (db : user.Store) (salt secret : Bytes)
    (now t1 t2 t3 : Time) (idParam : String) (query : List (String × String)) (c : Context)
    (other : Option String) (err1 err2 : String) :
    (crud.Create L R t (some err1) now c = crud.Create L R t (some err2) now c ∧
      crud.List L R t (some err1) query c = crud.List L R t (some err2) query c ∧
      crud.Get L R t (some err1) idParam c = crud.Get L R t (some err2) idParam c ∧
      crud.Update L R t (some err1) other now idParam c =
        crud.Update L R t (some err2) other now idParam c ∧
      crud.Update L R t other (some err1) now idParam c =
        crud.Update L R t other (some err2) now idParam c ∧
      crud.Delete R t (some err1) idParam c = crud.Delete R t (some err2) idParam c ∧
      crud.ToggleStatus L R negate t (some err1) other now idParam c =
        crud.ToggleStatus L R negate t (some err2) other now idParam c ∧
      crud.ToggleStatus L R negate t other (some err1) now idParam c =
        crud.ToggleStatus L R negate t other (some err2) now idParam c) ∧
    (category.Handler.Delete tc (some err1) other idParam c =
        category.Handler.Delete tc (some err2) other idParam c ∧
      category.Handler.Delete tc other (some err1) idParam c =
        category.Handler.Delete tc other (some err2) idParam c ∧
      category.Handler.GetChildren L tc (some err1) idParam c =
        category.Handler.GetChildren L tc (some err2) idParam c ∧
      product.Handler.UpdateStock tp (some err1) now idParam c =
        product.Handler.UpdateStock tp (some err2) now idParam c ∧
      product.Handler.UpdatePrice tp (some err1) now idParam c =
        product.Handler.UpdatePrice tp (some err2) now idParam c) ∧
    (user.Handler.Get L db (some err1) idParam c = user.Handler.Get L db (some err2) idParam c ∧
      user.Handler.Create L salt now db (some err1) c =
        user.Handler.Create L salt now db (some err2) c ∧
      user.Handler.Update L now db (some err1) other idParam c =
        user.Handler.Update L now db (some err2) other idParam c ∧
      user.Handler.Update L now db other (some err1) idParam c =
        user.Handler.Update L now db other (some err2) idParam c ∧
      user.Handler.Delete db (some err1) idParam c =
        user.Handler.Delete db (some err2) idParam c ∧
      user.Handler.GetProfile L db (some err1) c = user.Handler.GetProfile L db (some err2) c ∧
      user.Handler.UpdateProfile L now db (some err1) other c =
        user.Handler.UpdateProfile L now db (some err2) other c ∧
      user.Handler.UpdateProfile L now db other (some err1) c =
        user.Handler.UpdateProfile L now db other (some err2) c) ∧
    (user.Handler.Login L secret t1 t2 t3 db (some err1) c =
        user.Handler.Login L secret t1 t2 t3 db (some err2) c ∧
      user.Handler.Register L salt now db (some err1) other c =
        user.Handler.Register L salt now db (some err2) other c ∧
      user.Handler.Register L salt now db other (some err1) c =
        user.Handler.Register L salt now db other (some err2) c ∧
      user.Handler.UpdatePassword L salt now db (some err1) other c =
        user.Handler.UpdatePassword L salt now db (some err2) other c ∧
      user.Handler.UpdatePassword L salt now db other (some err1) c =
        user.Handler.UpdatePassword L salt now db other (some err2) c ∧
      user.Handler.List L db (some err1) c = user.Handler.List L db (some err2) c) ∧
    ((crud.Create L R t (some err1) now c).2 ∈
        [response.Error c 400 "无效的请求参数", response.Error c 500 R.createFailed] ∧
      crud.List L R t (some err1) query c = response.Error c 500 R.listFailed ∧
      (crud.Get L R t (some err1) idParam c) ∈
        [response.Error c 400 "无效的ID", response.Error c 404 R.notFound] ∧
      (crud.Update L R t other (some err1) now idParam c).2 ∈
        [response.Error c 400 "无效的ID", response.Error c 404 R.notFound,
         response.Error c 400 "无效的请求参数", response.Error c 500 R.updateFailed] ∧
      (crud.Delete R t (some err1) idParam c).2 ∈
        [response.Error c 400 "无效的ID", response.Error c 500 R.deleteFailed] ∧
      (crud.ToggleStatus L R negate t other (some err1) now idParam c).2 ∈
        [response.Error c 400 "无效的ID", response.Error c 404 R.notFound,
         response.Error c 500 "更新状态失败"]) ∧
    ((category.Handler.Delete tc other (some err1) idParam c).2 ∈
        [response.Error c 400 "无效的ID", response.Error c 500 "检查子分类失败",
         response.Error c 400 "该分类下存在子分类，无法删除",
         response.Error c 500 "删除分类失败"] ∧
      category.Handler.GetChildren L tc (some err1) idParam c ∈
        [response.Error c 400 "无效的ID", response.Error c 500 "获取子分类失败"] ∧
      (product.Handler.UpdateStock tp (some err1) now idParam c).2 ∈
        [response.Error c 400 "无效的ID", response.Error c 400 "无效的请求参数",
         response.Error c 500 "更新库存失败"] ∧
      (product.Handler.UpdatePrice tp (some err1) now idParam c).2 ∈
        [response.Error c 400 "无效的ID", response.Error c 400 "无效的请求参数",
         response.Error c 500 "更新价格失败"]) ∧
    (user.Handler.Get L db (some err1) idParam c ∈
        [response.Error c 400 "无效的ID", response.Error c 404 "用户不存在"] ∧
      (user.Handler.Create L salt now db (some err1) c).2 ∈
        [response.Error c 400 "无效的请求参数", response.Error c 500 "密码加密失败",
         response.Error c 500 "创建用户失败"] ∧
      (user.Handler.Update L now db other (some err1) idParam c).2 ∈
        [response.Error c 400 "无效的ID", response.Error c 404 "用户不存在",
         response.Error c 400 "无效的请求参数", response.Error c 500 "更新用户失败"] ∧
      (user.Handler.Delete db (some err1) idParam c).2 ∈
        [response.Error c 400 "无效的ID", response.Error c 500 "删除用户失败"] ∧
      user.Handler.GetProfile L db (some err1) c ∈
        [response.Error c 401 "未认证", response.Error c 404 "用户不存在"] ∧
      (user.Handler.UpdateProfile L now db other (some err1) c).2 ∈
        [response.Error c 401 "未认证", response.Error c 404 "用户不存在",
         response.Error c 400 "无效的请求参数", response.Error c 500 "更新个人资料失败"]) ∧
    (user.Handler.Login L secret t1 t2 t3 db (some err1) c ∈
        [response.Error c 400 "无效的请求参数", response.Error c 401 "用户名或密码错误"] ∧
      (user.Handler.Register L salt now db other (some err1) c).2 ∈
        [response.Error c 400 "无效的请求参数", response.Error c 400 "用户名已存在",
         response.Error c 500 "密码加密失败", response.Error c 500 "创建用户失败"] ∧
      (user.Handler.UpdatePassword L salt now db (some err1) other c).2 ∈
        [response.Error c 401 "未认证", response.Error c 400 "无效的请求参数",
         response.Error c 404 "用户不存在"] ∧
      (user.Handler.UpdatePassword L salt now db other (some err1) c).2 ∈
        [response.Error c 401 "未认证", response.Error c 400 "无效的请求参数",
         response.Error c 404 "用户不存在", response.Error c 400 "原密码错误",
         response.Error c 500 "密码加密失败", response.Error c 500 "更新密码失败"] ∧
      user.Handler.List L db (some err1) c = response.Error c 500 "获取用户列表失败" ∧
      ∀ name, user.registerCount db (some err1) name = 0) ∧
    ((crud.Update L R t (some err1) other now idParam c).2 ∈
        [response.Error c 400 "无效的ID", response.Error c 404 R.notFound] ∧
      (crud.ToggleStatus L R negate t (some err1) other now idParam c).2 ∈
        [response.Error c 400 "无效的ID", response.Error c 404 R.notFound] ∧
      (category.Handler.Delete tc (some err1) other idParam c).2 ∈
        [response.Error c 400 "无效的ID", response.Error c 500 "检查子分类失败"] ∧
      (user.Handler.Update L now db (some err1) other idParam c).2 ∈
        [response.Error c 400 "无效的ID", response.Error c 404 "用户不存在"] ∧
      (user.Handler.UpdateProfile L now db (some err1) other c).2 ∈
        [response.Error c 401 "未认证", response.Error c 404 "用户不存在"]) := by
  refine ⟨⟨rfl, ?_, rfl, rfl, rfl, rfl, rfl, rfl⟩, ⟨rfl, rfl, rfl, rfl, rfl⟩,
    ⟨rfl, rfl, rfl, rfl, rfl, rfl, rfl, rfl⟩, ⟨rfl, rfl, rfl, rfl, rfl, rfl⟩,
    ⟨?_, ?_, ?_, ?_, ?_, ?_⟩, ⟨?_, ?_, ?_, ?_⟩,
    ⟨?_, ?_, ?_, ?_, ?_, ?_⟩, ⟨?_, ?_, ?_, ?_, rfl, fun _ => rfl⟩, ⟨?_, ?_, ?_, ?_, ?_⟩⟩
  · simp only [crud.List, crud.selected, gorm.call]
    cases crud.conditions L query R.filters <;> rfl
  · simp only [crud.Create, gorm.call]
    repeat' split
    all_goals simp
  · simp only [crud.List, crud.selected, gorm.call]
    cases crud.conditions L query R.filters <;> rfl
  · simp only [crud.Get, gorm.call]
    repeat' split
    all_goals simp
  · simp only [crud.Update, gorm.call]
    repeat' split
    all_goals simp
  · simp only [crud.Delete, gorm.call]
    repeat' split
    all_goals simp
  · simp only [crud.ToggleStatus, gorm.call]
    repeat' split
    all_goals simp
  · simp only [category.Handler.Delete, gorm.call]
    repeat' split
    all_goals simp
  · simp only [category.Handler.GetChildren, gorm.call]
    repeat' split
    all_goals simp
  · simp only [product.Handler.UpdateStock, gorm.call]
    repeat' split
    all_goals simp
  · simp only [product.Handler.UpdatePrice, gorm.call]
    repeat' split
    all_goals simp
  · simp only [user.Handler.Get, gorm.call]
    repeat' split
    all_goals simp
  · simp only [user.Handler.Create, gorm.call]
    repeat' split
    all_goals simp
  · simp only [user.Handler.Update, gorm.call]
    repeat' split
    all_goals simp
  · simp only [user.Handler.Delete, gorm.call]
    repeat' split
    all_goals simp
  · simp only [user.Handler.GetProfile, gorm.call]
    repeat' split
    all_goals simp
  · simp only [user.Handler.UpdateProfile, gorm.call]
    repeat' split
    all_goals simp
  · simp only [user.Handler.Login, gorm.call]
    repeat' split
    all_goals simp
  · simp only [user.Handler.Register, gorm.call]
    repeat' split
    all_goals simp
  · simp only [user.Handler.UpdatePassword, gorm.call]
    repeat' split
    all_goals simp
  · simp only [user.Handler.UpdatePassword, gorm.call]
    repeat' split
    all_goals simp
  · simp only [crud.Update, gorm.call]
    repeat' split
    all_goals simp
  · simp only [crud.ToggleStatus, gorm.call]
    repeat' split
    all_goals simp
  · simp only [category.Handler.Delete, gorm.call]
    repeat' split
    all_goals simp
  · simp only [user.Handler.Update, gorm.call]
    repeat' split
    all_goals simp
  · simp only [user.Handler.UpdateProfile, gorm.call]
    repeat' split
    all_goals simp

/-! ### Updating a user -/

/-- C30, the code at the failing input. The table holds `alice` (id 1, the hash
of `secret`) and `bob` (id 2, the hash of `hunter2`). An update of the user 1
whose body names the id 2 and a free name and email is answered with 200; the
row 1 is as it was and the row 2 now holds the password hash of `alice`, which
verifies `secret`: the body is decoded over the loaded user, `id` included, and
`db.Save` writes the row of the id the struct then has, with the password the
struct was loaded with. `UpdateProfile` of the user 1 with the same body does
the same. So a handler other than `UpdatePassword` changes the stored hash of
an existing user. -/
theorem Update_overwrites_other_hash :
    Toy.twoUsers.FirstByID 2 = some Toy.bob ∧
    Toy.bob.Password = "#hunter2" ∧
    (user.Handler.Update Toy.lib 9 Toy.twoUsers none none "1"
        (Toy.bodyContext Toy.takeoverBody)).2.Written.map (fun w => (w.1, w.2.Code)) =
      [(200, 0)] ∧
    (user.Handler.Update Toy.lib 9 Toy.twoUsers none none "1"
        (Toy.bodyContext Toy.takeoverBody)).1 =
      { users := [Toy.alice, Toy.carol], seq := 2 } ∧
    (user.Handler.UpdateProfile Toy.lib 9 Toy.twoUsers none none
        ((Toy.bodyContext Toy.takeoverBody).Set "user_id" (Value.uint 1))).2.Written.map
          (fun w => (w.1, w.2.Code)) = [(200, 0)] ∧
    (user.Handler.UpdateProfile Toy.lib 9 Toy.twoUsers none none
        ((Toy.bodyContext Toy.takeoverBody).Set "user_id" (Value.uint 1))).1 =
      { users := [Toy.alice, Toy.carol], seq := 2 } ∧
    Toy.carol.Password = Toy.alice.Password ∧
    Toy.lib.bcryptCompare Toy.carol.Password "secret" = true ∧
    Toy.lib.bcryptCompare Toy.carol.Password "hunter2" = false := by
  refine ⟨by rfl, rfl, by rfl, by rfl, by rfl, by rfl, rfl, by decide, by decide⟩

/-! ### Rows with a deletion time -/

theorem Create_ghostItem :
    product.Handler.Create Toy.lib Toy.products none 3 (Toy.bodyContext Toy.ghostItemBody) =
      ({ rows := [Toy.ghostItem], seq := 1 },
        response.Success (Toy.bodyContext Toy.ghostItemBody)
          (some (product.Product.toJson Toy.lib Toy.ghostItem))) := by
  have hlen : "item".length ≤ 200 ∧ "A".length ≤ 50 := by decide
  have hp : Atoi "4" = some 4 := by rfl
  simp [product.Handler.Create, crud.Create, Toy.bodyContext, Context.reset, Toy.ghostItemBody,
    user.decodeStruct, user.decodeFields, product.resource, product.Product.setField,
    user.decodeString, user.decodeUint, user.decodeTimePtr, gorm.call, gorm.Table.Create,
    product.model, Toy.products, product.Product.zero, roundCents_zero, hlen, Toy.ghostItem,
    Toy.item, Toy.lib, hp]

theorem Toggle_ghostItem :
    product.Handler.ToggleStatus Toy.lib { rows := [Toy.ghostItem], seq := 1 } none none 8 "1"
        Toy.plainContext =
      ({ rows := [{ Toy.ghostItem with IsEnabled := false, UpdatedAt := 8 }], seq := 1 },
        response.Success Toy.plainContext
          (some (product.Product.toJson Toy.lib
            { Toy.ghostItem with IsEnabled := false, UpdatedAt := 8 }))) := by
  have ha : Atoi "1" = some 1 := by rfl
  have hl : "item".length ≤ 200 ∧ "A".length ≤ 50 := by decide
  simp [product.Handler.ToggleStatus, crud.ToggleStatus, ha, gorm.call, gorm.Table.First,
    gorm.Table.Save, gorm.Table.Create, product.resource, product.model, Toy.ghostItem,
    Toy.item, product.Product.zero, roundCents_zero, hl]

theorem Update_ghostItem :
    product.Handler.Update Toy.lib { rows := [Toy.ghostItem], seq := 1 } none none 9 "1"
        (Toy.bodyContext (Json.obj [("remark", Json.str "new")])) =
      ({ rows := [{ Toy.ghostItem with Remark := "new", UpdatedAt := 9 }], seq := 1 },
        response.Success (Toy.bodyContext (Json.obj [("remark", Json.str "new")]))
          (some (product.Product.toJson Toy.lib
            { Toy.ghostItem with Remark := "new", UpdatedAt := 9 }))) := by
  have ha : Atoi "1" = some 1 := by rfl
  have hl : "item".length ≤ 200 ∧ "A".length ≤ 50 := by decide
  simp [product.Handler.Update, crud.Update, ha, gorm.call, gorm.Table.First,
    gorm.Table.Save, gorm.Table.Create, product.resource, product.model, Toy.ghostItem,
    Toy.item, Toy.bodyContext, Context.reset, user.decodeStruct,
    user.decodeFields, product.Product.setField, user.decodeString,
    product.Product.zero, roundCents_zero, hl]

/-- C21, the code at the failing input. A request to create a supplier whose body
gives `deleted_at` is accepted and stores a row with the deletion time set, so
the table has no live row of the id 1. `ToggleStatus` for the id 1 does not
answer 404: it answers with the success envelope and stores the row with
`is_enabled` negated. The query `db.First(&supplier, id)` has no condition on
`deleted_at`, since the field is a plain `*time.Time`; the 404 is the answer
only when the table has no row of the id at all. The products do the same. -/
theorem ToggleStatus_toggles_deleted_row :
    supplier.Handler.Create Toy.lib Toy.noSuppliers none 5 (Toy.bodyContext Toy.ghostBody) =
      ({ rows := [Toy.ghost], seq := 1 },
        response.Success (Toy.bodyContext Toy.ghostBody)
          (some (supplier.Supplier.toJson Toy.lib Toy.ghost))) ∧
    Toy.ghost.DeletedAt = some 4 ∧
    supplier.Handler.ToggleStatus Toy.lib { rows := [Toy.ghost], seq := 1 } none none 8 "1"
        Toy.plainContext =
      ({ rows := [{ Toy.ghost with IsEnabled := false, UpdatedAt := 8 }], seq := 1 },
        response.Success Toy.plainContext
          (some (supplier.Supplier.toJson Toy.lib
            { Toy.ghost with IsEnabled := false, UpdatedAt := 8 }))) ∧
    supplier.Handler.ToggleStatus Toy.lib Toy.noSuppliers none none 8 "1" Toy.plainContext =
      (Toy.noSuppliers, response.Error Toy.plainContext 404 "供应商不存在") ∧
    product.Handler.Create Toy.lib Toy.products none 3 (Toy.bodyContext Toy.ghostItemBody) =
      ({ rows := [Toy.ghostItem], seq := 1 },
        response.Success (Toy.bodyContext Toy.ghostItemBody)
          (some (product.Product.toJson Toy.lib Toy.ghostItem))) ∧
    Toy.ghostItem.DeletedAt = some 4 ∧
    product.Handler.ToggleStatus Toy.lib { rows := [Toy.ghostItem], seq := 1 } none none 8 "1"
        Toy.plainContext =
      ({ rows := [{ Toy.ghostItem with IsEnabled := false, UpdatedAt := 8 }], seq := 1 },
        response.Success Toy.plainContext
          (some (product.Product.toJson Toy.lib
            { Toy.ghostItem with IsEnabled := false, UpdatedAt := 8 }))) :=
  ⟨by rfl, rfl, by rfl, by rfl, Create_ghostItem, rfl, Toggle_ghostItem⟩

/-- C22, the code at the failing input. The table holds the category `tools` of
id 1. A request to create a category with `parent_id` 1 whose body gives
`deleted_at` is accepted and stores a child with the deletion time set, so no
live row has `parent_id = 1`. `Delete` for the id 1 is refused with 400 and the
conflict message and the table is as it was: the count `WHERE parent_id = ?`
has no condition on `deleted_at`. -/
theorem category_Delete_blocked_by_deleted_child :
    category.Handler.Create Toy.lib { rows := [Toy.tools], seq := 1 } none 4
        (Toy.bodyContext Toy.ghostChildBody) =
      ({ rows := [Toy.tools, Toy.ghostChild], seq := 2 },
        response.Success (Toy.bodyContext Toy.ghostChildBody)
          (some (category.Category.toJson Toy.lib Toy.ghostChild))) ∧
    Toy.ghostChild.DeletedAt = some 4 ∧
    (∀ r ∈ [Toy.tools, Toy.ghostChild], r.DeletedAt = none → r.ParentID ≠ some 1) ∧
    category.Handler.Delete { rows := [Toy.tools, Toy.ghostChild], seq := 2 } none none "1"
        Toy.plainContext =
      ({ rows := [Toy.tools, Toy.ghostChild], seq := 2 },
        response.Error Toy.plainContext 400 "该分类下存在子分类，无法删除") := by
  refine ⟨by rfl, rfl, by decide, by rfl⟩

/-- C23, the code at the failing input. A request to create a product whose body
gives `deleted_at` is accepted and stores a row with the deletion time set. The
list of the products, without filter and with the filter `category_id=1`,
answers with that row, which is not live. For every table the list without
filter is the list of all rows, whatever their `deleted_at`: the query has no
condition on it. -/
theorem product_List_returns_deleted_row :
    product.Handler.Create Toy.lib Toy.products none 3 (Toy.bodyContext Toy.ghostItemBody) =
      ({ rows := [Toy.ghostItem], seq := 1 },
        response.Success (Toy.bodyContext Toy.ghostItemBody)
          (some (product.Product.toJson Toy.lib Toy.ghostItem))) ∧
    Toy.ghostItem.DeletedAt = some 4 ∧
    product.Handler.List Toy.lib { rows := [Toy.ghostItem], seq := 1 } none []
        Toy.plainContext =
      response.Success Toy.plainContext
        (some (Json.arr [product.Product.toJson Toy.lib Toy.ghostItem])) ∧
    product.Handler.List Toy.lib { rows := [Toy.ghostItem], seq := 1 } none
        [("category_id", "1")] Toy.plainContext =
      response.Success Toy.plainContext
        (some (Json.arr [product.Product.toJson Toy.lib Toy.ghostItem])) ∧
    (∀ (L : Lib) (t : gorm.Table product.Product) (c : Context),
      product.Handler.List L t none [] c =
        response.Success c (some (Json.arr (t.rows.map (product.Product.toJson L))))) := by
  refine ⟨Create_ghostItem, rfl, by rfl, by rfl, ?_⟩
  intro L t c
  simp [product.Handler.List, crud.List, crud.selected, crud.conditions, product.resource,
    crud.Query, gorm.call, gorm.Table.Find]

/-- C26, the code at the failing input. The suppliers table holds one row of id
1, with the deletion time set, so no live row has the id. `Update` for the id 1
with a body that gives a remark does not answer 404: it answers with the
success envelope and stores the remark. The products and the users do the
same. -/
theorem Update_writes_deleted_row :
    Toy.ghost.DeletedAt = some 4 ∧
    supplier.Handler.Update Toy.lib { rows := [Toy.ghost], seq := 1 } none none 9 "1"
        (Toy.bodyContext (Json.obj [("remark", Json.str "new")])) =
      ({ rows := [{ Toy.ghost with Remark := "new", UpdatedAt := 9 }], seq := 1 },
        response.Success (Toy.bodyContext (Json.obj [("remark", Json.str "new")]))
          (some (supplier.Supplier.toJson Toy.lib
            { Toy.ghost with Remark := "new", UpdatedAt := 9 }))) ∧
    Toy.ghostItem.DeletedAt = some 4 ∧
    product.Handler.Update Toy.lib { rows := [Toy.ghostItem], seq := 1 } none none 9 "1"
        (Toy.bodyContext (Json.obj [("remark", Json.str "new")])) =
      ({ rows := [{ Toy.ghostItem with Remark := "new", UpdatedAt := 9 }], seq := 1 },
        response.Success (Toy.bodyContext (Json.obj [("remark", Json.str "new")]))
          (some (product.Product.toJson Toy.lib
            { Toy.ghostItem with Remark := "new", UpdatedAt := 9 }))) ∧
    user.Handler.Update Toy.lib 9 { users := [{ Toy.alice with DeletedAt := some 4 }], seq := 1 }
        none none "1" (Toy.bodyContext (Json.obj [("phone", Json.str "555")])) =
      ({ users := [{ Toy.alice with DeletedAt := some 4, Phone := "555", UpdatedAt := 9 }],
         seq := 1 },
        response.Success (Toy.bodyContext (Json.obj [("phone", Json.str "555")]))
          (some (user.User.toJson Toy.lib
            { Toy.alice with DeletedAt := some 4, Phone := "555", UpdatedAt := 9 }))) :=
  ⟨rfl, by rfl, rfl, Update_ghostItem, by rfl⟩

end Erp
